import Mathlib

/-!
# kObjCache (src/kObjCache/kObjCache.c): a shallow embedding

The object cache tool of kBuild, embedded function by function.

Conventions of the embedding.

* A C string is the list of its characters, without the terminating NUL
  (`CStr`); a `char *` that may be NULL is an `Option CStr`.
* A pointer to a `KOCSUM` is a `PKOCSUM`: NULL, the address of one of the two
  records embedded in the cache entry (`SumHead`, `NewSum`), or the address of
  some other record.  The contents of the other records are given by a heap.
* A function that can call `exit`, run into undefined behaviour (a NULL
  dereference, a read outside a string, the use of an uninitialised
  variable) or wait for ever returns a `Res`.
* The operating system is a parameter (`OS`): its primitives act on an
  abstract world `W`.  Functions that make system calls run in the monad `M`,
  which threads the world and collects the events the function emits.
  `realpath`, like every other primitive, reads the world it is called in.
* Allocation (`xmalloc`, `xstrdup`) is taken to succeed on the paths modelled
  in `M`; progress messages (`kObjCacheVerbose`) are not modelled, except that
  `kObjCacheRead` and `kObjCacheWrite`, which do nothing else, emit an event
  that marks their execution.
* The Unix variant (neither `__OS2__` nor `__WIN__`) is the one embedded.
-/

namespace kObjCache

/-- A C string: its characters up to, not including, the terminating NUL. -/
abbrev CStr := List Char

/-- The NUL character. -/
def NUL : Char := Char.ofNat 0

/-- Outcome of running a piece of the program. -/
inductive Res (α : Type) where
  /-- the function returned normally -/
  | ok (a : α)
  /-- the process ended through `exit(code)` -/
  | exit (code : Nat)
  /-- undefined behaviour was reached -/
  | undef
  /-- the function never returns (a loop ran out of fuel) -/
  | hang
  deriving DecidableEq, Repr

/-- C `strcmp`: negative, zero or positive as the first string is less than,
equal to or greater than the second (only the sign of the result is
specified by the C standard; the values used are -1, 0 and 1). -/
def strcmp : CStr → CStr → Int
  | [], [] => 0
  | [], _ :: _ => -1
  | _ :: _, [] => 1
  | a :: as, b :: bs => if a = b then strcmp as bs else if a.toNat < b.toNat then -1 else 1

/-- C `strncmp`: as `strcmp`, over at most `n` characters. -/
def strncmp : CStr → CStr → Nat → Int
  | _, _, 0 => 0
  | [], [], _ + 1 => 0
  | [], _ :: _, _ + 1 => -1
  | _ :: _, [], _ + 1 => 1
  | a :: as, b :: bs, n + 1 =>
    if a = b then strncmp as bs n else if a.toNat < b.toNat then -1 else 1

/-- Reading `psz[i]`: a character of the string, the terminator at index
`strlen`, and nothing (a read outside the string) beyond. -/
def charAt (psz : CStr) (i : Nat) : Option Char :=
  if i < psz.length then psz.get? i
  else if i = psz.length then some NUL
  else none

/-! ## Checksums -/

/-- Pointer to a `KOCSUM`. -/
inductive PKOCSUM where
  /-- the NULL pointer -/
  | null
  /-- the address `&pEntry->SumHead` -/
  | sumHead
  /-- the address `&pEntry->NewSum` -/
  | newSum
  /-- the address of a record outside the cache entry -/
  | node (addr : Nat)
  deriving DecidableEq, Repr

/-- A checksum list entry (`struct KOCSUM`). -/
structure KOCSUM where
  /-- The next checksum. -/
  pNext : PKOCSUM
  /-- The crc32 checksum. -/
  crc32 : Nat
  /-- The MD5 digest (16 bytes). -/
  md5 : List Nat
  deriving DecidableEq, Repr

/-- C `memcmp` on two byte arrays, over their first `n` bytes: zero exactly
when these agree. -/
def memcmp (a b : List Nat) (n : Nat) : Int :=
  if a.take n = b.take n then 0 else 1

/-- Memory as seen through `KOCSUM` pointers: the record a pointer refers to.
The NULL pointer refers to none. -/
def deref (mem : PKOCSUM → Option KOCSUM) (p : PKOCSUM) : Option KOCSUM :=
  if p = PKOCSUM.null then none else mem p

/-- Embedding of `kObjCacheSumIsEqual`.  `none` is a NULL dereference. -/
def kObjCacheSumIsEqual (mem : PKOCSUM → Option KOCSUM) (pSum1 pSum2 : PKOCSUM) :
    Option Nat :=
  if pSum1 = pSum2 then some 1
  else if pSum1 ≠ PKOCSUM.null ∨ pSum2 = PKOCSUM.null then some 0
  else
    match deref mem pSum1, deref mem pSum2 with
    | some s1, some s2 =>
      if s1.crc32 ≠ s2.crc32 then some 0
      else if memcmp s1.md5 s2.md5 16 ≠ 0 then some 0
      else some 1
    | _, _ => none

/-! ## The cache entry -/

/-- The object cache data (`struct KOBJCACHE`). -/
structure KOBJCACHE where
  /-- The cache dir that all other names are relative to. -/
  pszDir : Option CStr
  /-- The name of the cache file. -/
  pszName : Option CStr
  /-- Set if the object needs to be (re)compiled. -/
  fNeedCompiling : Nat
  /-- The name of new precompiled output. -/
  pszNewCppName : Option CStr
  /-- The 'mapping' (content) of the new precompiled output. -/
  pszNewCppMapping : Option (List Nat)
  /-- The size of the new precompiled output 'mapping'. -/
  cbNewCppMapping : Nat
  /-- The new checksum. -/
  NewSum : KOCSUM
  /-- The new object filename (relative to the cache file). -/
  pszNewObjName : Option CStr
  /-- The name of the precompiled output. (relative to the cache file) -/
  pszOldCppName : Option CStr
  /-- The 'mapping' of the old precompiled output. -/
  pszOldCppMapping : Option (List Nat)
  /-- The size of the old precompiled output 'mapping'. -/
  cbOldCppMapping : Nat
  /-- The raw cache file buffer. -/
  pszRawFile : Option CStr
  /-- The head of the checksum list. -/
  SumHead : KOCSUM
  /-- The object filename (relative to the cache file). -/
  pszObjName : Option CStr
  /-- The compile argument vector used to build the object. -/
  papszArgvCompile : Option (List CStr)
  /-- The size of the compile argument vector. -/
  cArgvCompile : Nat
  deriving DecidableEq, Repr

/-- A `KOCSUM` of zero bytes. -/
def KOCSUM.zero : KOCSUM := { pNext := PKOCSUM.null, crc32 := 0, md5 := List.replicate 16 0 }

/-- The entry after `memset(pEntry, 0, sizeof(*pEntry))`. -/
def KOBJCACHE.zero : KOBJCACHE :=
  { pszDir := none, pszName := none, fNeedCompiling := 0,
    pszNewCppName := none, pszNewCppMapping := none, cbNewCppMapping := 0,
    NewSum := KOCSUM.zero, pszNewObjName := none,
    pszOldCppName := none, pszOldCppMapping := none, cbOldCppMapping := 0,
    pszRawFile := none, SumHead := KOCSUM.zero, pszObjName := none,
    papszArgvCompile := none, cArgvCompile := 0 }

/-- The record a `KOCSUM` pointer refers to, given the entry that holds
`SumHead` and `NewSum` and the heap that holds every other record. -/
def KOBJCACHE.mem (pEntry : KOBJCACHE) (heap : Nat → Option KOCSUM) :
    PKOCSUM → Option KOCSUM
  | PKOCSUM.null => none
  | PKOCSUM.sumHead => some pEntry.SumHead
  | PKOCSUM.newSum => some pEntry.NewSum
  | PKOCSUM.node a => heap a

/-! ## The operating system, events and the monad -/

/-- What one call of `waitpid` reports. -/
structure WaitRes where
  /-- the value `waitpid` returns -/
  ret : Int
  /-- whether `errno == EINTR` after the call -/
  eintr : Bool
  /-- the status word stored through the second argument, if one was stored -/
  status : Option Nat
  deriving DecidableEq, Repr

/-- The wait-status test `WIFEXITED` (the usual Unix encoding of the status
word: the low seven bits hold the terminating signal, zero for an exit). -/
def WIFEXITED (iStatus : Nat) : Bool := iStatus % 128 == 0

/-- The exit status `WEXITSTATUS` (bits 8 to 15 of the status word). -/
def WEXITSTATUS (iStatus : Nat) : Nat := (iStatus / 256) % 256

/-- The system and library primitives the tool calls, over a world `W`. -/
structure OS (W : Type) where
  /-- the call `realpath`, in the world it is made in: the canonical path, or failure -/
  realpath : W → CStr → Option CStr
  /-- the call `stat` followed by `S_ISREG`: it succeeds and names a regular file -/
  statIsReg : W → CStr → Bool
  /-- the call `unlink` (its result is never looked at) -/
  unlink : W → CStr → W
  /-- the call `rename`, with its return value -/
  rename : W → CStr → CStr → W × Int
  /-- the call `fork` seen from the parent: the child redirects its stdout when a file
  is given and executes the argument vector; the value is the one `fork`
  returns in the parent (the pid of the child, or a negative value) -/
  fork : W → List CStr → Option CStr → W × Int
  /-- the call `waitpid` -/
  waitpid : W → Int → W × WaitRes
  /-- the calls `open`, `lseek`, `malloc` and `read` of a whole file: its bytes, or failure -/
  readFile : W → CStr → Option (List Nat)
  /-- the value of `crc32(0, buffer, size)` -/
  crc32 : List Nat → Nat
  /-- the digest of `MD5Init`, `MD5Update`, `MD5Final` over a buffer -/
  md5 : List Nat → List Nat

/-- Messages written to stderr or stdout. -/
inductive Diag where
  /-- fatal: "Failed to find abs path for ..." -/
  | fatalAbsPath
  /-- fatal: "failed to rename ..." -/
  | fatalRename
  /-- fatal: "failed to open/read ..." -/
  | fatalRead
  /-- fatal: "... - waitpid failed ..." -/
  | fatalWaitpid (pszMsg : CStr)
  /-- fatal: "... - abended ..." -/
  | fatalAbended (pszMsg : CStr)
  /-- fatal: "... - failed with rc ..." -/
  | fatalFailed (pszMsg : CStr) (rc : Nat)
  /-- the message of `CalcRelativeName` that complicated relative paths are not implemented -/
  | notImplemented
  /-- the message of `SyntaxError` -/
  | syntaxError (what : CStr)
  /-- the text of `usage` -/
  | usage
  /-- the version line -/
  | version
  /-- fatal: "out of memory (...)" -/
  | fatalOutOfMemory (cb : Nat)
  deriving DecidableEq, Repr

/-- Observable steps of a run. -/
inductive Event where
  /-- the call `stat(path)` -/
  | stat (path : CStr)
  /-- the call `unlink(path)` -/
  | unlink (path : CStr)
  /-- the call `rename(old, new)` -/
  | rename (old new : CStr)
  /-- the fork of a child for `argv` by `kObjCacheSpawn`; `pid` is what `fork` returned -/
  | spawn (pszMsg : CStr) (argv : List CStr) (pszStdOut : Option CStr) (pid : Int)
  /-- the call `waitpid(pid, ...)` by `kObjCacheSpawn` (called with `pszMsg`) -/
  | waitpid (pszMsg : CStr) (pid : Int) (r : WaitRes)
  /-- a file was opened and read -/
  | readFile (path : CStr)
  /-- a message was written to stderr -/
  | stderr (d : Diag)
  /-- a message was written to stdout -/
  | stdout (d : Diag)
  /-- the execution of `kObjCacheRead` -/
  | cacheRead
  /-- the execution of `kObjCacheWrite` -/
  | cacheWrite
  deriving DecidableEq, Repr

/-- Computations that make system calls: from the world to an outcome, the
new world and the events emitted, in order. -/
def M (W : Type) (α : Type) : Type := W → Res α × W × List Event

/-- An outcome preceded by the events `t`. -/
def after {W α : Type} (t : List Event) (r : Res α × W × List Event) :
    Res α × W × List Event :=
  (r.1, r.2.1, t ++ r.2.2)

/-- Sequencing: the second computation runs only when the first returned. -/
def M.bind {W α β : Type} (m : M W α) (f : α → M W β) : M W β := fun w =>
  match m w with
  | (Res.ok a, w1, t1) => after t1 (f a w1)
  | (Res.exit c, w1, t1) => (Res.exit c, w1, t1)
  | (Res.undef, w1, t1) => (Res.undef, w1, t1)
  | (Res.hang, w1, t1) => (Res.hang, w1, t1)

/-- Returning a value. -/
def M.pure {W α : Type} (a : α) : M W α := fun w => (Res.ok a, w, [])

instance (W : Type) : Monad (M W) where
  pure := M.pure
  bind := M.bind

/-- Stop with an outcome that is not a normal return. -/
def M.stop {W α : Type} (r : Res α) : M W α := fun w => (r, w, [])

/-- Emit one event. -/
def M.emit {W : Type} (ev : Event) : M W Unit := fun w => (Res.ok (), w, [ev])

/-- Use a pointer that must not be NULL. -/
def M.nonNull {W α : Type} : Option α → M W α
  | some a => M.pure a
  | none => M.stop Res.undef

/-- Run a computation that makes no system call. -/
def M.lift {W α : Type} (r : Res α) : M W α := fun w => (r, w, [])

/-- Embedding of `kObjCacheFatal`: print the message and `exit(1)`. -/
def kObjCacheFatal {W α : Type} (_pEntry : KOBJCACHE) (d : Diag) : M W α :=
  fun w => (Res.exit 1, w, [Event.stderr d])

/-! ## Path helpers -/

/-- Embedding of `AbsPath`: the canonical path, or the path itself when
`realpath` fails. -/
def AbsPath {W : Type} (os : OS W) (w : W) (pszPath : CStr) : CStr :=
  match os.realpath w pszPath with
  | none => pszPath
  | some szTmp => szTmp

/-- The loop of `FindFilenameInPath`, on the offset of `pszFilename` in
`pszPath`: step back while the offset is positive and the character before
it is not a slash. -/
def FindFilenameInPath.loop (pszPath : CStr) : Nat → Nat
  | 0 => 0
  | k + 1 => if pszPath.get? k ≠ some '/' then FindFilenameInPath.loop pszPath k else k + 1

/-- Embedding of `FindFilenameInPath`: the offset in `pszPath` of the pointer
returned.  The search starts at `strchr(pszPath, 0) - 1`, which for the empty
string is one before the start of the string. -/
def FindFilenameInPath (pszPath : CStr) : Int :=
  if pszPath.length = 0 then -1
  else (FindFilenameInPath.loop pszPath (pszPath.length - 1) : Nat)

/-- Embedding of `MakePathFromDirAndFile`. -/
def MakePathFromDirAndFile (pszName pszDir : CStr) : CStr :=
  if 0 < pszDir.length ∧ pszDir.getLast? ≠ some '/' then pszDir ++ '/' :: pszName
  else pszDir ++ pszName

/-- Embedding of `ArePathsIdentical`. -/
def ArePathsIdentical (pszPath1 pszPath2 : CStr) (cch : Nat) : Bool :=
  strncmp pszPath1 pszPath2 cch == 0

/-- The tail of `CalcRelativeName` when `pszRet` is set: skip leading
slashes and duplicate the rest. -/
def CalcRelativeName.ret (pszRet : CStr) : CStr :=
  pszRet.dropWhile (fun c => c == '/')

/-- Embedding of `CalcRelativeName`, without its message: the name, or
`exit 1` where the function prints that complicated relative paths are not
implemented.  In the second branch the character looked at is that of
`pszPath`, as in the source. -/
def CalcRelativeName.val {W : Type} (os : OS W) (w : W) (pszPath pszDir : CStr) : Res CStr :=
  let cchDir := pszDir.length
  if ArePathsIdentical pszPath pszDir cchDir then
    match charAt pszPath cchDir with
    | none => Res.undef
    | some c =>
      if c ≠ NUL then Res.ok (CalcRelativeName.ret (pszPath.drop cchDir))
      else Res.ok (CalcRelativeName.ret ['.', '/'])
  else
    let pszAbsPath := AbsPath os w pszPath
    if ArePathsIdentical pszAbsPath pszDir cchDir then
      match charAt pszPath cchDir with
      | none => Res.undef
      | some c =>
        if c ≠ NUL then Res.ok (CalcRelativeName.ret (pszAbsPath.drop cchDir))
        else Res.ok (CalcRelativeName.ret ['.', '/'])
    else Res.exit 1

/-- Embedding of `CalcRelativeName`. -/
def CalcRelativeName {W : Type} (os : OS W) (pszPath pszDir : CStr) : M W CStr :=
  fun w =>
    match CalcRelativeName.val os w pszPath pszDir with
    | Res.exit c => (Res.exit c, w, [Event.stderr Diag.notImplemented])
    | r => (r, w, [])

/-! ## Files in the cache directory -/

/-- Embedding of `UnlinkFileInDir`. -/
def UnlinkFileInDir {W : Type} (os : OS W) (pszName pszDir : CStr) : M W Unit :=
  fun w =>
    let pszPath := MakePathFromDirAndFile pszName pszDir
    (Res.ok (), os.unlink w pszPath, [Event.unlink pszPath])

/-- Embedding of `RenameFileInDir`.  The two combined paths are built; the
call made is `rename(pszOldName, pszNewName)`. -/
def RenameFileInDir {W : Type} (os : OS W) (pszOldName pszNewName _pszDir : CStr) :
    M W Int :=
  fun w =>
    match os.rename w pszOldName pszNewName with
    | (w1, rc) => (Res.ok rc, w1, [Event.rename pszOldName pszNewName])

/-- Embedding of `DoesFileInDirExist`. -/
def DoesFileInDirExist {W : Type} (os : OS W) (pszName pszDir : CStr) : M W Bool :=
  fun w =>
    let pszPath := MakePathFromDirAndFile pszName pszDir
    (Res.ok (os.statIsReg w pszPath), w, [Event.stat pszPath])

/-- Embedding of `ReadFileInDir`: the buffer (with its size), or NULL.  The
combined path is built; the file opened is `pszName`. -/
def ReadFileInDir {W : Type} (os : OS W) (pszName _pszDir : CStr) :
    M W (Option (List Nat × Nat)) :=
  fun w =>
    match os.readFile w pszName with
    | some pb => (Res.ok (some (pb ++ [0], pb.length)), w, [Event.readFile pszName])
    | none => (Res.ok none, w, [Event.readFile pszName])

/-! ## Creating, reading and writing the entry -/

/-- Embedding of `kObjCacheCreate`.  `pszName` points into the buffer of
`pszDir`; the byte before it is overwritten with a NUL, which cuts `pszDir`
there.  With `pszName` one before the start of the buffer that store falls
outside the buffer. -/
def kObjCacheCreate {W : Type} (os : OS W) (pszFilename : CStr) : M W KOBJCACHE :=
  fun w =>
    let pszDir := AbsPath os w pszFilename
    let off := FindFilenameInPath pszDir
    let pEntry : KOBJCACHE :=
      { KOBJCACHE.zero with pszDir := some pszDir, pszName := some (pszDir.drop off.toNat) }
    if off = 0 then kObjCacheFatal pEntry Diag.fatalAbsPath w
    else if off < 0 then M.stop Res.undef w
    else
      M.pure { pEntry with pszDir := some (pszDir.take (off.toNat - 1)),
                           pszName := some (pszDir.drop off.toNat) } w

/-- Embedding of `kObjCacheRead`. -/
def kObjCacheRead {W : Type} (pEntry : KOBJCACHE) : M W KOBJCACHE := do
  M.emit Event.cacheRead
  pure { pEntry with fNeedCompiling := 1 }

/-- Embedding of `kObjCacheWrite`. -/
def kObjCacheWrite {W : Type} (_pEntry : KOBJCACHE) : M W Unit :=
  M.emit Event.cacheWrite

/-! ## Spawning a child -/

/-- The `while (pidWait < 0 && errno == EINTR)` loop of `kObjCacheSpawn`.
The state is the last result of `waitpid` and the content of `iStatus`
(nothing while no call has stored a status). -/
def kObjCacheSpawn.waitLoop {W : Type} (os : OS W) (pszMsg : CStr) (pid : Int) :
    Nat → WaitRes → Option Nat → M W (Int × Option Nat)
  | 0, r, iStatus =>
    if r.ret < 0 ∧ r.eintr = true then M.stop Res.hang else M.pure (r.ret, iStatus)
  | fuel + 1, r, iStatus =>
    if r.ret < 0 ∧ r.eintr = true then
      fun w =>
        match os.waitpid w pid with
        | (w1, r1) =>
          match kObjCacheSpawn.waitLoop os pszMsg pid fuel r1 (r1.status.orElse fun _ => iStatus) w1 with
          | (res, w2, t2) => (res, w2, Event.waitpid pszMsg pid r1 :: t2)
    else M.pure (r.ret, iStatus)

/-- The checks of `kObjCacheSpawn` after the wait loop, on the last value of
`pidWait` and the content of `iStatus`. -/
def kObjCacheSpawn.check {W : Type} (pEntry : KOBJCACHE) (pszMsg : CStr) (pid : Int)
    (pidWait : Int) (iStatus : Option Nat) : M W Unit :=
  if pidWait ≠ pid then kObjCacheFatal pEntry (Diag.fatalWaitpid pszMsg)
  else
    match iStatus with
    | none => M.stop Res.undef
    | some st =>
      if WIFEXITED st = false then kObjCacheFatal pEntry (Diag.fatalAbended pszMsg)
      else if WEXITSTATUS st ≠ 0 then
        kObjCacheFatal pEntry (Diag.fatalFailed pszMsg (WEXITSTATUS st))
      else M.pure ()

/-- Embedding of `kObjCacheSpawn`, as the parent runs it; `fuel` bounds the
number of interrupted waits.  The source of this variant names two
undeclared variables (`fdReDir`, `rc`) and calls `waitpid` with two
arguments; the embedding follows its control flow. -/
def kObjCacheSpawn {W : Type} (os : OS W) (fuel : Nat) (pEntry : KOBJCACHE)
    (papszArgv : List CStr) (_cArgv : Nat) (pszMsg : CStr) (pszStdOut : Option CStr) :
    M W Unit := do
  let pid ← (fun w =>
    match os.fork w papszArgv pszStdOut with
    | (w1, pid) => (Res.ok pid, w1, [Event.spawn pszMsg papszArgv pszStdOut pid]) : M W Int)
  let r0 ← (fun w =>
    match os.waitpid w pid with
    | (w1, r) => (Res.ok r, w1, [Event.waitpid pszMsg pid r]) : M W WaitRes)
  let res ← kObjCacheSpawn.waitLoop os pszMsg pid fuel r0 r0.status
  kObjCacheSpawn.check pEntry pszMsg pid res.1 res.2

/-! ## The precompiler -/

/-- Embedding of `kObjCacheCalcChecksum`. -/
def kObjCacheCalcChecksum {W : Type} (os : OS W) (pEntry : KOBJCACHE) : M W KOBJCACHE := do
  let pszNewCppName ← M.nonNull pEntry.pszNewCppName
  let pszDir ← M.nonNull pEntry.pszDir
  match (← ReadFileInDir os pszNewCppName pszDir) with
  | none => kObjCacheFatal pEntry Diag.fatalRead
  | some (pb, cb) =>
    pure { pEntry with
      pszNewCppMapping := some pb
      cbNewCppMapping := cb
      NewSum := { pEntry.NewSum with crc32 := os.crc32 (pb.take cb), md5 := os.md5 (pb.take cb) } }

/-- The first part of `kObjCachePreCompile`: rename the old precompiled
output to `-old`. -/
def kObjCachePreCompile.rotate {W : Type} (os : OS W) (pEntry : KOBJCACHE) :
    M W KOBJCACHE := do
  match pEntry.pszOldCppName with
  | none => pure pEntry
  | some pszOldCppName =>
    let pszDir ← M.nonNull pEntry.pszDir
    if (← DoesFileInDirExist os pszOldCppName pszDir) then
      let psz := pszOldCppName ++ ['-', 'o', 'l', 'd']
      UnlinkFileInDir os psz pszDir
      let rc ← RenameFileInDir os pszOldCppName psz pszDir
      if rc ≠ 0 then kObjCacheFatal pEntry Diag.fatalRename
      else pure { pEntry with pszOldCppName := some psz }
    else pure pEntry

/-- Embedding of `kObjCachePreCompile`. -/
def kObjCachePreCompile {W : Type} (os : OS W) (fuel : Nat) (pEntry : KOBJCACHE)
    (papszArgvPreComp : List CStr) (cArgvPreComp : Nat) (pszPreCompName : Option CStr)
    (fRedirStdOut : Nat) : M W KOBJCACHE := do
  let pEntry ← kObjCachePreCompile.rotate os pEntry
  let pszName ← M.nonNull pszPreCompName
  let pszDir ← M.nonNull pEntry.pszDir
  let pszNewCppName ← CalcRelativeName os pszName pszDir
  let pEntry := { pEntry with pszNewCppName := some pszNewCppName }
  if fRedirStdOut ≠ 0 then
    kObjCacheSpawn os fuel pEntry papszArgvPreComp cArgvPreComp "precompile".toList pszPreCompName
  else
    kObjCacheSpawn os fuel pEntry papszArgvPreComp cArgvPreComp "precompile".toList none
  kObjCacheCalcChecksum os pEntry

/-! ## The compiler -/

/-- Embedding of `kObjCacheCompareOldAndNewOutput`. -/
def kObjCacheCompareOldAndNewOutput (_pEntry : KOBJCACHE) : Nat := 0

/-- Embedding of `kObjCacheCompileIt`. -/
def kObjCacheCompileIt {W : Type} (os : OS W) (fuel : Nat) (pEntry : KOBJCACHE)
    (papszArgvCompile : List CStr) (cArgvCompile : Nat) (pszObjName : Option CStr) :
    M W KOBJCACHE := do
  let pszDir ← M.nonNull pEntry.pszDir
  let pEntry ← (match pEntry.pszObjName with
    | some pszOld => do
      UnlinkFileInDir os pszOld pszDir
      pure { pEntry with pszObjName := none }
    | none => pure pEntry : M W KOBJCACHE)
  let pszObj ← M.nonNull pszObjName
  let pszNewObjName ← CalcRelativeName os pszObj pszDir
  let pEntry := { pEntry with
    pszNewObjName := some pszNewObjName
    pszNewCppMapping := none
    pszOldCppMapping := none
    papszArgvCompile := some papszArgvCompile
    cArgvCompile := cArgvCompile }
  kObjCacheSpawn os fuel pEntry papszArgvCompile cArgvCompile "compile".toList none
  pure pEntry

/-- First check of `kObjCacheCompileIfNeeded`: does the object name differ? -/
def kObjCacheCompileIfNeeded.objName {W : Type} (os : OS W) (pEntry : KOBJCACHE)
    (pszObjName : Option CStr) : M W KOBJCACHE := do
  if pEntry.fNeedCompiling = 0 then
    let pszObj ← M.nonNull pszObjName
    let pszDir ← M.nonNull pEntry.pszDir
    let pszTmp ← CalcRelativeName os pszObj pszDir
    let pszStored ← M.nonNull pEntry.pszObjName
    if strcmp pszStored pszTmp ≠ 0 then pure { pEntry with fNeedCompiling := 1 }
    else pure pEntry
  else pure pEntry

/-- The loop over the two argument vectors, from index `i` with `n` indices
left: whether an element differs.  Reading the NULL that ends a vector, or
beyond it, and handing it to `strcmp` is undefined. -/
def kObjCacheCompileIfNeeded.argvLoop (papszArgvCompile papszStored : List CStr) :
    Nat → Nat → Res Bool
  | _, 0 => Res.ok false
  | i, n + 1 =>
    match papszArgvCompile.get? i, papszStored.get? i with
    | some a, some b =>
      if strcmp a b ≠ 0 then Res.ok true
      else kObjCacheCompileIfNeeded.argvLoop papszArgvCompile papszStored (i + 1) n
    | _, _ => Res.undef

/-- Second check of `kObjCacheCompileIfNeeded`: does the compile command
differ? -/
def kObjCacheCompileIfNeeded.argv (pEntry : KOBJCACHE)
    (papszArgvCompile : List CStr) (cArgvCompile : Nat) : Res KOBJCACHE :=
  let pEntry :=
    if pEntry.fNeedCompiling = 0 ∧ pEntry.cArgvCompile ≠ cArgvCompile then
      { pEntry with fNeedCompiling := 1 }
    else pEntry
  if pEntry.fNeedCompiling = 0 then
    match pEntry.papszArgvCompile with
    | none => if cArgvCompile = 0 then Res.ok pEntry else Res.undef
    | some papszStored =>
      match kObjCacheCompileIfNeeded.argvLoop papszArgvCompile papszStored 0 cArgvCompile with
      | Res.ok true => Res.ok { pEntry with fNeedCompiling := 1 }
      | Res.ok false => Res.ok pEntry
      | Res.exit c => Res.exit c
      | Res.undef => Res.undef
      | Res.hang => Res.hang
  else Res.ok pEntry

/-- Third check of `kObjCacheCompileIfNeeded`: does the object file exist? -/
def kObjCacheCompileIfNeeded.objExists {W : Type} (os : OS W) (pEntry : KOBJCACHE) :
    M W KOBJCACHE := do
  if pEntry.fNeedCompiling = 0 then
    let pszStored ← M.nonNull pEntry.pszObjName
    let pszDir ← M.nonNull pEntry.pszDir
    if (← DoesFileInDirExist os pszStored pszDir) then pure pEntry
    else pure { pEntry with fNeedCompiling := 1 }
  else pure pEntry

/-- The loop over the checksum list, from `pSum`: the value of `fFound`. -/
def kObjCacheCompileIfNeeded.sumLoop (mem : PKOCSUM → Option KOCSUM) :
    Nat → PKOCSUM → Res Nat
  | _, PKOCSUM.null => Res.ok 0
  | 0, _ => Res.hang
  | fuel + 1, pSum =>
    match kObjCacheSumIsEqual mem pSum PKOCSUM.newSum with
    | none => Res.undef
    | some r =>
      if r ≠ 0 then Res.ok 1
      else
        match deref mem pSum with
        | none => Res.undef
        | some sum => kObjCacheCompileIfNeeded.sumLoop mem fuel sum.pNext

/-- Fourth check of `kObjCacheCompileIfNeeded`: does the precompiled output
differ in any significant way? -/
def kObjCacheCompileIfNeeded.sums (fuel : Nat) (heap : Nat → Option KOCSUM)
    (pEntry : KOBJCACHE) : Res KOBJCACHE :=
  if pEntry.fNeedCompiling = 0 then
    match kObjCacheCompileIfNeeded.sumLoop (pEntry.mem heap) fuel PKOCSUM.sumHead with
    | Res.ok fFound =>
      if fFound = 0 then
        if kObjCacheCompareOldAndNewOutput pEntry = 0 then
          Res.ok { pEntry with fNeedCompiling := 1 }
        else
          Res.ok { pEntry with
            NewSum := { pEntry.NewSum with pNext := pEntry.SumHead.pNext }
            SumHead := { pEntry.SumHead with pNext := PKOCSUM.newSum } }
      else Res.ok pEntry
    | Res.exit c => Res.exit c
    | Res.undef => Res.undef
    | Res.hang => Res.hang
  else Res.ok pEntry

/-- The step of `kObjCacheCompileIfNeeded` that discards the old precompiled
output. -/
def kObjCacheCompileIfNeeded.discardOld {W : Type} (os : OS W) (pEntry : KOBJCACHE) :
    M W KOBJCACHE := do
  match pEntry.pszOldCppName with
  | some pszOldCppName =>
    let pszDir ← M.nonNull pEntry.pszDir
    UnlinkFileInDir os pszOldCppName pszDir
    pure { pEntry with pszOldCppName := none }
  | none => pure pEntry

/-- Embedding of `kObjCacheCompileIfNeeded`. -/
def kObjCacheCompileIfNeeded {W : Type} (os : OS W) (fuel : Nat)
    (heap : Nat → Option KOCSUM) (pEntry : KOBJCACHE)
    (papszArgvCompile : List CStr) (cArgvCompile : Nat) (pszObjName : Option CStr) :
    M W KOBJCACHE := do
  let pEntry ← kObjCacheCompileIfNeeded.objName os pEntry pszObjName
  let pEntry ← M.lift (kObjCacheCompileIfNeeded.argv pEntry papszArgvCompile cArgvCompile)
  let pEntry ← kObjCacheCompileIfNeeded.objExists os pEntry
  let pEntry ← M.lift (kObjCacheCompileIfNeeded.sums fuel heap pEntry)
  let pEntry ← kObjCacheCompileIfNeeded.discardOld os pEntry
  if pEntry.fNeedCompiling ≠ 0 then
    kObjCacheCompileIt os fuel pEntry papszArgvCompile cArgvCompile pszObjName
  else pure pEntry

/-- The outcome of a call that, in the world `w1` and after the events `t1`,
spawns the compiler for `papszArgv` on the entry `pEntry`, and returns
`pEntry` if `kObjCacheSpawn` returns. -/
def compileOutcome {W : Type} (os : OS W) (fuel : Nat) (pEntry : KOBJCACHE)
    (papszArgv : List CStr) (cArgv : Nat) (w1 : W) (t1 : List Event) :
    Res KOBJCACHE × W × List Event :=
  after t1 (M.bind (kObjCacheSpawn os fuel pEntry papszArgv cArgv "compile".toList none)
      (fun _ => M.pure pEntry) w1)

/-- The parsing mode of `main` (`enmMode`). -/
inductive Mode where
  | kOC_Options
  | kOC_CppArgv
  | kOC_CcArgv
  | kOC_BothArgv
  deriving DecidableEq, Repr

/-- What a slot of an argument vector holds. -/
inductive Slot where
  /-- a pointer to a token of the command line -/
  | token (s : CStr)
  /-- the NULL pointer -/
  | null
  /-- nothing was stored in the slot yet -/
  | unset
  deriving DecidableEq, Repr

/-- The local variables of `main` (and `g_fVerbose`) during argument parsing.
`pszCacheFile` has no initialiser: it is `none` until it is assigned.  An
argument vector is held as the tokens stored in it, with its count and the
number of slots allocated; `memArgvPreComp` and `memArgvCompile` are the
memory the two pointers `papszArgvPreComp` and `papszArgvCompile` point to,
slot by slot, and `none` when the pointer is NULL. -/
structure MainVars where
  pszCacheFile : Option CStr
  papszArgvPreComp : List CStr
  cArgvPreComp : Nat
  capArgvPreComp : Nat
  pszPreCompName : Option CStr
  fRedirStdOut : Nat
  papszArgvCompile : List CStr
  cArgvCompile : Nat
  capArgvCompile : Nat
  pszObjName : Option CStr
  enmMode : Mode
  g_fVerbose : Nat
  memArgvPreComp : Option (List Slot)
  memArgvCompile : Option (List Slot)
  deriving DecidableEq, Repr

/-- The variables of `main` as declared. -/
def MainVars.init : MainVars :=
  { pszCacheFile := none,
    papszArgvPreComp := [], cArgvPreComp := 0, capArgvPreComp := 0,
    pszPreCompName := none, fRedirStdOut := 0,
    papszArgvCompile := [], cArgvCompile := 0, capArgvCompile := 0,
    pszObjName := none, enmMode := Mode.kOC_Options, g_fVerbose := 0,
    memArgvPreComp := none, memArgvCompile := none }

/-- Appending a token to an argument vector of `c` tokens in `cap` slots:
grow to `c + 17` slots when `c` is a multiple of 16, store the token at
index `c` and NULL at index `c + 1`.  A store outside the slots is undefined. -/
def main.append (papsz : List CStr) (c cap : Nat) (tok : CStr) :
    Option (List CStr × Nat × Nat) :=
  let cap1 := if c % 16 = 0 then c + 17 else cap
  if c + 1 < cap1 then some (papsz ++ [tok], c + 1, cap1) else none

/-- The same statements of the loop of `main`, on the memory of the argument
vector (`none` is the NULL pointer): when the count `c` is a multiple of 16,
`xrealloc` to `c + 17` slots, which keeps the slots there are and leaves
the new ones unset; then the token is stored at index `c` and NULL at index
`c + 1`.  A store outside the slots, or through the NULL pointer, is
undefined. -/
def main.store (papsz : Option (List Slot)) (c : Nat) (tok : CStr) : Option (List Slot) :=
  let papsz1 : Option (List Slot) :=
    if c % 16 = 0 then
      some ((papsz.getD []).take (c + 17)
        ++ List.replicate (c + 17 - (papsz.getD []).length) Slot.unset)
    else papsz
  match papsz1 with
  | none => none
  | some a =>
    if c + 1 < a.length then some ((a.set c (Slot.token tok)).set (c + 1) Slot.null)
    else none

/-- How argument parsing ends. -/
inductive Parsed where
  /-- the loop ran to the end of the vector -/
  | done (v : MainVars)
  /-- return of the value of `SyntaxError`, 1, after its message on stderr -/
  | syntaxError (what : CStr)
  /-- return of 0 after printing the usage or the version on stdout -/
  | printed (d : Diag)
  /-- undefined behaviour -/
  | undef
  deriving DecidableEq, Repr

/-- The body of the loop of `main` for a token in an argv section
(`enmMode != kOC_Options`). -/
def main.collect (v : MainVars) (tok : CStr) : Option MainVars :=
  let v1 : Option MainVars :=
    if v.enmMode = Mode.kOC_CppArgv ∨ v.enmMode = Mode.kOC_BothArgv then
      match main.append v.papszArgvPreComp v.cArgvPreComp v.capArgvPreComp tok with
      | some (l, c, cap) =>
        match main.store v.memArgvPreComp v.cArgvPreComp tok with
        | some a =>
          some { v with papszArgvPreComp := l, cArgvPreComp := c, capArgvPreComp := cap,
                        memArgvPreComp := some a }
        | none => none
      | none => none
    else some v
  match v1 with
  | none => none
  | some v =>
    if v.enmMode = Mode.kOC_CcArgv ∨ v.enmMode = Mode.kOC_BothArgv then
      match main.append v.papszArgvCompile v.cArgvCompile v.capArgvCompile tok with
      | some (l, c, cap) =>
        match main.store v.memArgvCompile v.cArgvCompile tok with
        | some a =>
          some { v with papszArgvCompile := l, cArgvCompile := c, capArgvCompile := cap,
                        memArgvCompile := some a }
        | none => none
      | none => none
    else some v

/-- The argument loop of `main`, over `argv[i]`, `argv[i + 1]`, ... -/
def main.parse : List CStr → MainVars → Parsed
  | [], v => Parsed.done v
  | tok :: rest, v =>
    if strcmp tok "--kObjCache-cpp".toList = 0 then
      let v := { v with enmMode := Mode.kOC_CppArgv }
      if v.pszPreCompName = none then
        match rest with
        | [] => Parsed.syntaxError tok
        | name :: rest1 => main.parse rest1 { v with pszPreCompName := some name }
      else main.parse rest v
    else if strcmp tok "--kObjCache-cc".toList = 0 then
      let v := { v with enmMode := Mode.kOC_CcArgv }
      if v.pszObjName = none then
        match rest with
        | [] => Parsed.syntaxError tok
        | name :: rest1 => main.parse rest1 { v with pszObjName := some name }
      else main.parse rest v
    else if strcmp tok "--kObjCache-both".toList = 0 then
      main.parse rest { v with enmMode := Mode.kOC_BothArgv }
    else if strcmp tok "--help".toList = 0 then
      Parsed.printed Diag.usage
    else if v.enmMode ≠ Mode.kOC_Options then
      match main.collect v tok with
      | some v1 => main.parse rest v1
      | none => Parsed.undef
    else if strcmp tok "-f".toList = 0 ∨ strcmp tok "--file".toList = 0 then
      match rest with
      | [] => Parsed.syntaxError tok
      | name :: rest1 => main.parse rest1 { v with pszCacheFile := some name }
    else if strcmp tok "-r".toList = 0 ∨ strcmp tok "--redir-stdout".toList = 0 then
      main.parse rest { v with fRedirStdOut := 1 }
    else if strcmp tok "-v".toList = 0 ∨ strcmp tok "--verbose".toList = 0 then
      main.parse rest { v with g_fVerbose := 1 }
    else if strcmp tok "-q".toList = 0 ∨ strcmp tok "--quiet".toList = 0 then
      main.parse rest { v with g_fVerbose := 0 }
    else if strcmp tok "-h".toList = 0 ∨ strcmp tok "-?".toList = 0 then
      Parsed.printed Diag.usage
    else if strcmp tok "-V".toList = 0 ∨ strcmp tok "--version".toList = 0 then
      Parsed.printed Diag.version
    else Parsed.syntaxError tok

/-- The part of `main` after the arguments are parsed and checked: create the
entry, read it, precompile, compile if needed, write the entry. -/
def main.run {W : Type} (os : OS W) (fuel : Nat) (pszCacheFile : CStr) (v : MainVars) :
    M W Nat := do
  let pEntry ← kObjCacheCreate os pszCacheFile
  let pEntry ← kObjCacheRead pEntry
  let pEntry ← kObjCachePreCompile os fuel pEntry v.papszArgvPreComp v.cArgvPreComp
    v.pszPreCompName v.fRedirStdOut
  let pEntry ← kObjCacheCompileIfNeeded os fuel (fun _ => none) pEntry v.papszArgvCompile
    v.cArgvCompile v.pszObjName
  kObjCacheWrite pEntry
  pure 0

/-- Embedding of `main`, on the whole argument vector (`argv[0]` included).
`Res.ok rc` is a return from `main` with value `rc`.  Testing `pszCacheFile`
when no `-f` assigned it reads an uninitialised variable. -/
def main {W : Type} (os : OS W) (fuel : Nat) (argv : List CStr) : M W Nat :=
  match main.parse (argv.drop 1) MainVars.init with
  | Parsed.syntaxError what => fun w => (Res.ok 1, w, [Event.stderr (Diag.syntaxError what)])
  | Parsed.printed d => fun w => (Res.ok 0, w, [Event.stdout d])
  | Parsed.undef => M.stop Res.undef
  | Parsed.done v =>
    match v.pszCacheFile with
    | none => M.stop Res.undef
    | some pszCacheFile =>
      if v.cArgvCompile = 0 then
        fun w => (Res.ok 1, w, [Event.stderr (Diag.syntaxError "--kObjCache-cc".toList)])
      else if v.cArgvPreComp = 0 then
        fun w => (Res.ok 1, w, [Event.stderr (Diag.syntaxError "--kObjCache-cc".toList)])
      else main.run os fuel pszCacheFile v

/-- The exit code of the tool for an outcome of `main`. -/
def exitCode : Res Nat → Option Nat
  | Res.ok rc => some rc
  | Res.exit code => some code
  | _ => none

/-! ## Predicates on runs -/

/-- Every event the computation emits, in any world, satisfies `P`. -/
def emits {W α : Type} (m : M W α) (P : Event → Prop) : Prop :=
  ∀ w, ∀ ev ∈ (m w).2.2, P ev

/-- A wait for the compiler that found the child, forked with a positive pid,
exited with a status other than 0. -/
def compilerFailed (ev : Event) : Prop :=
  ∃ pid r st, ev = Event.waitpid "compile".toList pid r ∧ 0 < pid ∧ r.ret = pid
    ∧ r.status = some st ∧ WIFEXITED st = true ∧ WEXITSTATUS st ≠ 0

/-- An event that is neither a wait for the compiler nor the writing of the
cache file. -/
def quiet (ev : Event) : Prop :=
  (∀ pid r, ev ≠ Event.waitpid "compile".toList pid r) ∧ ev ≠ Event.cacheWrite

/-- An event that is not a wait for the compiler. -/
def noCompilerWait (ev : Event) : Prop :=
  ∀ pid r, ev ≠ Event.waitpid "compile".toList pid r

/-- The outcome of a run is the fatal exit with code 1, without the cache file written. -/
def fatalNoWrite {W α : Type} (res : Res α × W × List Event) : Prop :=
  res.1 = Res.exit 1 ∧ Event.cacheWrite ∉ res.2.2

/-! ## A small operating system for concrete runs -/

/-- A world: the regular files that exist, the argument vector of the child
forked last, and the files that exist and are not regular (a FIFO, a
directory). -/
structure World where
  files : List CStr
  child : List CStr
  others : List CStr := []
  deriving DecidableEq, Repr

/-- A simple operating system: `realpath` always fails, a file is regular
when it is listed, every fork succeeds with pid 100, every wait succeeds at
once, and a child exits with status 1 when its program is `false` and with
status 0 otherwise; every file opens and is empty. -/
def simOS : OS World where
  realpath := fun _ _ => none
  statIsReg := fun w p => decide (p ∈ w.files)
  unlink := fun w p => { w with files := w.files.erase p }
  rename := fun w a b =>
    if a ∈ w.files then ({ w with files := b :: (w.files.erase a).erase b }, 0) else (w, -1)
  fork := fun w argv _ => ({ w with child := argv }, 100)
  waitpid := fun w pid =>
    (w, { ret := pid, eintr := false,
          status := some (if w.child.head? = some "false".toList then 256 else 0) })
  readFile := fun _ _ => some []
  crc32 := fun _ => 0
  md5 := fun _ => List.replicate 16 0

/-- The empty world. -/
def World.empty : World := { files := [], child := [] }

/-! ## Concrete inputs -/

/-- A memory with two records of equal content at two addresses. -/
def twoEqualSums : PKOCSUM → Option KOCSUM
  | PKOCSUM.node 1 => some { pNext := PKOCSUM.null, crc32 := 7, md5 := List.replicate 16 0 }
  | PKOCSUM.node 2 => some { pNext := PKOCSUM.null, crc32 := 7, md5 := List.replicate 16 0 }
  | _ => none

/-- A populated entry for the cache directory `/c`: object `x.o` built by
`cc`, one accepted checksum (crc32 7, md5 zero) in `SumHead`, and a new
checksum `NewSum` with the same crc32 and md5. -/
def hitEntry : KOBJCACHE :=
  { KOBJCACHE.zero with
    pszDir := some "/c".toList
    pszName := some "x.cache".toList
    fNeedCompiling := 0
    pszNewCppName := some "x.i".toList
    NewSum := { pNext := PKOCSUM.null, crc32 := 7, md5 := List.replicate 16 0 }
    SumHead := { pNext := PKOCSUM.null, crc32 := 7, md5 := List.replicate 16 0 }
    pszObjName := some "x.o".toList
    papszArgvCompile := some ["cc".toList]
    cArgvCompile := 1 }

/-- A world in which the object file `/c/x.o` exists. -/
def hitWorld : World := { files := ["/c/x.o".toList], child := [] }

/-- The entry of `hitEntry` with a new checksum that is not in the list. -/
def missEntry : KOBJCACHE :=
  { hitEntry with NewSum := { pNext := PKOCSUM.null, crc32 := 9, md5 := List.replicate 16 1 } }

/-- A command line: cache file `/c/x.cache`, precompiler `cpp` writing
`/c/x.i`, compiler `cc` writing `/c/x.o`. -/
def buildCmd : List CStr :=
  ["kObjCache".toList, "-f".toList, "/c/x.cache".toList,
   "--kObjCache-cpp".toList, "/c/x.i".toList, "cpp".toList,
   "--kObjCache-cc".toList, "/c/x.o".toList, "cc".toList]

/-- The variables of `main` after parsing `buildCmd`. -/
def buildVars : MainVars :=
  { MainVars.init with
    pszCacheFile := some "/c/x.cache".toList
    papszArgvPreComp := ["cpp".toList], cArgvPreComp := 1, capArgvPreComp := 17
    pszPreCompName := some "/c/x.i".toList
    papszArgvCompile := ["cc".toList], cArgvCompile := 1, capArgvCompile := 17
    pszObjName := some "/c/x.o".toList
    enmMode := Mode.kOC_CcArgv
    memArgvPreComp :=
      some (Slot.token "cpp".toList :: Slot.null :: List.replicate 15 Slot.unset)
    memArgvCompile :=
      some (Slot.token "cc".toList :: Slot.null :: List.replicate 15 Slot.unset) }

/-- The command line `buildCmd` with the compiler `false`, which fails. -/
def failCmd : List CStr :=
  ["kObjCache".toList, "-f".toList, "/c/x.cache".toList,
   "--kObjCache-cpp".toList, "/c/x.i".toList, "cpp".toList,
   "--kObjCache-cc".toList, "/c/x.o".toList, "false".toList]

/-- The variables of `main` after parsing `failCmd`. -/
def failVars : MainVars :=
  { buildVars with
    papszArgvCompile := ["false".toList]
    memArgvCompile :=
      some (Slot.token "false".toList :: Slot.null :: List.replicate 15 Slot.unset) }

/-! ## The DOS variant of the path comparison -/

/-- The backslash character. -/
def BSLASH : Char := Char.ofNat 92

/-- C `tolower`, in the C locale. -/
def tolower (c : Char) : Char := c.toLower

/-- C `toupper`, in the C locale. -/
def toupper (c : Char) : Char := c.toUpper

/-- C `strnicmp`: as `strncmp`, on the characters folded to lower case. -/
def strnicmp (a b : CStr) (n : Nat) : Int :=
  strncmp (a.map tolower) (b.map tolower) n

/-- The `for` loop of the DOS variant of `ArePathsIdentical`, on the offset
`i` of `psz1` and `psz2` in their strings and the count left: the value
returned is 0 at the first position where the characters differ, differ in
lower case and in upper case, and none of the two is a slash or a backslash. -/
def ArePathsIdentical.dosLoop (pszPath1 pszPath2 : CStr) : Nat → Nat → Res Bool
  | _, 0 => Res.ok true
  | i, cch + 1 =>
    match charAt pszPath1 i, charAt pszPath2 i with
    | some c1, some c2 =>
      if c1 ≠ c2 then
        if tolower c1 ≠ tolower c2 ∧ toupper c1 ≠ toupper c2
            ∧ c1 ≠ '/' ∧ c1 ≠ BSLASH ∧ c2 ≠ '/' ∧ c2 ≠ BSLASH then Res.ok false
        else ArePathsIdentical.dosLoop pszPath1 pszPath2 (i + 1) cch
      else ArePathsIdentical.dosLoop pszPath1 pszPath2 (i + 1) cch
    | _, _ => Res.undef

/-- Embedding of the DOS variant of `ArePathsIdentical` (the branch compiled
on Windows and OS/2). -/
def ArePathsIdentical.dos (pszPath1 pszPath2 : CStr) (cch : Nat) : Res Bool :=
  if strnicmp pszPath1 pszPath2 cch ≠ 0 then ArePathsIdentical.dosLoop pszPath1 pszPath2 0 cch
  else Res.ok true

/-- Two characters that are equal ignoring letter case, or are both
directory separators. -/
def samePathChar (c1 c2 : Char) : Prop :=
  tolower c1 = tolower c2 ∨ ((c1 = '/' ∨ c1 = BSLASH) ∧ (c2 = '/' ∨ c2 = BSLASH))

instance (c1 c2 : Char) : Decidable (samePathChar c1 c2) := by
  unfold samePathChar
  infer_instance

/-! ## More systems and inputs for concrete runs -/

/-- The system of `simOS` in which `fork` fails, returning -1, and `waitpid`
fails with an `errno` other than `EINTR` without storing a status. -/
def forkFailOS : OS World :=
  { simOS with
    fork := fun w _ _ => (w, -1)
    waitpid := fun w _ => (w, { ret := -1, eintr := false, status := none }) }

/-- The system of `simOS` run in the working directory `/ab`, with a
`realpath` that resolves every path, whatever the world holds: it leaves an
absolute path as it is and puts `/ab/` before a relative one. -/
def cwdOS : OS World :=
  { simOS with
    realpath := fun _ p =>
      match p with
      | '/' :: _ => some p
      | _ => some ("/ab/".toList ++ p) }

/-- The file a path names in the working directory `/c`: a leading `./`, also
after `/c/`, is dropped, and `/c/` is put before a relative path. -/
def fsOS.resolve (p : CStr) : CStr :=
  match p with
  | '.' :: '/' :: r => "/c/".toList ++ r
  | '/' :: 'c' :: '/' :: '.' :: '/' :: r => "/c/".toList ++ r
  | '/' :: _ => p
  | _ => "/c/".toList ++ p

/-- The system of `simOS` run in the working directory `/c`, with a
`realpath` that reads the file system: it succeeds, with the path of
`fsOS.resolve`, exactly when that file exists, regular or not.  `stat`,
`unlink` and `rename` act on the file the path names. -/
def fsOS : OS World :=
  { simOS with
    realpath := fun w p =>
      if fsOS.resolve p ∈ w.files ∨ fsOS.resolve p ∈ w.others then some (fsOS.resolve p)
      else none
    statIsReg := fun w p => decide (fsOS.resolve p ∈ w.files)
    unlink := fun w p =>
      { w with files := w.files.erase (fsOS.resolve p),
               others := w.others.erase (fsOS.resolve p) }
    rename := fun w a b =>
      if fsOS.resolve a ∈ w.files then
        ({ w with files := fsOS.resolve b
                    :: (w.files.erase (fsOS.resolve a)).erase (fsOS.resolve b) }, 0)
      else (w, -1) }

/-- The system of `simOS` in which only a listed file opens; what is read
from it is the one byte 65. -/
def readOS : OS World :=
  { simOS with readFile := fun w p => if p ∈ w.files then some [65] else none }

/-- The system of `simOS` in which every file opens with the two bytes 65
and 10, with stand-ins for the two checksum functions that depend on the
bytes they are given: the sum of the bytes for the crc32, and sixteen times
the number of bytes for the md5. -/
def sumOS : OS World :=
  { simOS with
    readFile := fun _ _ => some [65, 10]
    crc32 := fun pb => pb.sum % 2 ^ 32
    md5 := fun pb => List.replicate 16 (pb.length % 256) }

/-- A world in which the file `/c/x.i` exists. -/
def cppWorld : World := { files := ["/c/x.i".toList], child := [] }

/-- The command line `buildCmd` without the option `-f`. -/
def noFileCmd : List CStr :=
  ["kObjCache".toList,
   "--kObjCache-cpp".toList, "/c/x.i".toList, "cpp".toList,
   "--kObjCache-cc".toList, "/c/x.o".toList, "cc".toList]

/-- The variables of `main` after parsing `noFileCmd`. -/
def noFileVars : MainVars := { buildVars with pszCacheFile := none }

/-! ## The argument vectors as the specification tells them -/

/-- The tokens of the preprocessor and of the compiler argument vector, told
as the specification does, by walking the command line.  A section switch
opens its section: `--kObjCache-cpp` the section of the preprocessor,
`--kObjCache-cc` that of the compiler and `--kObjCache-both` both; the first
`--kObjCache-cpp` and the first `--kObjCache-cc` take the token after them as
their file name.  Any other token seen while a section is open belongs to
the lists whose section is open.  Before a section is open the tokens are
options, of which `-f` and `--file` take the token after them.
`cppOpen` and `ccOpen` tell which sections are open, `cppNamed` and
`ccNamed` whether the file name of the switch was taken already. -/
def sectionTokens : List CStr → Bool → Bool → Bool → Bool → List CStr × List CStr
  | [], _, _, _, _ => ([], [])
  | tok :: rest, cppOpen, ccOpen, cppNamed, ccNamed =>
    if tok = "--kObjCache-cpp".toList then
      if cppNamed then sectionTokens rest true false true ccNamed
      else
        match rest with
        | [] => ([], [])
        | _ :: rest1 => sectionTokens rest1 true false true ccNamed
    else if tok = "--kObjCache-cc".toList then
      if ccNamed then sectionTokens rest false true cppNamed true
      else
        match rest with
        | [] => ([], [])
        | _ :: rest1 => sectionTokens rest1 false true cppNamed true
    else if tok = "--kObjCache-both".toList then
      sectionTokens rest true true cppNamed ccNamed
    else if cppOpen ∨ ccOpen then
      let r := sectionTokens rest cppOpen ccOpen cppNamed ccNamed
      (if cppOpen then tok :: r.1 else r.1, if ccOpen then tok :: r.2 else r.2)
    else if tok = "-f".toList ∨ tok = "--file".toList then
      match rest with
      | [] => ([], [])
      | _ :: rest1 => sectionTokens rest1 cppOpen ccOpen cppNamed ccNamed
    else sectionTokens rest cppOpen ccOpen cppNamed ccNamed

/-- Whether the section of the preprocessor is open in a parsing mode. -/
def Mode.cppOpen (m : Mode) : Bool :=
  decide (m = Mode.kOC_CppArgv ∨ m = Mode.kOC_BothArgv)

/-- Whether the section of the compiler is open in a parsing mode. -/
def Mode.ccOpen (m : Mode) : Bool :=
  decide (m = Mode.kOC_CcArgv ∨ m = Mode.kOC_BothArgv)

/-- A world of `fsOS` that holds the object `/c/x.o` and the old precompiled
output `/c/x.i-old`. -/
def oldWorld : World := { files := ["/c/x.o".toList, "/c/x.i-old".toList], child := [] }

/-- The counts of the two argument vectors are the numbers of their tokens,
and a vector that holds a token has the slot at index `count` allocated. -/
def MainVars.counted (v : MainVars) : Prop :=
  v.cArgvPreComp = v.papszArgvPreComp.length
  ∧ v.cArgvCompile = v.papszArgvCompile.length
  ∧ (v.cArgvPreComp = 0 ∨ v.cArgvPreComp < v.capArgvPreComp)
  ∧ (v.cArgvCompile = 0 ∨ v.cArgvCompile < v.capArgvCompile)

/-- A command line that opens the sections several times: the cache file
`/c/x.cache`, `cpp` for the preprocessor, `-O2` for both, `cc` for the
compiler and `-E` for the preprocessor again. -/
def mixedCmd : List CStr :=
  ["kObjCache".toList, "-f".toList, "/c/x.cache".toList,
   "--kObjCache-cpp".toList, "/c/x.i".toList, "cpp".toList,
   "--kObjCache-both".toList, "-O2".toList,
   "--kObjCache-cc".toList, "/c/x.o".toList, "cc".toList,
   "--kObjCache-cpp".toList, "-E".toList]

/-- The variables of `main` after parsing `mixedCmd`. -/
def mixedVars : MainVars :=
  { MainVars.init with
    pszCacheFile := some "/c/x.cache".toList
    papszArgvPreComp := ["cpp".toList, "-O2".toList, "-E".toList]
    cArgvPreComp := 3, capArgvPreComp := 17
    pszPreCompName := some "/c/x.i".toList
    papszArgvCompile := ["-O2".toList, "cc".toList], cArgvCompile := 2, capArgvCompile := 17
    pszObjName := some "/c/x.o".toList
    enmMode := Mode.kOC_CppArgv
    memArgvPreComp :=
      some (Slot.token "cpp".toList :: Slot.token "-O2".toList :: Slot.token "-E".toList
        :: Slot.null :: List.replicate 13 Slot.unset)
    memArgvCompile :=
      some (Slot.token "-O2".toList :: Slot.token "cc".toList
        :: Slot.null :: List.replicate 14 Slot.unset) }

/-- A command line that has a section for the preprocessor only. -/
def cppOnlyCmd : List CStr :=
  ["kObjCache".toList, "-f".toList, "/c/x.cache".toList,
   "--kObjCache-cpp".toList, "/c/x.i".toList, "cpp".toList]

/-- The variables of `main` after parsing `cppOnlyCmd`: nothing was stored in
the vector of the compiler, which is still the NULL pointer. -/
def cppOnlyVars : MainVars :=
  { MainVars.init with
    pszCacheFile := some "/c/x.cache".toList
    papszArgvPreComp := ["cpp".toList], cArgvPreComp := 1, capArgvPreComp := 17
    pszPreCompName := some "/c/x.i".toList
    enmMode := Mode.kOC_CppArgv
    memArgvPreComp :=
      some (Slot.token "cpp".toList :: Slot.null :: List.replicate 15 Slot.unset) }

/-! ## Allocation -/

/-- Embedding of `kObjCacheFatal` as called with a pointer to the entry that
may be NULL (`none`): its first statement prints `pEntry->pszName`, which
reads through the pointer. -/
def kObjCacheFatal.ptr {W α : Type} (pEntry : Option KOBJCACHE) (d : Diag) : M W α :=
  match pEntry with
  | none => M.stop Res.undef
  | some e => kObjCacheFatal e d

/-- Embedding of `xmalloc`, over the C library `malloc`: `none` is the NULL
pointer, `some a` a block at the address `a`. -/
def xmalloc {W : Type} (malloc : Nat → Option Nat) (cb : Nat) : M W (Option Nat) := do
  let pv := malloc cb
  if pv = none then
    (kObjCacheFatal.ptr none (Diag.fatalOutOfMemory cb) : M W Unit)
  pure pv

/-- Embedding of `xrealloc`, over the C library `realloc`. -/
def xrealloc {W : Type} (realloc : Option Nat → Nat → Option Nat) (pvOld : Option Nat)
    (cb : Nat) : M W (Option Nat) := do
  let pv := realloc pvOld cb
  if pv = none then
    (kObjCacheFatal.ptr none (Diag.fatalOutOfMemory cb) : M W Unit)
  pure pv

/-- Embedding of `xstrdup`, over the C library `strdup`. -/
def xstrdup {W : Type} (strdup : CStr → Option Nat) (pszIn : CStr) : M W (Option Nat) := do
  let psz := strdup pszIn
  if psz = none then
    (kObjCacheFatal.ptr none (Diag.fatalOutOfMemory pszIn.length) : M W Unit)
  pure psz

/-! ## Inputs for the rotation of the old output and for the root directory -/

/-- An entry for the cache directory `/c` that records the old precompiled
output `x.i`. -/
def rotateEntry : KOBJCACHE :=
  { KOBJCACHE.zero with
    pszDir := some "/c".toList
    pszName := some "x.cache".toList
    fNeedCompiling := 1
    pszOldCppName := some "x.i".toList }

/-- A world in which `/c/x.i` exists and the working directory, which is not
`/c`, holds a file `x.i` of its own. -/
def twoWorld : World := { files := ["/c/x.i".toList, "x.i".toList], child := [] }

/-! ## Spawns in a run -/

/-- Whether an event is the spawn of a child. -/
def Event.isSpawn : Event → Bool
  | Event.spawn _ _ _ _ => true
  | _ => false

/-- Whether an event is the spawn of the compiler. -/
def Event.isCompilerSpawn : Event → Bool
  | Event.spawn pszMsg _ _ _ => decide (pszMsg = "compile".toList)
  | _ => false

/-- A sequence of events holds an unlink of `path` that comes before every
spawn: the events `tc` before that unlink hold no spawn. -/
def unlinkBeforeSpawn (path : CStr) (t : List Event) : Prop :=
  ∃ tc tr, t = tc ++ Event.unlink path :: tr ∧ ∀ ev ∈ tc, ev.isSpawn = false

/-- The entry `hitEntry` with the old precompiled output `x.i-old` recorded
and with `NewSum` linked into the checksum list after `SumHead`. -/
def oldHitEntry : KOBJCACHE :=
  { hitEntry with
    pszOldCppName := some "x.i-old".toList
    SumHead := { pNext := PKOCSUM.newSum, crc32 := 7, md5 := List.replicate 16 0 } }

/-! ## The list of accepted checksums -/

/-- The command line `buildCmd` with the object file `/d/x.o`, which is not
in the cache directory `/c`. -/
def outsideCmd : List CStr :=
  ["kObjCache".toList, "-f".toList, "/c/x.cache".toList,
   "--kObjCache-cpp".toList, "/c/x.i".toList, "cpp".toList,
   "--kObjCache-cc".toList, "/d/x.o".toList, "cc".toList]

/-- The variables of `main` after parsing `outsideCmd`. -/
def outsideVars : MainVars := { buildVars with pszObjName := some "/d/x.o".toList }

/-- The entry that `kObjCacheCreate` and `kObjCacheRead` give for the cache
file `/c/x.cache`. -/
def freshEntry : KOBJCACHE :=
  { KOBJCACHE.zero with
    pszDir := some "/c".toList
    pszName := some "x.cache".toList
    fNeedCompiling := 1 }

/-- The entry `freshEntry` after the preprocessor step of `buildCmd` under
`simOS`: the output `x.i` was read (it is empty) and its checksums were
computed. -/
def preEntry : KOBJCACHE :=
  { freshEntry with
    pszNewCppName := some "x.i".toList
    pszNewCppMapping := some [0]
    cbNewCppMapping := 0
    NewSum := { pNext := PKOCSUM.null, crc32 := 0, md5 := List.replicate 16 0 } }

/-! ## The allocation of the argument vectors -/

/-- The number of slots of an argument vector that holds `c` tokens: none
before the first token, and `c + 17` as of the last `c` at which the vector
was grown: the greatest multiple of 16 below the count, plus 17. -/
def main.capOf (c : Nat) : Nat :=
  if c = 0 then 0 else (c - 1) / 16 * 16 + 17

/-- The memory of an argument vector that holds the tokens `l` in `cap`
slots, as the stores of the parsing loop leave it: the NULL pointer when
nothing was stored; otherwise the tokens in order, NULL after the last one,
and the slots after that unset. -/
def main.memOf (l : List CStr) (cap : Nat) : Option (List Slot) :=
  if l.length = 0 then none
  else some (l.map Slot.token ++ Slot.null :: List.replicate (cap - l.length - 1) Slot.unset)

/-- The two argument vectors are held as `main.append` and `main.store` leave
them: the counts are the numbers of tokens, the slots are those of
`main.capOf`, and the memory is that of `main.memOf`. -/
def MainVars.sized (v : MainVars) : Prop :=
  v.cArgvPreComp = v.papszArgvPreComp.length
  ∧ v.cArgvCompile = v.papszArgvCompile.length
  ∧ v.capArgvPreComp = main.capOf v.cArgvPreComp
  ∧ v.capArgvCompile = main.capOf v.cArgvCompile
  ∧ v.memArgvPreComp = main.memOf v.papszArgvPreComp v.capArgvPreComp
  ∧ v.memArgvCompile = main.memOf v.papszArgvCompile v.capArgvCompile

/-- A command line in which `--help` follows the first `--kObjCache-cc`, in
the place of the object name. -/
def helpNameCmd : List CStr :=
  ["kObjCache".toList, "-f".toList, "/c/x.cache".toList,
   "--kObjCache-cpp".toList, "/c/x.i".toList, "cpp".toList,
   "--kObjCache-cc".toList, "--help".toList, "cc".toList]

/-- The variables of `main` after parsing `helpNameCmd`. -/
def helpNameVars : MainVars := { buildVars with pszObjName := some "--help".toList }

/-! ## Basic facts -/

theorem strcmp_eq_zero_iff (a b : CStr) : strcmp a b = 0 ↔ a = b := by
  induction a generalizing b with
  | nil => cases b <;> simp [strcmp]
  | cons c cs ih =>
    cases b with
    | nil => simp [strcmp]
    | cons d ds =>
      by_cases h : c = d
      · simp [strcmp, h, ih]
      · by_cases h2 : c.toNat < d.toNat <;> simp [strcmp, h, h2]

theorem strncmp_eq_zero_iff (a b : CStr) (n : Nat) :
    strncmp a b n = 0 ↔ a.take n = b.take n := by
  induction n generalizing a b with
  | zero => simp [strncmp]
  | succ n ih =>
    cases a with
    | nil => cases b <;> simp [strncmp]
    | cons c cs =>
      cases b with
      | nil => simp [strncmp]
      | cons d ds =>
        by_cases h : c = d
        · simp [strncmp, h, ih]
        · by_cases h2 : c.toNat < d.toNat <;> simp [strncmp, h, h2]

/-! ### The monad -/

theorem bind_eq {W α β : Type} (m : M W α) (f : α → M W β) : (m >>= f) = M.bind m f := rfl

theorem pure_eq {W α : Type} (a : α) : (pure a : M W α) = M.pure a := rfl

theorem after_nil {W α : Type} (r : Res α × W × List Event) : after [] r = r := by
  simp [after]

theorem after_mk {W α : Type} (t t2 : List Event) (r : Res α) (w : W) :
    after t (r, w, t2) = (r, w, t ++ t2) := rfl

theorem after_after {W α : Type} (t1 t2 : List Event) (r : Res α × W × List Event) :
    after t1 (after t2 r) = after (t1 ++ t2) r := by
  simp [after]

theorem bind_of_ok {W α β : Type} {m : M W α} {w w1 : W} {a : α} {t1 : List Event}
    (h : m w = (Res.ok a, w1, t1)) (f : α → M W β) :
    M.bind m f w = after t1 (f a w1) := by
  simp [M.bind, h]

theorem bind_ok_inv {W α β : Type} {m : M W α} {f : α → M W β} {w w2 : W} {b : β}
    {t : List Event} (h : M.bind m f w = (Res.ok b, w2, t)) :
    ∃ a w1 t1 t2, m w = (Res.ok a, w1, t1) ∧ f a w1 = (Res.ok b, w2, t2) ∧ t = t1 ++ t2 := by
  unfold M.bind at h
  rcases hm : m w with ⟨r, w1, t1⟩
  rw [hm] at h
  cases r with
  | ok a =>
    simp only [after, Prod.mk.injEq] at h
    obtain ⟨h1, h2, h3⟩ := h
    exact ⟨a, w1, t1, (f a w1).2.2, rfl, by rw [← h1, ← h2], h3.symm⟩
  | exit c => simp at h
  | undef => simp at h
  | hang => simp at h

theorem mem_bind {W α β : Type} (m : M W α) (f : α → M W β) (w : W) (ev : Event) :
    ev ∈ (M.bind m f w).2.2 ↔
      ev ∈ (m w).2.2 ∨ ∃ a, (m w).1 = Res.ok a ∧ ev ∈ (f a (m w).2.1).2.2 := by
  unfold M.bind
  rcases hm : m w with ⟨r, w1, t1⟩
  cases r <;> simp [after]

theorem CalcRelativeName_ok {W : Type} (os : OS W) (pszPath pszDir pszRet : CStr) (w : W)
    (h : CalcRelativeName.val os w pszPath pszDir = Res.ok pszRet) :
    CalcRelativeName os pszPath pszDir w = (Res.ok pszRet, w, []) := by
  simp [CalcRelativeName, h]

/-! ### The compile step -/

theorem lift_apply {W α : Type} (r : Res α) (w : W) : (M.lift r : M W α) w = (r, w, []) := rfl

/-- The function in terms of its four checks. -/
theorem kObjCacheCompileIfNeeded_of_checks {W : Type} (os : OS W) (fuel : Nat)
    (heap : Nat → Option KOCSUM) (e e1 e2 e3 e4 : KOBJCACHE) (argv : List CStr) (cArgv : Nat)
    (pszObjName : Option CStr) (w w1 w3 : W) (t1 t3 : List Event)
    (h1 : kObjCacheCompileIfNeeded.objName os e pszObjName w = (Res.ok e1, w1, t1))
    (h2 : kObjCacheCompileIfNeeded.argv e1 argv cArgv = Res.ok e2)
    (h3 : kObjCacheCompileIfNeeded.objExists os e2 w1 = (Res.ok e3, w3, t3))
    (h4 : kObjCacheCompileIfNeeded.sums fuel heap e3 = Res.ok e4) :
    kObjCacheCompileIfNeeded os fuel heap e argv cArgv pszObjName w
      = after (t1 ++ t3) (M.bind (kObjCacheCompileIfNeeded.discardOld os e4) (fun pEntry =>
          if pEntry.fNeedCompiling ≠ 0 then
            kObjCacheCompileIt os fuel pEntry argv cArgv pszObjName
          else M.pure pEntry) w3) := by
  unfold kObjCacheCompileIfNeeded
  simp only [bind_eq, pure_eq]
  rw [bind_of_ok h1, h2, bind_of_ok (lift_apply _ _), bind_of_ok h3, h4,
    bind_of_ok (lift_apply _ _)]
  simp only [after_nil, after_after, List.nil_append]

theorem skip_argv (e : KOBJCACHE) (argv : List CStr) (cArgv : Nat) (h : e.fNeedCompiling ≠ 0) :
    kObjCacheCompileIfNeeded.argv e argv cArgv = Res.ok e := by
  simp [kObjCacheCompileIfNeeded.argv, h]

theorem skip_objExists {W : Type} (os : OS W) (e : KOBJCACHE) (w : W)
    (h : e.fNeedCompiling ≠ 0) :
    kObjCacheCompileIfNeeded.objExists os e w = (Res.ok e, w, []) := by
  simp [kObjCacheCompileIfNeeded.objExists, h, pure_eq, M.pure]

theorem skip_sums (fuel : Nat) (heap : Nat → Option KOCSUM) (e : KOBJCACHE)
    (h : e.fNeedCompiling ≠ 0) :
    kObjCacheCompileIfNeeded.sums fuel heap e = Res.ok e := by
  simp [kObjCacheCompileIfNeeded.sums, h]

theorem nonNull_ok_inv {W α : Type} {o : Option α} {w w1 : W} {a : α} {t : List Event}
    (h : (M.nonNull o : M W α) w = (Res.ok a, w1, t)) : o = some a ∧ w1 = w ∧ t = [] := by
  cases o with
  | none => simp [M.nonNull, M.stop] at h
  | some b =>
    simp [M.nonNull, M.pure] at h
    obtain ⟨h1, h2, h3⟩ := h
    exact ⟨by rw [h1], h2.symm, h3⟩

theorem pure_ok_inv {W α : Type} {a b : α} {w w1 : W} {t : List Event}
    (h : (M.pure a : M W α) w = (Res.ok b, w1, t)) : a = b ∧ w1 = w ∧ t = [] := by
  simp [M.pure] at h
  exact ⟨h.1, h.2.1.symm, h.2.2⟩

theorem objName_sums {W : Type} (os : OS W) (e e1 : KOBJCACHE) (pszObjName : Option CStr)
    (w w1 : W) (t : List Event)
    (h : kObjCacheCompileIfNeeded.objName os e pszObjName w = (Res.ok e1, w1, t)) :
    e1.SumHead = e.SumHead ∧ e1.NewSum = e.NewSum := by
  unfold kObjCacheCompileIfNeeded.objName at h
  simp only [bind_eq, pure_eq] at h
  split at h
  · obtain ⟨a, wa, ta, tb, -, h, -⟩ := bind_ok_inv h
    obtain ⟨a, wa, ta, tb, -, h, -⟩ := bind_ok_inv h
    obtain ⟨a, wa, ta, tb, -, h, -⟩ := bind_ok_inv h
    obtain ⟨a, wa, ta, tb, -, h, -⟩ := bind_ok_inv h
    split at h <;> (obtain ⟨h, -, -⟩ := pure_ok_inv h; subst h; exact ⟨rfl, rfl⟩)
  · obtain ⟨h, -, -⟩ := pure_ok_inv h
    subst h
    exact ⟨rfl, rfl⟩

theorem argv_sums (e e1 : KOBJCACHE) (argv : List CStr) (cArgv : Nat)
    (h : kObjCacheCompileIfNeeded.argv e argv cArgv = Res.ok e1) :
    e1.SumHead = e.SumHead ∧ e1.NewSum = e.NewSum := by
  unfold kObjCacheCompileIfNeeded.argv at h
  simp only [] at h
  by_cases c1 : e.fNeedCompiling = 0 ∧ e.cArgvCompile ≠ cArgv
  · simp only [if_pos c1] at h
    simp at h
    subst h
    exact ⟨rfl, rfl⟩
  · simp only [if_neg c1] at h
    split at h
    · split at h
      · split at h
        all_goals cases h
        all_goals exact ⟨rfl, rfl⟩
      · split at h
        all_goals cases h
        all_goals exact ⟨rfl, rfl⟩
    · cases h
      exact ⟨rfl, rfl⟩

theorem objExists_sums {W : Type} (os : OS W) (e e1 : KOBJCACHE)
    (w w1 : W) (t : List Event)
    (h : kObjCacheCompileIfNeeded.objExists os e w = (Res.ok e1, w1, t)) :
    e1.SumHead = e.SumHead ∧ e1.NewSum = e.NewSum := by
  unfold kObjCacheCompileIfNeeded.objExists at h
  simp only [bind_eq, pure_eq] at h
  split at h
  · obtain ⟨a, wa, ta, tb, -, h, -⟩ := bind_ok_inv h
    obtain ⟨a, wa, ta, tb, -, h, -⟩ := bind_ok_inv h
    obtain ⟨a, wa, ta, tb, -, h, -⟩ := bind_ok_inv h
    split at h <;> (obtain ⟨h, -, -⟩ := pure_ok_inv h; subst h; exact ⟨rfl, rfl⟩)
  · obtain ⟨h, -, -⟩ := pure_ok_inv h
    subst h
    exact ⟨rfl, rfl⟩

theorem sums_sums (fuel : Nat) (heap : Nat → Option KOCSUM) (e e1 : KOBJCACHE)
    (h : kObjCacheCompileIfNeeded.sums fuel heap e = Res.ok e1) :
    e1.SumHead = e.SumHead ∧ e1.NewSum = e.NewSum := by
  unfold kObjCacheCompileIfNeeded.sums at h
  simp only [kObjCacheCompareOldAndNewOutput, if_true] at h
  split at h
  · split at h
    · split at h <;> cases h <;> exact ⟨rfl, rfl⟩
    all_goals cases h
  · cases h
    exact ⟨rfl, rfl⟩

theorem discardOld_sums {W : Type} (os : OS W) (e e1 : KOBJCACHE)
    (w w1 : W) (t : List Event)
    (h : kObjCacheCompileIfNeeded.discardOld os e w = (Res.ok e1, w1, t)) :
    e1.SumHead = e.SumHead ∧ e1.NewSum = e.NewSum := by
  unfold kObjCacheCompileIfNeeded.discardOld at h
  simp only [bind_eq, pure_eq] at h
  cases hold : e.pszOldCppName with
  | some old =>
    simp only [hold] at h
    obtain ⟨a, wa, ta, tb, -, h, -⟩ := bind_ok_inv h
    obtain ⟨a, wa, ta, tb, -, h, -⟩ := bind_ok_inv h
    obtain ⟨h, -, -⟩ := pure_ok_inv h
    subst h
    exact ⟨rfl, rfl⟩
  | none =>
    simp only [hold] at h
    obtain ⟨h, -, -⟩ := pure_ok_inv h
    subst h
    exact ⟨rfl, rfl⟩

theorem compileIt_sums {W : Type} (os : OS W) (fuel : Nat) (e e1 : KOBJCACHE)
    (argv : List CStr) (cArgv : Nat) (pszObjName : Option CStr)
    (w w1 : W) (t : List Event)
    (h : kObjCacheCompileIt os fuel e argv cArgv pszObjName w = (Res.ok e1, w1, t)) :
    e1.SumHead = e.SumHead ∧ e1.NewSum = e.NewSum := by
  unfold kObjCacheCompileIt at h
  simp only [bind_eq, pure_eq] at h
  obtain ⟨a, wa, ta, tb, -, h, -⟩ := bind_ok_inv h
  obtain ⟨e2, wa, ta, tb, h2, h, -⟩ := bind_ok_inv h
  obtain ⟨a, wa, ta, tb, -, h, -⟩ := bind_ok_inv h
  obtain ⟨a, wa, ta, tb, -, h, -⟩ := bind_ok_inv h
  obtain ⟨a, wa, ta, tb, -, h, -⟩ := bind_ok_inv h
  obtain ⟨h, -, -⟩ := pure_ok_inv h
  have he2 : e2.SumHead = e.SumHead ∧ e2.NewSum = e.NewSum := by
    cases hobj : e.pszObjName with
    | some old =>
      simp only [hobj] at h2
      obtain ⟨a, wa, ta, tb, -, h2, -⟩ := bind_ok_inv h2
      obtain ⟨h2, -, -⟩ := pure_ok_inv h2
      subst h2
      exact ⟨rfl, rfl⟩
    | none =>
      simp only [hobj] at h2
      obtain ⟨h2, -, -⟩ := pure_ok_inv h2
      subst h2
      exact ⟨rfl, rfl⟩
  subst h
  exact he2

/-- Whenever `kObjCacheCompileIfNeeded` returns, `SumHead` and `NewSum` are
the ones it was called with. -/
theorem kObjCacheCompileIfNeeded_sums {W : Type} (os : OS W) (fuel : Nat)
    (heap : Nat → Option KOCSUM) (e e1 : KOBJCACHE) (argv : List CStr) (cArgv : Nat)
    (pszObjName : Option CStr) (w w1 : W) (t : List Event)
    (h : kObjCacheCompileIfNeeded os fuel heap e argv cArgv pszObjName w = (Res.ok e1, w1, t)) :
    e1.SumHead = e.SumHead ∧ e1.NewSum = e.NewSum := by
  unfold kObjCacheCompileIfNeeded at h
  simp only [bind_eq, pure_eq] at h
  obtain ⟨a1, wa, ta, tb, h1, h, -⟩ := bind_ok_inv h
  obtain ⟨a2, wa, ta, tb, h2, h, -⟩ := bind_ok_inv h
  obtain ⟨a3, wa, ta, tb, h3, h, -⟩ := bind_ok_inv h
  obtain ⟨a4, wa, ta, tb, h4, h, -⟩ := bind_ok_inv h
  obtain ⟨a5, wa, ta, tb, h5, h, -⟩ := bind_ok_inv h
  have s1 := objName_sums os _ _ _ _ _ _ h1
  have h2r : kObjCacheCompileIfNeeded.argv a1 argv cArgv = Res.ok a2 := by
    simp only [M.lift, Prod.mk.injEq] at h2
    exact h2.1
  have h4r : kObjCacheCompileIfNeeded.sums fuel heap a3 = Res.ok a4 := by
    simp only [M.lift, Prod.mk.injEq] at h4
    exact h4.1
  have s2 := argv_sums a1 a2 argv cArgv h2r
  have s3 := objExists_sums os _ _ _ _ _ h3
  have s4 := sums_sums fuel heap a3 a4 h4r
  have s5 := discardOld_sums os _ _ _ _ _ h5
  have s6 : e1.SumHead = a5.SumHead ∧ e1.NewSum = a5.NewSum := by
    split at h
    · exact compileIt_sums os fuel _ _ _ _ _ _ _ _ h
    · obtain ⟨h, -, -⟩ := pure_ok_inv h
      subst h
      exact ⟨rfl, rfl⟩
  constructor
  · rw [s6.1, s5.1, s4.1, s3.1, s2.1, s1.1]
  · rw [s6.2, s5.2, s4.2, s3.2, s2.2, s1.2]

/-! ### Creating the entry -/

theorem FindFilenameInPath.loop_gt (p : CStr) (j : Nat) (hj : p.get? j = some '/') :
    ∀ n, j < n → j < FindFilenameInPath.loop p n := by
  intro n
  induction n with
  | zero => intro h; omega
  | succ k ih =>
    intro h
    unfold FindFilenameInPath.loop
    by_cases hk : p.get? k = some '/'
    · rw [if_neg (fun h => h hk)]
      omega
    · rw [if_pos hk]
      have hne : k ≠ j := by
        intro e
        rw [e] at hk
        exact hk hj
      exact ih (by omega)

theorem FindFilenameInPath_pos (d leaf : CStr) (hleaf : leaf ≠ []) :
    0 < FindFilenameInPath (d ++ '/' :: leaf) := by
  have hlen : 0 < leaf.length := List.length_pos.mpr hleaf
  have hj : (d ++ '/' :: leaf).get? d.length = some '/' := by
    rw [List.get?_eq_getElem?, List.getElem?_append_right (le_refl _)]
    simp
  have h := FindFilenameInPath.loop_gt (d ++ '/' :: leaf) d.length hj
    ((d ++ '/' :: leaf).length - 1) (by simp; omega)
  unfold FindFilenameInPath
  rw [if_neg (by simp)]
  exact_mod_cast (by omega : 0 < FindFilenameInPath.loop (d ++ '/' :: leaf) ((d ++ '/' :: leaf).length - 1))

theorem FindFilenameInPath.loop_zero (p : CStr) (h : '/' ∉ p) :
    ∀ n, FindFilenameInPath.loop p n = 0 := by
  intro n
  induction n with
  | zero => rfl
  | succ k ih =>
    unfold FindFilenameInPath.loop
    have hk : p.get? k ≠ some '/' := by
      intro hg
      exact h (List.get?_mem hg)
    rw [if_pos hk]
    exact ih

/-- Creating an entry for a name without a directory part. -/
theorem create_bare_apply {W : Type} (os : OS W) (pszFilename : CStr) (w : W)
    (hne : pszFilename ≠ []) (hbare : '/' ∉ pszFilename)
    (hreal : os.realpath w pszFilename = none) :
    M.bind (kObjCacheCreate os pszFilename) kObjCacheRead w
      = (Res.exit 1, w, [Event.stderr Diag.fatalAbsPath]) := by
  have habs : AbsPath os w pszFilename = pszFilename := by simp [AbsPath, hreal]
  have hlen : pszFilename.length ≠ 0 := by
    intro h
    exact hne (List.length_eq_zero.mp h)
  have h0 : FindFilenameInPath pszFilename = 0 := by
    unfold FindFilenameInPath
    rw [if_neg hlen, FindFilenameInPath.loop_zero pszFilename hbare]
    rfl
  simp [kObjCacheCreate, habs, h0, M.bind, kObjCacheFatal]

/-- Creating and reading an entry for a path with a directory part. -/
theorem create_read_apply {W : Type} (os : OS W) (pszFilename d leaf : CStr) (w : W)
    (hsep : AbsPath os w pszFilename = d ++ '/' :: leaf) (hleaf : leaf ≠ []) :
    M.bind (kObjCacheCreate os pszFilename) kObjCacheRead w
      = (Res.ok { KOBJCACHE.zero with
            pszDir := some ((AbsPath os w pszFilename).take
              ((FindFilenameInPath (AbsPath os w pszFilename)).toNat - 1))
            pszName := some ((AbsPath os w pszFilename).drop
              (FindFilenameInPath (AbsPath os w pszFilename)).toNat)
            fNeedCompiling := 1 }, w, [Event.cacheRead]) := by
  have hpos := FindFilenameInPath_pos d leaf hleaf
  rw [← hsep] at hpos
  have h0 : FindFilenameInPath (AbsPath os w pszFilename) ≠ 0 := by omega
  have h1 : ¬ FindFilenameInPath (AbsPath os w pszFilename) < 0 := by omega
  simp [kObjCacheCreate, kObjCacheRead, h0, h1, M.bind, M.pure, M.emit, bind_eq, pure_eq,
    after_mk]

/-! ### A run that returns has spawned the compiler -/

theorem skip_objName {W : Type} (os : OS W) (e : KOBJCACHE) (pszObjName : Option CStr) (w : W)
    (h : e.fNeedCompiling ≠ 0) :
    kObjCacheCompileIfNeeded.objName os e pszObjName w = (Res.ok e, w, []) := by
  simp [kObjCacheCompileIfNeeded.objName, h, pure_eq, M.pure]

theorem discardOld_flag {W : Type} (os : OS W) (e e1 : KOBJCACHE)
    (w w1 : W) (t : List Event)
    (h : kObjCacheCompileIfNeeded.discardOld os e w = (Res.ok e1, w1, t)) :
    e1.fNeedCompiling = e.fNeedCompiling := by
  unfold kObjCacheCompileIfNeeded.discardOld at h
  simp only [bind_eq, pure_eq] at h
  cases hold : e.pszOldCppName with
  | some old =>
    simp only [hold] at h
    obtain ⟨a, wa, ta, tb, -, h, -⟩ := bind_ok_inv h
    obtain ⟨a, wa, ta, tb, -, h, -⟩ := bind_ok_inv h
    obtain ⟨h, -, -⟩ := pure_ok_inv h
    subst h
    rfl
  | none =>
    simp only [hold] at h
    obtain ⟨h, -, -⟩ := pure_ok_inv h
    subst h
    rfl

/-- The first event of `kObjCacheSpawn` is the spawn. -/
theorem kObjCacheSpawn_head {W : Type} (os : OS W) (fuel : Nat) (e : KOBJCACHE)
    (argv : List CStr) (cArgv : Nat) (msg : CStr) (out : Option CStr) (w : W) :
    ∃ rest, (kObjCacheSpawn os fuel e argv cArgv msg out w).2.2
      = Event.spawn msg argv out (os.fork w argv out).2 :: rest := by
  unfold kObjCacheSpawn
  simp only [bind_eq]
  rw [@bind_of_ok W Int Unit _ w (os.fork w argv out).1 (os.fork w argv out).2
    [Event.spawn msg argv out (os.fork w argv out).2] rfl]
  exact ⟨_, rfl⟩

theorem compileIt_ok_spawn {W : Type} (os : OS W) (fuel : Nat) (e e1 : KOBJCACHE)
    (argv : List CStr) (cArgv : Nat) (pszObjName : Option CStr)
    (w w1 : W) (t : List Event)
    (h : kObjCacheCompileIt os fuel e argv cArgv pszObjName w = (Res.ok e1, w1, t)) :
    ∃ pid, Event.spawn "compile".toList argv none pid ∈ t := by
  unfold kObjCacheCompileIt at h
  simp only [bind_eq, pure_eq] at h
  obtain ⟨a, wa, ta, tb, -, h, q1⟩ := bind_ok_inv h
  obtain ⟨a2, wa2, ta2, tb2, -, h, q2⟩ := bind_ok_inv h
  obtain ⟨a3, wa3, ta3, tb3, -, h, q3⟩ := bind_ok_inv h
  obtain ⟨a4, wa4, ta4, tb4, -, h, q4⟩ := bind_ok_inv h
  obtain ⟨a5, wa5, ta5, tb5, hs, h, q5⟩ := bind_ok_inv h
  obtain ⟨rest, hr⟩ := kObjCacheSpawn_head os fuel
    { a2 with pszNewObjName := some a4, pszNewCppMapping := none, pszOldCppMapping := none,
              papszArgvCompile := some argv, cArgvCompile := cArgv }
    argv cArgv "compile".toList none wa4
  rw [hs] at hr
  simp only at hr
  refine ⟨(os.fork wa4 argv none).2, ?_⟩
  rw [q1, q2, q3, q4, q5, hr]
  simp

theorem compileIfNeeded_ok_spawn {W : Type} (os : OS W) (fuel : Nat)
    (heap : Nat → Option KOCSUM) (e e1 : KOBJCACHE) (argv : List CStr) (cArgv : Nat)
    (pszObjName : Option CStr) (w w1 : W) (t : List Event) (hflag : e.fNeedCompiling ≠ 0)
    (h : kObjCacheCompileIfNeeded os fuel heap e argv cArgv pszObjName w = (Res.ok e1, w1, t)) :
    ∃ pid, Event.spawn "compile".toList argv none pid ∈ t := by
  rw [kObjCacheCompileIfNeeded_of_checks os fuel heap e e e e e argv cArgv pszObjName w w w [] []
    (skip_objName os e pszObjName w hflag) (skip_argv e argv cArgv hflag)
    (skip_objExists os e w hflag) (skip_sums fuel heap e hflag)] at h
  simp only [List.append_nil, after_nil] at h
  obtain ⟨a, wa, ta, tb, hd, h, et⟩ := bind_ok_inv h
  have hf := discardOld_flag os e a w wa ta hd
  rw [if_pos (by rw [hf]; exact hflag)] at h
  obtain ⟨pid, hp⟩ := compileIt_ok_spawn os fuel a e1 argv cArgv pszObjName wa w1 tb h
  exact ⟨pid, by rw [et]; exact List.mem_append_right _ hp⟩

theorem rotate_flag {W : Type} (os : OS W) (e e1 : KOBJCACHE) (w w1 : W) (t : List Event)
    (h : kObjCachePreCompile.rotate os e w = (Res.ok e1, w1, t)) :
    e1.fNeedCompiling = e.fNeedCompiling ∧ e1.pszDir = e.pszDir := by
  unfold kObjCachePreCompile.rotate at h
  simp only [bind_eq, pure_eq] at h
  cases hold : e.pszOldCppName with
  | none =>
    simp only [hold] at h
    obtain ⟨h, -, -⟩ := pure_ok_inv h
    subst h
    exact ⟨rfl, rfl⟩
  | some old =>
    simp only [hold] at h
    obtain ⟨a, wa, ta, tb, -, h, -⟩ := bind_ok_inv h
    obtain ⟨b, wa, ta, tb, -, h, -⟩ := bind_ok_inv h
    cases b with
    | false =>
      simp only [Bool.false_eq_true, if_false] at h
      obtain ⟨h, -, -⟩ := pure_ok_inv h
      subst h
      exact ⟨rfl, rfl⟩
    | true =>
      simp only [if_true] at h
      obtain ⟨a, wa, ta, tb, -, h, -⟩ := bind_ok_inv h
      obtain ⟨rc, wa, ta, tb, -, h, -⟩ := bind_ok_inv h
      split at h
      · simp [kObjCacheFatal] at h
      · obtain ⟨h, -, -⟩ := pure_ok_inv h
        subst h
        exact ⟨rfl, rfl⟩

theorem calcChecksum_flag {W : Type} (os : OS W) (e e1 : KOBJCACHE) (w w1 : W) (t : List Event)
    (h : kObjCacheCalcChecksum os e w = (Res.ok e1, w1, t)) :
    e1.fNeedCompiling = e.fNeedCompiling := by
  unfold kObjCacheCalcChecksum at h
  simp only [bind_eq, pure_eq] at h
  obtain ⟨a, wa, ta, tb, -, h, -⟩ := bind_ok_inv h
  obtain ⟨a, wa, ta, tb, -, h, -⟩ := bind_ok_inv h
  obtain ⟨r, wa, ta, tb, -, h, -⟩ := bind_ok_inv h
  cases r with
  | none => simp [kObjCacheFatal] at h
  | some pb =>
    simp only at h
    obtain ⟨h, -, -⟩ := pure_ok_inv h
    subst h
    rfl

theorem precompile_flag {W : Type} (os : OS W) (fuel : Nat) (e e1 : KOBJCACHE)
    (argv : List CStr) (cArgv : Nat) (pszPreCompName : Option CStr) (fRedirStdOut : Nat)
    (w w1 : W) (t : List Event)
    (h : kObjCachePreCompile os fuel e argv cArgv pszPreCompName fRedirStdOut w
      = (Res.ok e1, w1, t)) :
    e1.fNeedCompiling = e.fNeedCompiling := by
  unfold kObjCachePreCompile at h
  simp only [bind_eq, pure_eq] at h
  obtain ⟨a, wa, ta, tb, hr, h, -⟩ := bind_ok_inv h
  obtain ⟨a2, wa, ta, tb, -, h, -⟩ := bind_ok_inv h
  obtain ⟨a3, wa, ta, tb, -, h, -⟩ := bind_ok_inv h
  obtain ⟨a4, wa, ta, tb, -, h, -⟩ := bind_ok_inv h
  have hc : e1.fNeedCompiling = a.fNeedCompiling := by
    split at h
    · obtain ⟨a5, wa, ta, tb, -, h, -⟩ := bind_ok_inv h
      have hc := calcChecksum_flag os _ _ _ _ _ h
      exact hc
    · obtain ⟨a5, wa, ta, tb, -, h, -⟩ := bind_ok_inv h
      have hc := calcChecksum_flag os _ _ _ _ _ h
      exact hc
  rw [hc]
  exact (rotate_flag os e a _ _ _ hr).1

theorem main_run_ok_spawn {W : Type} (os : OS W) (fuel : Nat) (pszCacheFile : CStr)
    (v : MainVars) (w : W) (rc : Nat)
    (h : (main.run os fuel pszCacheFile v w).1 = Res.ok rc) :
    ∃ pid, Event.spawn "compile".toList v.papszArgvCompile none pid
      ∈ (main.run os fuel pszCacheFile v w).2.2 := by
  have h' : main.run os fuel pszCacheFile v w
      = (Res.ok rc, (main.run os fuel pszCacheFile v w).2.1,
          (main.run os fuel pszCacheFile v w).2.2) := by
    rw [← h]
  generalize (main.run os fuel pszCacheFile v w).2.2 = t at h'
  generalize (main.run os fuel pszCacheFile v w).2.1 = wf at h'
  unfold main.run at h'
  simp only [bind_eq, pure_eq] at h'
  obtain ⟨e0, w0, t0, tb0, -, h', q0⟩ := bind_ok_inv h'
  obtain ⟨e1, w1, t1, tb1, hread, h', q1⟩ := bind_ok_inv h'
  obtain ⟨e2, w2, t2, tb2, hpre, h', q2⟩ := bind_ok_inv h'
  obtain ⟨e3, w3, t3, tb3, hcin, h', q3⟩ := bind_ok_inv h'
  have hf1 : e1.fNeedCompiling = 1 := by
    simp [kObjCacheRead, bind_eq, pure_eq, M.bind, M.emit, M.pure, after_mk] at hread
    rw [← hread.1]
  have hf2 := precompile_flag os fuel _ _ _ _ _ _ _ _ _ hpre
  obtain ⟨pid, hp⟩ := compileIfNeeded_ok_spawn os fuel _ e2 e3 _ _ _ w2 w3 t3
    (by rw [hf2, hf1]; decide) hcin
  refine ⟨pid, ?_⟩
  rw [q0, q1, q2, q3]
  simp only [List.mem_append]
  exact Or.inr (Or.inr (Or.inr (Or.inl hp)))

theorem main_ok_spawn {W : Type} (os : OS W) (fuel : Nat) (argv : List CStr) (v : MainVars)
    (w : W) (hparse : main.parse (argv.drop 1) MainVars.init = Parsed.done v)
    (h : (main os fuel argv w).1 = Res.ok 0) :
    ∃ pid, Event.spawn "compile".toList v.papszArgvCompile none pid
      ∈ (main os fuel argv w).2.2 := by
  unfold main at h ⊢
  rw [hparse] at h ⊢
  simp only at h ⊢
  cases hf : v.pszCacheFile with
  | none =>
    simp [hf, M.stop] at h
  | some f =>
    simp only [hf] at h
    simp only
    by_cases c1 : v.cArgvCompile = 0
    · rw [if_pos c1] at h
      simp at h
    · rw [if_neg c1] at h ⊢
      by_cases c2 : v.cArgvPreComp = 0
      · rw [if_pos c2] at h
        simp at h
      · rw [if_neg c2] at h ⊢
        exact main_run_ok_spawn os fuel f v w 0 h

/-! ### Concrete command lines -/

theorem main_parse_buildCmd : main.parse (buildCmd.drop 1) MainVars.init = Parsed.done buildVars := by
  simp [buildCmd, buildVars, main.parse, main.collect, main.append, main.store, strcmp, MainVars.init]

theorem main_buildCmd : main simOS 0 buildCmd = main.run simOS 0 "/c/x.cache".toList buildVars := by
  unfold main
  rw [main_parse_buildCmd]
  rfl

theorem main_parse_failCmd : main.parse (failCmd.drop 1) MainVars.init = Parsed.done failVars := by
  simp [failCmd, failVars, buildVars, main.parse, main.collect, main.append, main.store, strcmp,
    MainVars.init]

theorem main_failCmd : main simOS 0 failCmd = main.run simOS 0 "/c/x.cache".toList failVars := by
  unfold main
  rw [main_parse_failCmd]
  rfl

/-! ### A failing compiler ends the run -/

theorem emits_bind {W α β : Type} {m : M W α} {f : α → M W β} {P : Event → Prop}
    (hm : emits m P) (hf : ∀ a, emits (f a) P) : emits (M.bind m f) P := by
  intro w ev hev
  rw [mem_bind] at hev
  rcases hev with h | ⟨a, -, h⟩
  · exact hm w ev h
  · exact hf a _ ev h

theorem emits_pure {W α : Type} (a : α) (P : Event → Prop) : emits (M.pure a : M W α) P := by
  intro w ev hev
  simp [M.pure] at hev

theorem emits_stop {W α : Type} (r : Res α) (P : Event → Prop) : emits (M.stop r : M W α) P := by
  intro w ev hev
  simp [M.stop] at hev

theorem emits_lift {W α : Type} (r : Res α) (P : Event → Prop) : emits (M.lift r : M W α) P := by
  intro w ev hev
  simp [M.lift] at hev

theorem emits_nonNull {W α : Type} (o : Option α) (P : Event → Prop) :
    emits (M.nonNull o : M W α) P := by
  cases o with
  | none => exact emits_stop _ P
  | some a => exact emits_pure a P

theorem emits_fatal {W α : Type} (e : KOBJCACHE) (d : Diag) (P : Event → Prop)
    (h : P (Event.stderr d)) : emits (kObjCacheFatal e d : M W α) P := by
  intro w ev hev
  simp [kObjCacheFatal] at hev
  rw [hev]
  exact h

theorem emits_ite {W α : Type} (c : Prop) [Decidable c] {m1 m2 : M W α} {P : Event → Prop}
    (h1 : emits m1 P) (h2 : emits m2 P) : emits (if c then m1 else m2) P := by
  split
  · exact h1
  · exact h2

theorem quiet_stderr (d : Diag) : quiet (Event.stderr d) := by
  constructor
  · intro pid r h; cases h
  · intro h; cases h

theorem emits_CalcRelativeName {W : Type} (os : OS W) (p d : CStr) :
    emits (CalcRelativeName os p d) quiet := by
  intro w ev hev
  unfold CalcRelativeName at hev
  cases h : CalcRelativeName.val os w p d with
  | ok a => simp [h, M.lift] at hev
  | exit c =>
    simp [h] at hev
    rw [hev]
    exact quiet_stderr _
  | undef => simp [h, M.lift] at hev
  | hang => simp [h, M.lift] at hev

theorem emits_Unlink {W : Type} (os : OS W) (n d : CStr) :
    emits (UnlinkFileInDir os n d) quiet := by
  intro w ev hev
  simp [UnlinkFileInDir] at hev
  rw [hev]
  constructor
  · intro pid r h; cases h
  · intro h; cases h

theorem emits_Rename {W : Type} (os : OS W) (a b d : CStr) :
    emits (RenameFileInDir os a b d) quiet := by
  intro w ev hev
  simp [RenameFileInDir] at hev
  rw [hev]
  constructor
  · intro pid r h; cases h
  · intro h; cases h

theorem emits_Exist {W : Type} (os : OS W) (n d : CStr) :
    emits (DoesFileInDirExist os n d) quiet := by
  intro w ev hev
  simp [DoesFileInDirExist] at hev
  rw [hev]
  constructor
  · intro pid r h; cases h
  · intro h; cases h

theorem emits_ReadFile {W : Type} (os : OS W) (n d : CStr) :
    emits (ReadFileInDir os n d) quiet := by
  intro w ev hev
  unfold ReadFileInDir at hev
  cases h : os.readFile w n with
  | none =>
    simp [h] at hev
    rw [hev]
    constructor
    · intro pid r h; cases h
    · intro h; cases h
  | some pb =>
    simp [h] at hev
    rw [hev]
    constructor
    · intro pid r h; cases h
    · intro h; cases h

theorem waitLoop_done {W : Type} (os : OS W) (msg : CStr) (pid : Int) (fuel : Nat)
    (r : WaitRes) (iS : Option Nat) (w : W) (h : ¬ (r.ret < 0 ∧ r.eintr = true)) :
    kObjCacheSpawn.waitLoop os msg pid fuel r iS w = (Res.ok (r.ret, iS), w, []) := by
  cases fuel with
  | zero => simp [kObjCacheSpawn.waitLoop, h, M.pure]
  | succ n => simp [kObjCacheSpawn.waitLoop, h, M.pure]

theorem waitLoop_events {W : Type} (os : OS W) (msg : CStr) (pid : Int) (fuel : Nat) :
    ∀ (r : WaitRes) (iS : Option Nat) (w : W),
      ∀ ev ∈ (kObjCacheSpawn.waitLoop os msg pid fuel r iS w).2.2,
        ∃ r1, ev = Event.waitpid msg pid r1 := by
  induction fuel with
  | zero =>
    intro r iS w ev hev
    unfold kObjCacheSpawn.waitLoop at hev
    split at hev <;> simp [M.stop, M.pure] at hev
  | succ n ih =>
    intro r iS w ev hev
    unfold kObjCacheSpawn.waitLoop at hev
    split at hev
    · simp only [List.mem_cons] at hev
      rcases hev with h | h
      · exact ⟨_, h⟩
      · exact ih _ _ _ ev h
    · simp [M.pure] at hev

theorem waitLoop_found {W : Type} (os : OS W) (msg : CStr) (pid : Int) (fuel : Nat)
    (r1 : WaitRes) (st : Nat) (hpid : 0 < pid) (hret : r1.ret = pid)
    (hst : r1.status = some st) :
    ∀ (r : WaitRes) (iS : Option Nat) (w : W),
      Event.waitpid msg pid r1 ∈ (kObjCacheSpawn.waitLoop os msg pid fuel r iS w).2.2 →
        (kObjCacheSpawn.waitLoop os msg pid fuel r iS w).1 = Res.ok (pid, some st) := by
  induction fuel with
  | zero =>
    intro r iS w hev
    unfold kObjCacheSpawn.waitLoop at hev
    split at hev <;> simp [M.stop, M.pure] at hev
  | succ n ih =>
    intro r iS w hev
    unfold kObjCacheSpawn.waitLoop at hev ⊢
    split at hev
    · rename_i hc
      rw [if_pos hc]
      simp only [List.mem_cons] at hev
      rcases hev with h | h
      · have hr : (os.waitpid w pid).2 = r1 := by
          injection h with _ _ h3
          exact h3.symm
        simp only
        rw [hr, waitLoop_done os msg pid n r1 _ _ (by rw [hret]; omega)]
        simp [hret, hst]
      · exact ih _ _ _ h
    · simp [M.pure] at hev

theorem check_events {W : Type} (e : KOBJCACHE) (msg : CStr) (pid pidWait : Int)
    (iS : Option Nat) (w : W) :
    ∀ ev ∈ (kObjCacheSpawn.check e msg pid pidWait iS w : Res Unit × W × List Event).2.2,
      ∃ d, ev = Event.stderr d := by
  intro ev hev
  unfold kObjCacheSpawn.check at hev
  split at hev
  · simp [kObjCacheFatal] at hev
    exact ⟨_, hev⟩
  · cases iS with
    | none => simp [M.stop] at hev
    | some st =>
      simp only at hev
      split at hev
      · simp [kObjCacheFatal] at hev
        exact ⟨_, hev⟩
      · split at hev
        · simp [kObjCacheFatal] at hev
          exact ⟨_, hev⟩
        · simp [M.pure] at hev

theorem check_failed {W : Type} (e : KOBJCACHE) (msg : CStr) (pid : Int) (st : Nat) (w : W)
    (hex : WIFEXITED st = true) (hcode : WEXITSTATUS st ≠ 0) :
    (kObjCacheSpawn.check e msg pid pid (some st) w : Res Unit × W × List Event).1
      = Res.exit 1 := by
  simp [kObjCacheSpawn.check, hex, hcode, kObjCacheFatal]

theorem kObjCacheSpawn_eq {W : Type} (os : OS W) (fuel : Nat) (e : KOBJCACHE)
    (argv : List CStr) (cArgv : Nat) (msg : CStr) (out : Option CStr) (w : W) :
    kObjCacheSpawn os fuel e argv cArgv msg out w
      = after [Event.spawn msg argv out (os.fork w argv out).2,
               Event.waitpid msg (os.fork w argv out).2
                 (os.waitpid (os.fork w argv out).1 (os.fork w argv out).2).2]
          (M.bind (kObjCacheSpawn.waitLoop os msg (os.fork w argv out).2 fuel
                (os.waitpid (os.fork w argv out).1 (os.fork w argv out).2).2
                (os.waitpid (os.fork w argv out).1 (os.fork w argv out).2).2.status)
              (fun res => kObjCacheSpawn.check e msg (os.fork w argv out).2 res.1 res.2)
              (os.waitpid (os.fork w argv out).1 (os.fork w argv out).2).1) := by
  unfold kObjCacheSpawn
  simp only [bind_eq]
  rw [@bind_of_ok W Int Unit _ w (os.fork w argv out).1 (os.fork w argv out).2
    [Event.spawn msg argv out (os.fork w argv out).2] rfl]
  rw [@bind_of_ok W WaitRes Unit _ (os.fork w argv out).1
    (os.waitpid (os.fork w argv out).1 (os.fork w argv out).2).1
    (os.waitpid (os.fork w argv out).1 (os.fork w argv out).2).2
    [Event.waitpid msg (os.fork w argv out).2
      (os.waitpid (os.fork w argv out).1 (os.fork w argv out).2).2] rfl]
  rw [after_after]
  rfl

theorem kObjCacheSpawn_events {W : Type} (os : OS W) (fuel : Nat) (e : KOBJCACHE)
    (argv : List CStr) (cArgv : Nat) (msg : CStr) (out : Option CStr) (w : W) :
    ∀ ev ∈ (kObjCacheSpawn os fuel e argv cArgv msg out w).2.2,
      (∃ p, ev = Event.spawn msg argv out p) ∨ (∃ p r, ev = Event.waitpid msg p r)
        ∨ (∃ d, ev = Event.stderr d) := by
  intro ev hev
  rw [kObjCacheSpawn_eq] at hev
  simp only [after, List.mem_append, List.mem_cons, List.mem_singleton, List.not_mem_nil,
    or_false] at hev
  rcases hev with (h | h) | h
  · exact Or.inl ⟨_, h⟩
  · exact Or.inr (Or.inl ⟨_, _, h⟩)
  · rw [mem_bind] at h
    rcases h with h | ⟨a, -, h⟩
    · obtain ⟨r1, h1⟩ := waitLoop_events os msg _ fuel _ _ _ ev h
      exact Or.inr (Or.inl ⟨_, _, h1⟩)
    · exact Or.inr (Or.inr (check_events e msg _ _ _ _ ev h))

theorem kObjCacheSpawn_failed {W : Type} (os : OS W) (fuel : Nat) (e : KOBJCACHE)
    (argv : List CStr) (cArgv : Nat) (msg : CStr) (out : Option CStr) (w : W)
    (pid : Int) (r : WaitRes) (st : Nat)
    (hev : Event.waitpid msg pid r ∈ (kObjCacheSpawn os fuel e argv cArgv msg out w).2.2)
    (hpid : 0 < pid) (hret : r.ret = pid) (hst : r.status = some st)
    (hex : WIFEXITED st = true) (hcode : WEXITSTATUS st ≠ 0) :
    (kObjCacheSpawn os fuel e argv cArgv msg out w).1 = Res.exit 1 := by
  rw [kObjCacheSpawn_eq] at hev ⊢
  simp only [after, List.mem_append, List.mem_cons, List.mem_singleton, List.not_mem_nil,
    or_false] at hev
  simp only [after]
  rcases hev with (h | h) | h
  · cases h
  · injection h with _ hp hr
    rw [← hp] at hr ⊢
    rw [← hr]
    rw [bind_of_ok (waitLoop_done os msg pid fuel r _ _ (by rw [hret]; omega))]
    simp only [after, hret, hst]
    exact check_failed e msg pid st _ hex hcode
  · rw [mem_bind] at h
    rcases h with h | ⟨a, -, h⟩
    · obtain ⟨r1, h1⟩ := waitLoop_events os msg _ fuel _ _ _ _ h
      injection h1 with _ hp hr
      rw [← hp] at h ⊢
      have hl := waitLoop_found os msg pid fuel r st hpid hret hst _ _ _ h
      generalize hL : kObjCacheSpawn.waitLoop os msg pid fuel
        (os.waitpid (os.fork w argv out).1 pid).2
        (os.waitpid (os.fork w argv out).1 pid).2.status
        (os.waitpid (os.fork w argv out).1 pid).1 = L at hl ⊢
      obtain ⟨l1, l2, l3⟩ := L
      simp only at hl
      subst hl
      rw [bind_of_ok hL]
      simp only [after]
      exact check_failed e msg pid st _ hex hcode
    · obtain ⟨d, hd⟩ := check_events e msg _ _ _ _ _ h
      cases hd

theorem compilerFailed_not_quiet (ev : Event) (h : compilerFailed ev) : ¬ quiet ev := by
  obtain ⟨pid, r, st, he, -⟩ := h
  intro hq
  exact hq.1 pid r he

theorem compilerFailed_wait (ev : Event) (h : compilerFailed ev) : ¬ noCompilerWait ev := by
  obtain ⟨pid, r, st, he, -⟩ := h
  intro hq
  exact hq pid r he

/-- Sequencing after a computation that emits only quiet events. -/
theorem bind_quiet_left {W α β : Type} {m : M W α} {f : α → M W β} (w : W)
    (hm : emits m quiet)
    (hf : ∀ a w1, (∃ ev ∈ (f a w1).2.2, compilerFailed ev) → fatalNoWrite (f a w1)) :
    (∃ ev ∈ (M.bind m f w).2.2, compilerFailed ev) → fatalNoWrite (M.bind m f w) := by
  rintro ⟨ev, hev, hbad⟩
  rw [mem_bind] at hev
  rcases hev with h | ⟨a, ha, h⟩
  · exact absurd (hm w ev h) (compilerFailed_not_quiet ev hbad)
  · have hq := hm w
    rcases hmw : m w with ⟨r, w1, t1⟩
    rw [hmw] at ha h hq
    simp only at ha h hq
    subst ha
    obtain ⟨h1, h2⟩ := hf a w1 ⟨ev, h, hbad⟩
    rw [bind_of_ok hmw]
    refine ⟨h1, ?_⟩
    simp only [after, List.mem_append]
    rintro (h3 | h3)
    · exact (hq _ h3).2 rfl
    · exact h2 h3

/-- Sequencing before a computation that emits no wait for the compiler. -/
theorem bind_quiet_right {W α β : Type} {m : M W α} {f : α → M W β} (w : W)
    (hm : (∃ ev ∈ (m w).2.2, compilerFailed ev) → fatalNoWrite (m w))
    (hf : ∀ a, emits (f a) noCompilerWait) :
    (∃ ev ∈ (M.bind m f w).2.2, compilerFailed ev) → fatalNoWrite (M.bind m f w) := by
  rintro ⟨ev, hev, hbad⟩
  rw [mem_bind] at hev
  rcases hev with h | ⟨a, -, h⟩
  · obtain ⟨h1, h2⟩ := hm ⟨ev, h, hbad⟩
    rcases hmw : m w with ⟨r, w1, t1⟩
    rw [hmw] at h1 h2
    simp only at h1 h2
    subst h1
    simp only [M.bind, hmw]
    exact ⟨rfl, h2⟩
  · exact absurd (hf a _ ev h) (compilerFailed_wait ev hbad)

theorem kObjCacheSpawn_quiet {W : Type} (os : OS W) (fuel : Nat) (e : KOBJCACHE)
    (argv : List CStr) (cArgv : Nat) (msg : CStr) (out : Option CStr)
    (hmsg : msg ≠ "compile".toList) :
    emits (kObjCacheSpawn os fuel e argv cArgv msg out) quiet := by
  intro w ev hev
  rcases kObjCacheSpawn_events os fuel e argv cArgv msg out w ev hev with
    ⟨p, h⟩ | ⟨p, r, h⟩ | ⟨d, h⟩
  · rw [h]
    exact ⟨fun _ _ h => (nomatch h), fun h => (nomatch h)⟩
  · rw [h]
    refine ⟨fun _ _ h => ?_, fun h => (nomatch h)⟩
    injection h with h1
    exact hmsg h1
  · rw [h]
    exact quiet_stderr d

theorem kObjCacheSpawn_fails {W : Type} (os : OS W) (fuel : Nat) (e : KOBJCACHE)
    (argv : List CStr) (cArgv : Nat) (out : Option CStr) (w : W) :
    (∃ ev ∈ (kObjCacheSpawn os fuel e argv cArgv "compile".toList out w).2.2,
        compilerFailed ev) →
      fatalNoWrite (kObjCacheSpawn os fuel e argv cArgv "compile".toList out w) := by
  rintro ⟨ev, hev, pid, r, st, he, hpid, hret, hst, hex, hcode⟩
  subst he
  refine ⟨kObjCacheSpawn_failed os fuel e argv cArgv _ out w pid r st hev hpid hret hst hex
    hcode, ?_⟩
  intro hw
  rcases kObjCacheSpawn_events os fuel e argv cArgv _ out w _ hw with
    ⟨p, h⟩ | ⟨p, r, h⟩ | ⟨d, h⟩ <;> cases h

theorem no_events_fatalNoWrite {W α : Type} (res : Res α × W × List Event)
    (h : res.2.2 = []) : (∃ ev ∈ res.2.2, compilerFailed ev) → fatalNoWrite res := by
  rintro ⟨ev, hev, -⟩
  rw [h] at hev
  cases hev

theorem kObjCacheCompileIt_fails {W : Type} (os : OS W) (fuel : Nat) (e : KOBJCACHE)
    (argv : List CStr) (cArgv : Nat) (pszObjName : Option CStr) (w : W) :
    (∃ ev ∈ (kObjCacheCompileIt os fuel e argv cArgv pszObjName w).2.2, compilerFailed ev) →
      fatalNoWrite (kObjCacheCompileIt os fuel e argv cArgv pszObjName w) := by
  unfold kObjCacheCompileIt
  simp only [bind_eq, pure_eq]
  refine bind_quiet_left w (emits_nonNull _ _) (fun dir w1 => ?_)
  refine bind_quiet_left w1 ?_ (fun e2 w2 => ?_)
  · cases e.pszObjName with
    | none => exact emits_pure _ _
    | some old => exact emits_bind (emits_Unlink os old dir) (fun _ => emits_pure _ _)
  refine bind_quiet_left w2 (emits_nonNull _ _) (fun obj w3 => ?_)
  refine bind_quiet_left w3 (emits_CalcRelativeName os obj dir) (fun n w4 => ?_)
  exact bind_quiet_right w4 (kObjCacheSpawn_fails os fuel _ argv cArgv none w4)
    (fun _ => emits_pure _ _)

theorem emits_objName {W : Type} (os : OS W) (e : KOBJCACHE) (pszObjName : Option CStr) :
    emits (kObjCacheCompileIfNeeded.objName os e pszObjName) quiet := by
  unfold kObjCacheCompileIfNeeded.objName
  simp only [bind_eq, pure_eq]
  refine emits_ite _ ?_ (emits_pure _ _)
  refine emits_bind (emits_nonNull _ _) (fun obj => ?_)
  refine emits_bind (emits_nonNull _ _) (fun dir => ?_)
  refine emits_bind (emits_CalcRelativeName os obj dir) (fun tmp => ?_)
  refine emits_bind (emits_nonNull _ _) (fun stored => ?_)
  exact emits_ite _ (emits_pure _ _) (emits_pure _ _)

theorem emits_objExists {W : Type} (os : OS W) (e : KOBJCACHE) :
    emits (kObjCacheCompileIfNeeded.objExists os e) quiet := by
  unfold kObjCacheCompileIfNeeded.objExists
  simp only [bind_eq, pure_eq]
  refine emits_ite _ ?_ (emits_pure _ _)
  refine emits_bind (emits_nonNull _ _) (fun stored => ?_)
  refine emits_bind (emits_nonNull _ _) (fun dir => ?_)
  refine emits_bind (emits_Exist os stored dir) (fun b => ?_)
  exact emits_ite _ (emits_pure _ _) (emits_pure _ _)

theorem emits_discardOld {W : Type} (os : OS W) (e : KOBJCACHE) :
    emits (kObjCacheCompileIfNeeded.discardOld os e) quiet := by
  unfold kObjCacheCompileIfNeeded.discardOld
  simp only [bind_eq, pure_eq]
  cases e.pszOldCppName with
  | none => exact emits_pure _ _
  | some old =>
    refine emits_bind (emits_nonNull _ _) (fun dir => ?_)
    exact emits_bind (emits_Unlink os old dir) (fun _ => emits_pure _ _)

theorem kObjCacheCompileIfNeeded_fails {W : Type} (os : OS W) (fuel : Nat)
    (heap : Nat → Option KOCSUM) (e : KOBJCACHE) (argv : List CStr) (cArgv : Nat)
    (pszObjName : Option CStr) (w : W) :
    (∃ ev ∈ (kObjCacheCompileIfNeeded os fuel heap e argv cArgv pszObjName w).2.2,
        compilerFailed ev) →
      fatalNoWrite (kObjCacheCompileIfNeeded os fuel heap e argv cArgv pszObjName w) := by
  unfold kObjCacheCompileIfNeeded
  simp only [bind_eq, pure_eq]
  refine bind_quiet_left w (emits_objName os e pszObjName) (fun e1 w1 => ?_)
  refine bind_quiet_left w1 (emits_lift _ _) (fun e2 w2 => ?_)
  refine bind_quiet_left w2 (emits_objExists os e2) (fun e3 w3 => ?_)
  refine bind_quiet_left w3 (emits_lift _ _) (fun e4 w4 => ?_)
  refine bind_quiet_left w4 (emits_discardOld os e4) (fun e5 w5 => ?_)
  split
  · exact kObjCacheCompileIt_fails os fuel e5 argv cArgv pszObjName w5
  · exact no_events_fatalNoWrite _ rfl

theorem emits_Create {W : Type} (os : OS W) (pszFilename : CStr) :
    emits (kObjCacheCreate os pszFilename) quiet := by
  intro w ev hev
  unfold kObjCacheCreate at hev
  simp only at hev
  split at hev
  · exact emits_fatal _ _ _ (quiet_stderr _) w ev hev
  · split at hev
    · exact emits_stop _ _ w ev hev
    · exact emits_pure _ _ w ev hev

theorem emits_Read {W : Type} (e : KOBJCACHE) : emits (kObjCacheRead e : M W KOBJCACHE) quiet := by
  intro w ev hev
  simp [kObjCacheRead, bind_eq, pure_eq, M.bind, M.emit, M.pure, after_mk] at hev
  rw [hev]
  exact ⟨fun _ _ h => (nomatch h), fun h => (nomatch h)⟩

theorem emits_Write {W : Type} (e : KOBJCACHE) :
    emits (kObjCacheWrite e : M W Unit) noCompilerWait := by
  intro w ev hev
  simp [kObjCacheWrite, M.emit] at hev
  rw [hev]
  exact fun _ _ h => (nomatch h)

theorem emits_rotate {W : Type} (os : OS W) (e : KOBJCACHE) :
    emits (kObjCachePreCompile.rotate os e) quiet := by
  unfold kObjCachePreCompile.rotate
  simp only [bind_eq, pure_eq]
  cases e.pszOldCppName with
  | none => exact emits_pure _ _
  | some old =>
    refine emits_bind (emits_nonNull _ _) (fun dir => ?_)
    refine emits_bind (emits_Exist os old dir) (fun b => ?_)
    refine emits_ite _ ?_ (emits_pure _ _)
    refine emits_bind (emits_Unlink os _ dir) (fun _ => ?_)
    refine emits_bind (emits_Rename os _ _ dir) (fun rc => ?_)
    exact emits_ite _ (emits_fatal _ _ _ (quiet_stderr _)) (emits_pure _ _)

theorem emits_CalcChecksum {W : Type} (os : OS W) (e : KOBJCACHE) :
    emits (kObjCacheCalcChecksum os e) quiet := by
  unfold kObjCacheCalcChecksum
  simp only [bind_eq, pure_eq]
  refine emits_bind (emits_nonNull _ _) (fun n => ?_)
  refine emits_bind (emits_nonNull _ _) (fun dir => ?_)
  refine emits_bind (emits_ReadFile os n dir) (fun r => ?_)
  cases r with
  | none => exact emits_fatal _ _ _ (quiet_stderr _)
  | some pb => exact emits_pure _ _

theorem emits_PreCompile {W : Type} (os : OS W) (fuel : Nat) (e : KOBJCACHE)
    (argv : List CStr) (cArgv : Nat) (pszPreCompName : Option CStr) (fRedirStdOut : Nat) :
    emits (kObjCachePreCompile os fuel e argv cArgv pszPreCompName fRedirStdOut) quiet := by
  unfold kObjCachePreCompile
  simp only [bind_eq, pure_eq]
  refine emits_bind (emits_rotate os e) (fun e1 => ?_)
  refine emits_bind (emits_nonNull _ _) (fun n => ?_)
  refine emits_bind (emits_nonNull _ _) (fun dir => ?_)
  refine emits_bind (emits_CalcRelativeName os n dir) (fun tmp => ?_)
  have hmsg : "precompile".toList ≠ "compile".toList := by decide
  refine emits_ite _ ?_ ?_
  · exact emits_bind (kObjCacheSpawn_quiet os fuel _ argv cArgv _ _ hmsg)
      (fun _ => emits_CalcChecksum os _)
  · exact emits_bind (kObjCacheSpawn_quiet os fuel _ argv cArgv _ _ hmsg)
      (fun _ => emits_CalcChecksum os _)

theorem main_run_fails {W : Type} (os : OS W) (fuel : Nat) (pszCacheFile : CStr)
    (v : MainVars) (w : W) :
    (∃ ev ∈ (main.run os fuel pszCacheFile v w).2.2, compilerFailed ev) →
      fatalNoWrite (main.run os fuel pszCacheFile v w) := by
  unfold main.run
  simp only [bind_eq, pure_eq]
  refine bind_quiet_left w (emits_Create os pszCacheFile) (fun e0 w0 => ?_)
  refine bind_quiet_left w0 (emits_Read e0) (fun e1 w1 => ?_)
  refine bind_quiet_left w1 (emits_PreCompile os fuel e1 _ _ _ _) (fun e2 w2 => ?_)
  refine bind_quiet_right w2 (kObjCacheCompileIfNeeded_fails os fuel _ e2 _ _ _ w2)
    (fun e3 => ?_)
  exact emits_bind (emits_Write e3) (fun _ => emits_pure _ _)

theorem main_fails {W : Type} (os : OS W) (fuel : Nat) (argv : List CStr) (w : W) :
    (∃ ev ∈ (main os fuel argv w).2.2, compilerFailed ev) →
      fatalNoWrite (main os fuel argv w) := by
  have hone : ∀ (rc : Nat) (ev : Event), quiet ev →
      (∃ ev1 ∈ ((Res.ok rc, w, [ev]) : Res Nat × W × List Event).2.2, compilerFailed ev1) →
        fatalNoWrite ((Res.ok rc, w, [ev]) : Res Nat × W × List Event) := by
    rintro rc ev hq ⟨ev1, hev, hbad⟩
    simp only [List.mem_singleton] at hev
    rw [hev] at hbad
    exact absurd hq (compilerFailed_not_quiet ev hbad)
  unfold main
  cases main.parse (argv.drop 1) MainVars.init with
  | syntaxError what => exact hone 1 _ (quiet_stderr _)
  | printed d => exact hone 0 _ ⟨fun _ _ h => (nomatch h), fun h => (nomatch h)⟩
  | undef => exact no_events_fatalNoWrite _ rfl
  | done v =>
    simp only
    cases v.pszCacheFile with
    | none => exact no_events_fatalNoWrite _ rfl
    | some f =>
      simp only
      split
      · exact hone 1 _ (quiet_stderr _)
      · split
        · exact hone 1 _ (quiet_stderr _)
        · exact main_run_fails os fuel f v w

/-! ### Checksums -/

/-- Two different pointers of which the first is not NULL never compare
equal, whatever the records hold. -/
theorem kObjCacheSumIsEqual_of_ne (mem : PKOCSUM → Option KOCSUM) (pSum1 pSum2 : PKOCSUM)
    (h1 : pSum1 ≠ PKOCSUM.null) (h : pSum1 ≠ pSum2) :
    kObjCacheSumIsEqual mem pSum1 pSum2 = some 0 := by
  simp [kObjCacheSumIsEqual, h, h1]

/-! ### More concrete command lines -/

theorem main_parse_noFileCmd :
    main.parse (noFileCmd.drop 1) MainVars.init = Parsed.done noFileVars := by
  simp [noFileCmd, noFileVars, buildVars, main.parse, main.collect, main.append, main.store, strcmp,
    MainVars.init]

theorem main_parse_mixedCmd :
    main.parse (mixedCmd.drop 1) MainVars.init = Parsed.done mixedVars := by
  simp [mixedCmd, mixedVars, main.parse, main.collect, main.append, main.store, strcmp, MainVars.init]

/-! ### The argument vectors after parsing -/

theorem counted_init : MainVars.init.counted := by
  simp [MainVars.counted, MainVars.init]

theorem append_some (l l1 : List CStr) (c cap c1 cap1 : Nat) (tok : CStr)
    (h : main.append l c cap tok = some (l1, c1, cap1)) :
    l1 = l ++ [tok] ∧ c1 = c + 1 ∧ c1 < cap1 := by
  unfold main.append at h
  by_cases hlt : c + 1 < (if c % 16 = 0 then c + 17 else cap)
  · simp only [hlt, if_true, Option.some.injEq, Prod.mk.injEq] at h
    obtain ⟨h1, h2, h3⟩ := h
    subst h1 h2 h3
    exact ⟨rfl, rfl, hlt⟩
  · simp [hlt] at h

/-- A token seen in an open section goes to the end of the lists whose
section is open, and changes nothing else of what parsing looks at. -/
theorem collect_lists (v v1 : MainVars) (tok : CStr) (h : main.collect v tok = some v1)
    (hv : v.counted) :
    v1.papszArgvPreComp = v.papszArgvPreComp ++ (if v.enmMode.cppOpen then [tok] else [])
    ∧ v1.papszArgvCompile = v.papszArgvCompile ++ (if v.enmMode.ccOpen then [tok] else [])
    ∧ v1.enmMode = v.enmMode ∧ v1.pszPreCompName = v.pszPreCompName
    ∧ v1.pszObjName = v.pszObjName ∧ v1.counted := by
  obtain ⟨f, lp, cp, capp, pn, fr, lc, cc, capc, onm, mode, verb, mp, mc⟩ := v
  obtain ⟨h1, h2, h3, h4⟩ := hv
  simp only at h1 h2 h3 h4
  unfold main.collect at h
  cases mode
  · simp at h
    subst h
    simp [Mode.cppOpen, Mode.ccOpen, MainVars.counted]
    exact ⟨h1, h2, h3, h4⟩
  · rcases hp : main.append lp cp capp tok with _ | ⟨l1, c1, cap1⟩
    · simp [hp] at h
    · rcases hs : main.store mp cp tok with _ | a1
      · simp [hp, hs] at h
      · obtain ⟨p1, p2, p3⟩ := append_some _ _ _ _ _ _ _ hp
        simp [hp, hs] at h
        subst h p1
        simp [Mode.cppOpen, Mode.ccOpen, MainVars.counted]
        exact ⟨by omega, h2, Or.inr p3, h4⟩
  · rcases hc : main.append lc cc capc tok with _ | ⟨l2, c2, cap2⟩
    · simp [hc] at h
    · rcases hs : main.store mc cc tok with _ | a2
      · simp [hc, hs] at h
      · obtain ⟨q1, q2, q3⟩ := append_some _ _ _ _ _ _ _ hc
        simp [hc, hs] at h
        subst h q1
        simp [Mode.cppOpen, Mode.ccOpen, MainVars.counted]
        exact ⟨h1, by omega, h3, Or.inr q3⟩
  · rcases hp : main.append lp cp capp tok with _ | ⟨l1, c1, cap1⟩
    · simp [hp] at h
    · rcases hs : main.store mp cp tok with _ | a1
      · simp [hp, hs] at h
      · rcases hc : main.append lc cc capc tok with _ | ⟨l2, c2, cap2⟩
        · simp [hp, hs, hc] at h
        · rcases ht : main.store mc cc tok with _ | a2
          · simp [hp, hs, hc, ht] at h
          · obtain ⟨p1, p2, p3⟩ := append_some _ _ _ _ _ _ _ hp
            obtain ⟨q1, q2, q3⟩ := append_some _ _ _ _ _ _ _ hc
            simp [hp, hs, hc, ht] at h
            subst h p1 q1
            simp [Mode.cppOpen, Mode.ccOpen, MainVars.counted]
            exact ⟨by omega, by omega, Or.inr p3, Or.inr q3⟩

theorem parse_lists_nil (v v1 : MainVars) (h : main.parse [] v = Parsed.done v1)
    (hv : v.counted) :
    v1.papszArgvPreComp = v.papszArgvPreComp
        ++ (sectionTokens [] v.enmMode.cppOpen v.enmMode.ccOpen
              v.pszPreCompName.isSome v.pszObjName.isSome).1
    ∧ v1.papszArgvCompile = v.papszArgvCompile
        ++ (sectionTokens [] v.enmMode.cppOpen v.enmMode.ccOpen
              v.pszPreCompName.isSome v.pszObjName.isSome).2
    ∧ v1.counted := by
  simp only [main.parse, Parsed.done.injEq] at h
  subst h
  simp [sectionTokens, hv]

/-- Parsing that runs to the end of the vector appends to the two lists the
tokens the specification tells. -/
theorem parse_lists (n : Nat) : ∀ (l : List CStr), l.length ≤ n → ∀ (v v1 : MainVars),
    main.parse l v = Parsed.done v1 → v.counted →
    v1.papszArgvPreComp = v.papszArgvPreComp
        ++ (sectionTokens l v.enmMode.cppOpen v.enmMode.ccOpen
              v.pszPreCompName.isSome v.pszObjName.isSome).1
    ∧ v1.papszArgvCompile = v.papszArgvCompile
        ++ (sectionTokens l v.enmMode.cppOpen v.enmMode.ccOpen
              v.pszPreCompName.isSome v.pszObjName.isSome).2
    ∧ v1.counted := by
  induction n with
  | zero =>
    intro l hl v v1 h hv
    cases l with
    | nil => exact parse_lists_nil v v1 h hv
    | cons a r => simp at hl
  | succ n ih =>
    intro l hl v v1 h hv
    cases l with
    | nil => exact parse_lists_nil v v1 h hv
    | cons tok rest =>
      have hr : rest.length ≤ n := by simpa using hl
      unfold main.parse at h
      simp only [strcmp_eq_zero_iff] at h
      unfold sectionTokens
      by_cases c1 : tok = "--kObjCache-cpp".toList
      · rw [if_pos c1] at h ⊢
        cases hn : v.pszPreCompName with
        | none =>
          simp only [hn] at h
          cases rest with
          | nil => simp at h
          | cons name rest1 =>
            simp only [if_true] at h
            have := ih rest1 (by simp at hr; omega) _ _ h hv
            simpa [Mode.cppOpen, Mode.ccOpen, hn] using this
        | some nm =>
          simp only [hn] at h
          have := ih rest hr _ _ h hv
          simpa [Mode.cppOpen, Mode.ccOpen, hn] using this
      rw [if_neg c1] at h ⊢
      by_cases c2 : tok = "--kObjCache-cc".toList
      · rw [if_pos c2] at h ⊢
        cases hn : v.pszObjName with
        | none =>
          simp only [hn] at h
          cases rest with
          | nil => simp at h
          | cons name rest1 =>
            simp only [if_true] at h
            have := ih rest1 (by simp at hr; omega) _ _ h hv
            simpa [Mode.cppOpen, Mode.ccOpen, hn] using this
        | some nm =>
          simp only [hn] at h
          have := ih rest hr _ _ h hv
          simpa [Mode.cppOpen, Mode.ccOpen, hn] using this
      rw [if_neg c2] at h ⊢
      by_cases c3 : tok = "--kObjCache-both".toList
      · rw [if_pos c3] at h ⊢
        have := ih rest hr _ _ h hv
        simpa [Mode.cppOpen, Mode.ccOpen] using this
      rw [if_neg c3] at h ⊢
      by_cases c4 : tok = "--help".toList
      · rw [if_pos c4] at h
        cases h
      rw [if_neg c4] at h
      by_cases c5 : v.enmMode = Mode.kOC_Options
      · rw [if_neg (fun hne => hne c5)] at h
        have hopen : ¬ (v.enmMode.cppOpen = true ∨ v.enmMode.ccOpen = true) := by
          simp [Mode.cppOpen, Mode.ccOpen, c5]
        rw [if_neg hopen]
        by_cases c6 : tok = "-f".toList ∨ tok = "--file".toList
        · rw [if_pos c6] at h ⊢
          cases rest with
          | nil => simp at h
          | cons name rest1 =>
            simp only at h
            have := ih rest1 (by simp at hr; omega) _ _ h hv
            simpa using this
        rw [if_neg c6] at h ⊢
        split at h
        · exact ih rest hr { v with fRedirStdOut := 1 } _ h hv
        split at h
        · exact ih rest hr { v with g_fVerbose := 1 } _ h hv
        split at h
        · exact ih rest hr { v with g_fVerbose := 0 } _ h hv
        split at h
        · cases h
        split at h
        · cases h
        · cases h
      · rw [if_pos c5] at h
        have hopen : v.enmMode.cppOpen = true ∨ v.enmMode.ccOpen = true := by
          revert c5
          cases v.enmMode <;> simp [Mode.cppOpen, Mode.ccOpen]
        rw [if_pos hopen]
        cases hc : main.collect v tok with
        | none =>
          rw [hc] at h
          cases h
        | some v2 =>
          rw [hc] at h
          simp only at h
          obtain ⟨e1, e2, e3, e4, e5, e6⟩ := collect_lists v v2 tok hc hv
          obtain ⟨r1, r2, r3⟩ := ih rest hr _ _ h e6
          rw [e3, e4, e5] at r1 r2
          refine ⟨?_, ?_, r3⟩
          · rw [r1, e1]
            cases v.enmMode.cppOpen <;> simp
          · rw [r2, e2]
            cases v.enmMode.ccOpen <;> simp

/-! ### The steps of a run that returns -/

theorem after_ok_inv {W α : Type} {t tt : List Event} {r : Res α × W × List Event} {a : α}
    {w1 : W} (h : after t r = (Res.ok a, w1, tt)) :
    ∃ t2, r = (Res.ok a, w1, t2) ∧ tt = t ++ t2 := by
  obtain ⟨r1, r2, r3⟩ := r
  simp only [after, Prod.mk.injEq] at h
  obtain ⟨h1, h2, h3⟩ := h
  subst h1 h2 h3
  exact ⟨r3, rfl, rfl⟩

/-- The checks of `kObjCacheSpawn` print nothing when they pass. -/
theorem check_ok {W : Type} (e : KOBJCACHE) (msg : CStr) (pid pidWait : Int)
    (iS : Option Nat) (w w1 : W) (u : Unit) (t : List Event)
    (h : kObjCacheSpawn.check e msg pid pidWait iS w = (Res.ok u, w1, t)) : t = [] := by
  unfold kObjCacheSpawn.check at h
  split at h
  · simp [kObjCacheFatal] at h
  · cases iS with
    | none => simp [M.stop] at h
    | some st =>
      simp only at h
      split at h
      · simp [kObjCacheFatal] at h
      · split at h
        · simp [kObjCacheFatal] at h
        · exact (pure_ok_inv h).2.2

/-- The events of a call of `kObjCacheSpawn` that returns: the spawn, then
waits for the pid that `fork` returned. -/
theorem kObjCacheSpawn_ok_trace {W : Type} (os : OS W) (fuel : Nat) (e : KOBJCACHE)
    (argv : List CStr) (cArgv : Nat) (msg : CStr) (out : Option CStr) (w w1 : W) (u : Unit)
    (t : List Event)
    (h : kObjCacheSpawn os fuel e argv cArgv msg out w = (Res.ok u, w1, t)) :
    ∃ pid waits, t = Event.spawn msg argv out pid :: waits
      ∧ ∀ ev ∈ waits, ∃ r, ev = Event.waitpid msg pid r := by
  rw [kObjCacheSpawn_eq] at h
  obtain ⟨t2, h2, ht⟩ := after_ok_inv h
  obtain ⟨a, wa, ta, tb, hl, hc, et⟩ := bind_ok_inv h2
  have htb : tb = [] := check_ok _ _ _ _ _ _ _ _ _ hc
  refine ⟨(os.fork w argv out).2,
    Event.waitpid msg (os.fork w argv out).2
      (os.waitpid (os.fork w argv out).1 (os.fork w argv out).2).2 :: ta, ?_, ?_⟩
  · rw [ht, et, htb]
    simp
  · intro ev hev
    simp only [List.mem_cons] at hev
    rcases hev with hev | hev
    · exact ⟨_, hev⟩
    · have := waitLoop_events os msg (os.fork w argv out).2 fuel
        (os.waitpid (os.fork w argv out).1 (os.fork w argv out).2).2
        (os.waitpid (os.fork w argv out).1 (os.fork w argv out).2).2.status
        (os.waitpid (os.fork w argv out).1 (os.fork w argv out).2).1 ev
      rw [hl] at this
      exact this hev

theorem CalcRelativeName_ok_inv {W : Type} (os : OS W) (p d r : CStr) (w w1 : W)
    (t : List Event) (h : CalcRelativeName os p d w = (Res.ok r, w1, t)) : w1 = w ∧ t = [] := by
  unfold CalcRelativeName at h
  cases hv : CalcRelativeName.val os w p d with
  | ok a =>
    simp only [hv, M.lift, Prod.mk.injEq] at h
    exact ⟨h.2.1.symm, h.2.2.symm⟩
  | exit c => simp [hv] at h
  | undef => simp [hv, M.lift] at h
  | hang => simp [hv, M.lift] at h

/-- A name returned by `CalcRelativeName` is the one computed in the world of
the call. -/
theorem CalcRelativeName_ok_val {W : Type} (os : OS W) (p d r : CStr) (w w1 : W)
    (t : List Event) (h : CalcRelativeName os p d w = (Res.ok r, w1, t)) :
    CalcRelativeName.val os w p d = Res.ok r := by
  unfold CalcRelativeName at h
  cases hv : CalcRelativeName.val os w p d with
  | ok a =>
    simp only [hv, M.lift, Prod.mk.injEq, Res.ok.injEq] at h
    rw [h.1]
  | exit c => simp [hv] at h
  | undef => simp [hv, M.lift] at h
  | hang => simp [hv, M.lift] at h

/-- A created entry has no old precompiled output and no object name. -/
theorem create_ok_fields {W : Type} (os : OS W) (pszFilename : CStr) (w w1 : W)
    (e : KOBJCACHE) (t : List Event)
    (h : kObjCacheCreate os pszFilename w = (Res.ok e, w1, t)) :
    t = [] ∧ e.pszOldCppName = none ∧ e.pszObjName = none := by
  unfold kObjCacheCreate at h
  simp only at h
  split at h
  · simp [kObjCacheFatal] at h
  · split at h
    · simp [M.stop] at h
    · obtain ⟨h1, -, h3⟩ := pure_ok_inv h
      subst h1
      exact ⟨h3, rfl, rfl⟩

/-- The events of `kObjCacheCalcChecksum` when it returns: the reading of
the precompiled output. -/
theorem calcChecksum_ok_trace {W : Type} (os : OS W) (e e1 : KOBJCACHE) (w w1 : W)
    (t : List Event) (h : kObjCacheCalcChecksum os e w = (Res.ok e1, w1, t)) :
    (∃ name, t = [Event.readFile name]) ∧ e1.fNeedCompiling = e.fNeedCompiling
      ∧ e1.pszOldCppName = e.pszOldCppName ∧ e1.pszObjName = e.pszObjName := by
  unfold kObjCacheCalcChecksum at h
  simp only [bind_eq, pure_eq] at h
  obtain ⟨a, wa, ta, tb, h1, h, q1⟩ := bind_ok_inv h
  obtain ⟨a2, wa2, ta2, tb2, h2, h, q2⟩ := bind_ok_inv h
  obtain ⟨r, wa3, ta3, tb3, h3, h, q3⟩ := bind_ok_inv h
  obtain ⟨-, -, z1⟩ := nonNull_ok_inv h1
  obtain ⟨-, -, z2⟩ := nonNull_ok_inv h2
  have hread : ta3 = [Event.readFile a] := by
    unfold ReadFileInDir at h3
    cases hx : os.readFile wa2 a <;> simp only [hx, Prod.mk.injEq] at h3 <;> exact h3.2.2.symm
  cases r with
  | none => simp [kObjCacheFatal] at h
  | some pb =>
    simp only at h
    obtain ⟨h, -, z3⟩ := pure_ok_inv h
    subst h
    refine ⟨⟨a, ?_⟩, rfl, rfl, rfl⟩
    rw [q1, q2, q3, z1, z2, z3, hread]
    rfl

/-- The events of `kObjCachePreCompile` when it returns, for an entry without
an old precompiled output: the spawn of the preprocessor, the waits for it,
and the reading of its output. -/
theorem precompile_ok_trace {W : Type} (os : OS W) (fuel : Nat) (e e1 : KOBJCACHE)
    (argv : List CStr) (cArgv : Nat) (pszPreCompName : Option CStr) (fRedirStdOut : Nat)
    (w w1 : W) (t : List Event) (hold : e.pszOldCppName = none)
    (h : kObjCachePreCompile os fuel e argv cArgv pszPreCompName fRedirStdOut w
      = (Res.ok e1, w1, t)) :
    (∃ pid waits name,
      t = Event.spawn "precompile".toList argv
            (if fRedirStdOut ≠ 0 then pszPreCompName else none) pid
          :: (waits ++ [Event.readFile name])
      ∧ ∀ ev ∈ waits, ∃ r, ev = Event.waitpid "precompile".toList pid r)
    ∧ e1.fNeedCompiling = e.fNeedCompiling ∧ e1.pszOldCppName = none
    ∧ e1.pszObjName = e.pszObjName := by
  unfold kObjCachePreCompile at h
  simp only [bind_eq, pure_eq] at h
  obtain ⟨a, wa, ta, tb, hr, hA, q1⟩ := bind_ok_inv h
  clear h
  have hrot : a = e ∧ ta = [] := by
    unfold kObjCachePreCompile.rotate at hr
    simp only [hold, pure_eq] at hr
    obtain ⟨z1, -, z3⟩ := pure_ok_inv hr
    exact ⟨z1.symm, z3⟩
  obtain ⟨ha, hta⟩ := hrot
  subst ha
  obtain ⟨a2, wa2, ta2, tb2, h2, hB, q2⟩ := bind_ok_inv hA
  obtain ⟨a3, wa3, ta3, tb3, h3, hC, q3⟩ := bind_ok_inv hB
  obtain ⟨a4, wa4, ta4, tb4, h4, hD, q4⟩ := bind_ok_inv hC
  obtain ⟨-, -, z2⟩ := nonNull_ok_inv h2
  obtain ⟨-, -, z3⟩ := nonNull_ok_inv h3
  obtain ⟨-, z4⟩ := CalcRelativeName_ok_inv os _ _ _ _ _ _ h4
  have key : ∀ (out : Option CStr) (tt : List Event),
      M.bind (kObjCacheSpawn os fuel { a with pszNewCppName := some a4 } argv cArgv
          "precompile".toList out)
        (fun _ => kObjCacheCalcChecksum os { a with pszNewCppName := some a4 }) wa4
        = (Res.ok e1, w1, tt) →
      (∃ pid waits name,
        tt = Event.spawn "precompile".toList argv out pid :: (waits ++ [Event.readFile name])
        ∧ ∀ ev ∈ waits, ∃ r, ev = Event.waitpid "precompile".toList pid r)
      ∧ e1.fNeedCompiling = a.fNeedCompiling ∧ e1.pszOldCppName = none
      ∧ e1.pszObjName = a.pszObjName := by
    intro out tt hb
    obtain ⟨u, wa5, ta5, tb5, hs, hc, q5⟩ := bind_ok_inv hb
    obtain ⟨pid, waits, e5, hw⟩ := kObjCacheSpawn_ok_trace os fuel _ _ _ _ _ _ _ _ _ hs
    obtain ⟨⟨name, hn⟩, f1, f2, f3⟩ := calcChecksum_ok_trace os _ _ _ _ _ hc
    refine ⟨⟨pid, waits, name, ?_, hw⟩, f1, ?_, f3⟩
    · rw [q5, e5, hn]
      rfl
    · rw [f2]
      exact hold
  rw [q1, q2, q3, q4, hta, z2, z3, z4]
  simp only [List.nil_append]
  split at hD
  · rename_i hne
    rw [if_pos hne]
    exact key _ _ hD
  · rename_i hne
    rw [if_neg hne]
    exact key _ _ hD

/-- The preprocessor step of the command line `buildCmd` on the system
`sumOS`: the entry returned holds the two bytes read and their checksums. -/
theorem kObjCachePreCompile_sumOS :
    ∃ e2, (kObjCachePreCompile sumOS 0 freshEntry buildVars.papszArgvPreComp
        buildVars.cArgvPreComp buildVars.pszPreCompName buildVars.fRedirStdOut World.empty).1
      = Res.ok e2
    ∧ e2.pszNewCppMapping = some [65, 10, 0] ∧ e2.cbNewCppMapping = 2
    ∧ e2.NewSum.crc32 = 75 ∧ e2.NewSum.md5 = List.replicate 16 2 := by
  refine ⟨_, rfl, ?_, ?_, ?_, ?_⟩ <;> decide

theorem emits_CalcRelativeName_noSpawn {W : Type} (os : OS W) (p d : CStr) :
    emits (CalcRelativeName os p d) (fun ev => ev.isSpawn = false) := by
  intro w ev hev
  unfold CalcRelativeName at hev
  cases h : CalcRelativeName.val os w p d with
  | ok a => simp [h, M.lift] at hev
  | exit c =>
    simp [h] at hev
    rw [hev]
    rfl
  | undef => simp [h, M.lift] at hev
  | hang => simp [h, M.lift] at hev

theorem emits_Exist_noSpawn {W : Type} (os : OS W) (n d : CStr) :
    emits (DoesFileInDirExist os n d) (fun ev => ev.isSpawn = false) := by
  intro w ev hev
  simp [DoesFileInDirExist] at hev
  rw [hev]
  rfl

theorem emits_objName_noSpawn {W : Type} (os : OS W) (e : KOBJCACHE)
    (pszObjName : Option CStr) :
    emits (kObjCacheCompileIfNeeded.objName os e pszObjName) (fun ev => ev.isSpawn = false) := by
  unfold kObjCacheCompileIfNeeded.objName
  simp only [bind_eq, pure_eq]
  refine emits_ite _ ?_ (emits_pure _ _)
  refine emits_bind (emits_nonNull _ _) (fun obj => ?_)
  refine emits_bind (emits_nonNull _ _) (fun dir => ?_)
  refine emits_bind (emits_CalcRelativeName_noSpawn os obj dir) (fun tmp => ?_)
  refine emits_bind (emits_nonNull _ _) (fun stored => ?_)
  exact emits_ite _ (emits_pure _ _) (emits_pure _ _)

theorem emits_objExists_noSpawn {W : Type} (os : OS W) (e : KOBJCACHE) :
    emits (kObjCacheCompileIfNeeded.objExists os e) (fun ev => ev.isSpawn = false) := by
  unfold kObjCacheCompileIfNeeded.objExists
  simp only [bind_eq, pure_eq]
  refine emits_ite _ ?_ (emits_pure _ _)
  refine emits_bind (emits_nonNull _ _) (fun stored => ?_)
  refine emits_bind (emits_nonNull _ _) (fun dir => ?_)
  refine emits_bind (emits_Exist_noSpawn os stored dir) (fun b => ?_)
  exact emits_ite _ (emits_pure _ _) (emits_pure _ _)

/-- The four checks leave the cache directory and the name of the old
precompiled output as they are. -/
theorem objName_old {W : Type} (os : OS W) (e e1 : KOBJCACHE) (pszObjName : Option CStr)
    (w w1 : W) (t : List Event)
    (h : kObjCacheCompileIfNeeded.objName os e pszObjName w = (Res.ok e1, w1, t)) :
    e1.pszOldCppName = e.pszOldCppName ∧ e1.pszDir = e.pszDir := by
  unfold kObjCacheCompileIfNeeded.objName at h
  simp only [bind_eq, pure_eq] at h
  split at h
  · obtain ⟨a, wa, ta, tb, -, h, -⟩ := bind_ok_inv h
    obtain ⟨a, wa, ta, tb, -, h, -⟩ := bind_ok_inv h
    obtain ⟨a, wa, ta, tb, -, h, -⟩ := bind_ok_inv h
    obtain ⟨a, wa, ta, tb, -, h, -⟩ := bind_ok_inv h
    split at h <;> (obtain ⟨h, -, -⟩ := pure_ok_inv h; subst h; exact ⟨rfl, rfl⟩)
  · obtain ⟨h, -, -⟩ := pure_ok_inv h
    subst h
    exact ⟨rfl, rfl⟩

theorem argv_old (e e1 : KOBJCACHE) (argv : List CStr) (cArgv : Nat)
    (h : kObjCacheCompileIfNeeded.argv e argv cArgv = Res.ok e1) :
    e1.pszOldCppName = e.pszOldCppName ∧ e1.pszDir = e.pszDir := by
  unfold kObjCacheCompileIfNeeded.argv at h
  simp only [] at h
  by_cases c1 : e.fNeedCompiling = 0 ∧ e.cArgvCompile ≠ cArgv
  · simp only [if_pos c1] at h
    simp at h
    subst h
    exact ⟨rfl, rfl⟩
  · simp only [if_neg c1] at h
    split at h
    · split at h
      · split at h
        all_goals cases h
        all_goals exact ⟨rfl, rfl⟩
      · split at h
        all_goals cases h
        all_goals exact ⟨rfl, rfl⟩
    · cases h
      exact ⟨rfl, rfl⟩

theorem objExists_old {W : Type} (os : OS W) (e e1 : KOBJCACHE)
    (w w1 : W) (t : List Event)
    (h : kObjCacheCompileIfNeeded.objExists os e w = (Res.ok e1, w1, t)) :
    e1.pszOldCppName = e.pszOldCppName ∧ e1.pszDir = e.pszDir := by
  unfold kObjCacheCompileIfNeeded.objExists at h
  simp only [bind_eq, pure_eq] at h
  split at h
  · obtain ⟨a, wa, ta, tb, -, h, -⟩ := bind_ok_inv h
    obtain ⟨a, wa, ta, tb, -, h, -⟩ := bind_ok_inv h
    obtain ⟨a, wa, ta, tb, -, h, -⟩ := bind_ok_inv h
    split at h <;> (obtain ⟨h, -, -⟩ := pure_ok_inv h; subst h; exact ⟨rfl, rfl⟩)
  · obtain ⟨h, -, -⟩ := pure_ok_inv h
    subst h
    exact ⟨rfl, rfl⟩

theorem sums_old (fuel : Nat) (heap : Nat → Option KOCSUM) (e e1 : KOBJCACHE)
    (h : kObjCacheCompileIfNeeded.sums fuel heap e = Res.ok e1) :
    e1.pszOldCppName = e.pszOldCppName ∧ e1.pszDir = e.pszDir := by
  unfold kObjCacheCompileIfNeeded.sums at h
  simp only [kObjCacheCompareOldAndNewOutput, if_true] at h
  split at h
  · split at h
    · split at h <;> cases h <;> exact ⟨rfl, rfl⟩
    all_goals cases h
  · cases h
    exact ⟨rfl, rfl⟩

theorem compileIt_old {W : Type} (os : OS W) (fuel : Nat) (e e1 : KOBJCACHE)
    (argv : List CStr) (cArgv : Nat) (pszObjName : Option CStr)
    (w w1 : W) (t : List Event)
    (h : kObjCacheCompileIt os fuel e argv cArgv pszObjName w = (Res.ok e1, w1, t)) :
    e1.pszOldCppName = e.pszOldCppName := by
  unfold kObjCacheCompileIt at h
  simp only [bind_eq, pure_eq] at h
  obtain ⟨a, wa, ta, tb, -, hA, -⟩ := bind_ok_inv h
  obtain ⟨e2, wa, ta, tb, h2, hB, -⟩ := bind_ok_inv hA
  obtain ⟨a, wa, ta, tb, -, hC, -⟩ := bind_ok_inv hB
  obtain ⟨a, wa, ta, tb, -, hD, -⟩ := bind_ok_inv hC
  obtain ⟨a, wa, ta, tb, -, hE, -⟩ := bind_ok_inv hD
  obtain ⟨hF, -, -⟩ := pure_ok_inv hE
  subst hF
  have h3 : e2.pszOldCppName = e.pszOldCppName := by
    cases hobj : e.pszObjName with
    | none =>
      simp only [hobj] at h2
      obtain ⟨h2, -, -⟩ := pure_ok_inv h2
      subst h2
      rfl
    | some o =>
      simp only [hobj] at h2
      obtain ⟨a, wa, ta, tb, -, h2, -⟩ := bind_ok_inv h2
      obtain ⟨h2, -, -⟩ := pure_ok_inv h2
      subst h2
      rfl
  exact h3

/-- The last two steps of `kObjCacheCompileIfNeeded` on an entry that records
an old precompiled output: the unlink comes first. -/
theorem discardOld_then {W : Type} (os : OS W) (e : KOBJCACHE) (old dir : CStr)
    (f : KOBJCACHE → M W KOBJCACHE) (w : W)
    (hold : e.pszOldCppName = some old) (hdir : e.pszDir = some dir) :
    M.bind (kObjCacheCompileIfNeeded.discardOld os e) f w
      = after [Event.unlink (MakePathFromDirAndFile old dir)]
          (f { e with pszOldCppName := none } (os.unlink w (MakePathFromDirAndFile old dir))) := by
  have h : kObjCacheCompileIfNeeded.discardOld os e w
      = (Res.ok { e with pszOldCppName := none },
          os.unlink w (MakePathFromDirAndFile old dir),
          [Event.unlink (MakePathFromDirAndFile old dir)]) := by
    simp [kObjCacheCompileIfNeeded.discardOld, hold, hdir, bind_eq, pure_eq, M.bind, M.pure,
      M.nonNull, UnlinkFileInDir, after_mk]
  rw [bind_of_ok h]

/-- When the four checks of `kObjCacheCompileIfNeeded` return on an entry
that records an old precompiled output, the unlink of that output is the
next event, no check has spawned anything, and an entry that is returned
records no old precompiled output. -/
theorem compileIfNeeded_checked_discards {W : Type} (os : OS W) (fuel : Nat)
    (heap : Nat → Option KOCSUM) (e e1 e2 e3 e4 : KOBJCACHE) (argv : List CStr) (cArgv : Nat)
    (pszObjName : Option CStr) (w w1 w3 : W) (t1 t3 : List Event) (old dir : CStr)
    (hold : e.pszOldCppName = some old) (hdir : e.pszDir = some dir)
    (h1 : kObjCacheCompileIfNeeded.objName os e pszObjName w = (Res.ok e1, w1, t1))
    (h2 : kObjCacheCompileIfNeeded.argv e1 argv cArgv = Res.ok e2)
    (h3 : kObjCacheCompileIfNeeded.objExists os e2 w1 = (Res.ok e3, w3, t3))
    (h4 : kObjCacheCompileIfNeeded.sums fuel heap e3 = Res.ok e4) :
    (∃ tr, (kObjCacheCompileIfNeeded os fuel heap e argv cArgv pszObjName w).2.2
        = (t1 ++ t3) ++ Event.unlink (MakePathFromDirAndFile old dir) :: tr)
    ∧ (∀ ev ∈ t1 ++ t3, ev.isSpawn = false)
    ∧ ∀ e5, (kObjCacheCompileIfNeeded os fuel heap e argv cArgv pszObjName w).1 = Res.ok e5 →
        e5.pszOldCppName = none := by
  obtain ⟨o1, d1⟩ := objName_old os _ _ _ _ _ _ h1
  obtain ⟨o2, d2⟩ := argv_old _ _ _ _ h2
  obtain ⟨o3, d3⟩ := objExists_old os _ _ _ _ _ h3
  obtain ⟨o4, d4⟩ := sums_old _ _ _ _ h4
  have hold4 : e4.pszOldCppName = some old := by rw [o4, o3, o2, o1, hold]
  have hdir4 : e4.pszDir = some dir := by rw [d4, d3, d2, d1, hdir]
  have hs1 : ∀ ev ∈ t1, ev.isSpawn = false := by
    have := emits_objName_noSpawn os e pszObjName w
    rw [h1] at this
    exact this
  have hs3 : ∀ ev ∈ t3, ev.isSpawn = false := by
    have := emits_objExists_noSpawn os e2 w1
    rw [h3] at this
    exact this
  rw [kObjCacheCompileIfNeeded_of_checks os fuel heap e e1 e2 e3 e4 argv cArgv pszObjName
    w w1 w3 t1 t3 h1 h2 h3 h4, discardOld_then os e4 old dir _ w3 hold4 hdir4]
  refine ⟨⟨_, by simp only [after, List.cons_append, List.nil_append]; rfl⟩, ?_, ?_⟩
  · intro ev hev
    rw [List.mem_append] at hev
    rcases hev with hev | hev
    · exact hs1 ev hev
    · exact hs3 ev hev
  · intro e5 he5
    simp only [after] at he5
    split at he5
    · rcases hc : kObjCacheCompileIt os fuel { e4 with pszOldCppName := none } argv cArgv
          pszObjName (os.unlink w3 (MakePathFromDirAndFile old dir)) with ⟨r, wr, tr⟩
      rw [hc] at he5
      simp only at he5
      subst he5
      exact compileIt_old os fuel _ _ _ _ _ _ _ _ hc
    · simp only [M.pure, Res.ok.injEq] at he5
      subst he5
      rfl

/-! ### A checksum list without the new checksum -/

theorem main_parse_outsideCmd :
    main.parse (outsideCmd.drop 1) MainVars.init = Parsed.done outsideVars := by
  simp [outsideCmd, outsideVars, buildVars, main.parse, main.collect, main.append, main.store, strcmp,
    MainVars.init]

theorem main_outsideCmd :
    main simOS 0 outsideCmd = main.run simOS 0 "/c/x.cache".toList outsideVars := by
  unfold main
  rw [main_parse_outsideCmd]
  rfl

/-- A continuation that spawns no compiler adds nothing to the count. -/
theorem filter_bind_tail {W α β : Type} (m : M W α) (f : α → M W β) (w : W)
    (p : Event → Bool) (hf : ∀ a w1, (f a w1).2.2.filter p = []) :
    (M.bind m f w).2.2.filter p = (m w).2.2.filter p := by
  rcases hm : m w with ⟨r, w1, t1⟩
  cases r with
  | ok a =>
    rw [bind_of_ok hm]
    simp [after, hf]
  | exit c => simp [M.bind, hm]
  | undef => simp [M.bind, hm]
  | hang => simp [M.bind, hm]

/-- Among the events of `kObjCacheSpawn` for the compiler there is one
spawn. -/
theorem kObjCacheSpawn_compile_count {W : Type} (os : OS W) (fuel : Nat) (e : KOBJCACHE)
    (argv : List CStr) (cArgv : Nat) (out : Option CStr) (w : W) :
    ((kObjCacheSpawn os fuel e argv cArgv "compile".toList out w).2.2.filter
      Event.isCompilerSpawn).length = 1 := by
  rw [kObjCacheSpawn_eq]
  have hrest : ∀ (r : Res Unit × W × List Event),
      (∀ ev ∈ r.2.2, (∃ p r1, ev = Event.waitpid "compile".toList p r1)
        ∨ (∃ d, ev = Event.stderr d)) →
      r.2.2.filter Event.isCompilerSpawn = [] := by
    intro r hr
    rw [List.filter_eq_nil_iff]
    intro ev hev
    rcases hr ev hev with ⟨p, r1, h⟩ | ⟨d, h⟩ <;> (rw [h]; simp [Event.isCompilerSpawn])
  have htail := hrest (M.bind (kObjCacheSpawn.waitLoop os "compile".toList (os.fork w argv out).2
      fuel (os.waitpid (os.fork w argv out).1 (os.fork w argv out).2).2
      (os.waitpid (os.fork w argv out).1 (os.fork w argv out).2).2.status)
    (fun res => kObjCacheSpawn.check e "compile".toList (os.fork w argv out).2 res.1 res.2)
    (os.waitpid (os.fork w argv out).1 (os.fork w argv out).2).1) (by
      intro ev hev
      rw [mem_bind] at hev
      rcases hev with h | ⟨a, -, h⟩
      · obtain ⟨r1, h1⟩ := waitLoop_events os _ _ fuel _ _ _ ev h
        exact Or.inl ⟨_, _, h1⟩
      · exact Or.inr (check_events e _ _ _ _ _ ev h))
  simp only [after, List.filter_append, htail]
  simp [Event.isCompilerSpawn]

/-- On an entry that needs compiling and records neither an old precompiled
output nor an old object, `kObjCacheCompileIfNeeded` goes straight to the
spawn of the compiler. -/
theorem compileIfNeeded_fresh {W : Type} (os : OS W) (fuel : Nat)
    (heap : Nat → Option KOCSUM) (e : KOBJCACHE) (argv : List CStr) (cArgv : Nat)
    (obj dir tmp : CStr) (w : W) (hflag : e.fNeedCompiling ≠ 0)
    (hold : e.pszOldCppName = none) (hobj : e.pszObjName = none) (hdir : e.pszDir = some dir)
    (hrel : CalcRelativeName.val os w obj dir = Res.ok tmp) :
    kObjCacheCompileIfNeeded os fuel heap e argv cArgv (some obj) w
      = compileOutcome os fuel
          { e with pszOldCppName := none, pszObjName := none, pszNewObjName := some tmp,
                   pszNewCppMapping := none, pszOldCppMapping := none,
                   papszArgvCompile := some argv, cArgvCompile := cArgv } argv cArgv w [] := by
  rw [kObjCacheCompileIfNeeded_of_checks os fuel heap e e e e e argv cArgv (some obj) w w w [] []
    (skip_objName os e (some obj) w hflag) (skip_argv e argv cArgv hflag)
    (skip_objExists os e w hflag) (skip_sums fuel heap e hflag)]
  simp [kObjCacheCompileIfNeeded.discardOld, kObjCacheCompileIt, hold, hobj, hdir, hflag,
    bind_eq, pure_eq, M.bind, M.pure, M.nonNull, compileOutcome, after_nil, after_after,
    after_mk, CalcRelativeName_ok os obj dir tmp w hrel]

theorem precompile_count {W : Type} (os : OS W) (fuel : Nat) (e e1 : KOBJCACHE)
    (argv : List CStr) (cArgv : Nat) (pszPreCompName : Option CStr) (fRedirStdOut : Nat)
    (w w1 : W) (t : List Event) (hold : e.pszOldCppName = none)
    (h : kObjCachePreCompile os fuel e argv cArgv pszPreCompName fRedirStdOut w
      = (Res.ok e1, w1, t)) :
    t.filter Event.isCompilerSpawn = [] := by
  obtain ⟨⟨pid, waits, name, ht, hw⟩, -⟩ :=
    precompile_ok_trace os fuel e e1 argv cArgv pszPreCompName fRedirStdOut w w1 t hold h
  rw [ht, List.filter_eq_nil_iff]
  intro ev hev
  simp only [List.mem_cons, List.mem_append, List.mem_singleton, List.not_mem_nil,
    or_false] at hev
  rcases hev with h1 | h1 | h1
  · rw [h1]
    simp [Event.isCompilerSpawn]
  · obtain ⟨r, hr⟩ := hw ev h1
    rw [hr]
    simp [Event.isCompilerSpawn]
  · rw [h1]
    simp [Event.isCompilerSpawn]

/-- The count of compiler spawns in a run of `main.run` in which the
preprocessor step returns and the object name can be made relative. -/
theorem main_run_compile_count {W : Type} (os : OS W) (fuel : Nat) (pszCacheFile : CStr)
    (v : MainVars) (w w0 w2 : W) (e0 e2 : KOBJCACHE) (t0 t2 : List Event) (obj dir tmp : CStr)
    (hcreate : kObjCacheCreate os pszCacheFile w = (Res.ok e0, w0, t0))
    (hpre : kObjCachePreCompile os fuel { e0 with fNeedCompiling := 1 } v.papszArgvPreComp
      v.cArgvPreComp v.pszPreCompName v.fRedirStdOut w0 = (Res.ok e2, w2, t2))
    (hobj : v.pszObjName = some obj) (hdir : e2.pszDir = some dir)
    (hrel : CalcRelativeName.val os w2 obj dir = Res.ok tmp) :
    e2.fNeedCompiling = 1
    ∧ ((main.run os fuel pszCacheFile v w).2.2.filter Event.isCompilerSpawn).length = 1 := by
  obtain ⟨z0, c1, c2⟩ := create_ok_fields os _ _ _ _ _ hcreate
  obtain ⟨-, f1, f2, f3⟩ :=
    precompile_ok_trace os fuel { e0 with fNeedCompiling := 1 } _ _ _ _ _ _ _ _ c1 hpre
  have hcount := precompile_count os fuel { e0 with fNeedCompiling := 1 } _ _ _ _ _ _ _ _ c1 hpre
  have hread : kObjCacheRead e0 w0 = (Res.ok { e0 with fNeedCompiling := 1 }, w0,
      [Event.cacheRead]) := by
    simp [kObjCacheRead, bind_eq, pure_eq, M.bind, M.emit, M.pure, after_mk]
  have hflag : e2.fNeedCompiling ≠ 0 := by
    rw [f1]
    exact Nat.one_ne_zero
  refine ⟨f1, ?_⟩
  unfold main.run
  simp only [bind_eq, pure_eq]
  rw [bind_of_ok hcreate, bind_of_ok hread, bind_of_ok hpre, hobj]
  simp only [after, List.filter_append, hcount, z0]
  rw [filter_bind_tail _ _ w2 Event.isCompilerSpawn (by
    intro a w1
    simp [kObjCacheWrite, M.emit, M.bind, M.pure, after, Event.isCompilerSpawn])]
  rw [compileIfNeeded_fresh os fuel _ e2 _ _ obj dir tmp w2 hflag f2 (by rw [f3]; exact c2) hdir
    hrel]
  simp only [compileOutcome, after_nil]
  rw [filter_bind_tail _ _ w2 Event.isCompilerSpawn (by
    intro a w1
    simp [M.pure])]
  have hone := kObjCacheSpawn_compile_count os fuel
    { e2 with pszOldCppName := none, pszObjName := none, pszNewObjName := some tmp,
              pszNewCppMapping := none, pszOldCppMapping := none,
              papszArgvCompile := some v.papszArgvCompile, cArgvCompile := v.cArgvCompile }
    v.papszArgvCompile v.cArgvCompile none w2
  have hread0 : List.filter Event.isCompilerSpawn [Event.cacheRead] = [] := rfl
  rw [hread0]
  exact hone

/-! ### The stores of the parsing loop -/

theorem sized_init : MainVars.init.sized := by
  simp [MainVars.sized, MainVars.init, main.capOf, main.memOf]

/-- Two stores at the indices after the slots `L`. -/
theorem set_two (L : List Slot) (x y a b : Slot) (R : List Slot) :
    ((L ++ x :: y :: R).set L.length a).set (L.length + 1) b = L ++ a :: b :: R := by
  induction L with
  | nil => rfl
  | cons z L ih => simp [List.set, ih]

/-- The stores of `main.store`, given the memory after the `xrealloc`. -/
theorem store_eq (papsz : Option (List Slot)) (c : Nat) (tok : CStr) (L R : List Slot)
    (x y : Slot) (hL : L.length = c)
    (h : (if c % 16 = 0 then
        some ((papsz.getD []).take (c + 17)
          ++ List.replicate (c + 17 - (papsz.getD []).length) Slot.unset)
      else papsz) = some (L ++ x :: y :: R)) :
    main.store papsz c tok = some (L ++ Slot.token tok :: Slot.null :: R) := by
  unfold main.store
  simp only [h]
  subst hL
  rw [if_pos (by simp), set_two]

/-- With the memory of `main.memOf` in the slots of `main.capOf`, the stores
of `main.store` are inside the slots and leave the memory of `main.memOf`
for the tokens with the new one. -/
theorem store_sized (l : List CStr) (tok : CStr) :
    main.store (main.memOf l (main.capOf l.length)) l.length tok
      = main.memOf (l ++ [tok]) (main.capOf (l.length + 1)) := by
  have hne : ¬ (l ++ [tok]).length = 0 := by simp
  have hmap : (l ++ [tok]).map Slot.token = l.map Slot.token ++ [Slot.token tok] := by simp
  have hLm : (l.map Slot.token).length = l.length := List.length_map _ _
  by_cases h16 : l.length % 16 = 0
  · have hcap1 : main.capOf (l.length + 1) = l.length + 17 := by
      unfold main.capOf
      rw [if_neg (by omega)]
      omega
    have hR : main.capOf (l.length + 1) - (l ++ [tok]).length - 1 = 15 := by
      rw [hcap1, List.length_append, List.length_singleton]
      omega
    have htarget : main.memOf (l ++ [tok]) (main.capOf (l.length + 1))
        = some (l.map Slot.token ++ Slot.token tok :: Slot.null
            :: List.replicate 15 Slot.unset) := by
      unfold main.memOf
      rw [if_neg hne, hR, hmap]
      simp
    rw [htarget]
    by_cases h0 : l.length = 0
    · have hl : l = [] := List.length_eq_zero.mp h0
      subst hl
      rfl
    · have hcap : main.capOf l.length = l.length + 1 := by
        unfold main.capOf
        rw [if_neg h0]
        omega
      refine store_eq _ _ tok (l.map Slot.token) (List.replicate 15 Slot.unset) Slot.null
        Slot.unset hLm ?_
      rw [if_pos h16]
      unfold main.memOf
      rw [if_neg h0, hcap]
      have e1 : l.length + 1 - l.length - 1 = 0 := by omega
      rw [e1]
      simp only [List.replicate_zero, Option.getD_some, List.length_append, List.length_map,
        List.length_cons, List.length_nil]
      have e2 : l.length + 17 - (l.length + (0 + 1)) = 16 := by omega
      rw [e2, List.take_of_length_le (by simp)]
      simp [List.replicate_succ]
  · have h0 : ¬ l.length = 0 := by omega
    have hcap1 : main.capOf (l.length + 1) = main.capOf l.length := by
      unfold main.capOf
      rw [if_neg (by omega), if_neg h0]
      omega
    have hk : ∃ k, main.capOf l.length - l.length - 1 = k + 1 := by
      refine ⟨main.capOf l.length - l.length - 2, ?_⟩
      unfold main.capOf
      rw [if_neg h0]
      omega
    obtain ⟨k, hk⟩ := hk
    have hR : main.capOf (l.length + 1) - (l ++ [tok]).length - 1 = k := by
      rw [hcap1, List.length_append, List.length_singleton]
      omega
    have htarget : main.memOf (l ++ [tok]) (main.capOf (l.length + 1))
        = some (l.map Slot.token ++ Slot.token tok :: Slot.null
            :: List.replicate k Slot.unset) := by
      unfold main.memOf
      rw [if_neg hne, hR, hmap]
      simp
    rw [htarget]
    refine store_eq _ _ tok (l.map Slot.token) (List.replicate k Slot.unset) Slot.null
      Slot.unset hLm ?_
    rw [if_neg h16]
    unfold main.memOf
    rw [if_neg h0, hk, List.replicate_succ]

/-- With the slots of `main.capOf`, appending a token stores inside the
slots. -/
theorem append_sized (l : List CStr) (c : Nat) (tok : CStr) :
    main.append l c (main.capOf c) tok = some (l ++ [tok], c + 1, main.capOf (c + 1))
    ∧ c + 1 < main.capOf (c + 1)
    ∧ main.capOf (c + 1) = (if c % 16 = 0 then c + 17 else main.capOf c) := by
  have h3 : main.capOf (c + 1) = (if c % 16 = 0 then c + 17 else main.capOf c) := by
    unfold main.capOf
    by_cases h : c % 16 = 0
    · rw [if_pos h, if_neg (by omega)]
      omega
    · rw [if_neg h, if_neg (by omega), if_neg (by omega)]
      omega
  have h2 : c + 1 < main.capOf (c + 1) := by
    unfold main.capOf
    rw [if_neg (by omega)]
    omega
  refine ⟨?_, h2, h3⟩
  unfold main.append
  simp only
  rw [← h3, if_pos h2]

/-- The memory of a vector that holds a token: the slots below the count
hold the tokens in order and the slot at the count holds NULL. -/
theorem memOf_null (l : List CStr) (cap : Nat) (h : l.length ≠ 0) :
    ∃ a, main.memOf l cap = some a ∧ a.take l.length = l.map Slot.token
      ∧ a.get? l.length = some Slot.null := by
  refine ⟨_, if_neg h, ?_, ?_⟩
  · rw [List.take_append_eq_append_take]
    simp
  · rw [List.get?_eq_getElem?, List.getElem?_append_right (by simp)]
    simp

theorem main_parse_cppOnlyCmd :
    main.parse (cppOnlyCmd.drop 1) MainVars.init = Parsed.done cppOnlyVars := by
  simp [cppOnlyCmd, cppOnlyVars, main.parse, main.collect, main.append, main.store, strcmp,
    MainVars.init]

theorem sized_counted (v : MainVars) (h : v.sized) : v.counted := by
  obtain ⟨h1, h2, h3, h4, -, -⟩ := h
  refine ⟨h1, h2, ?_, ?_⟩
  · rw [h3]
    unfold main.capOf
    by_cases h : v.cArgvPreComp = 0
    · exact Or.inl h
    · right
      rw [if_neg h]
      omega
  · rw [h4]
    unfold main.capOf
    by_cases h : v.cArgvCompile = 0
    · exact Or.inl h
    · right
      rw [if_neg h]
      omega

/-- A token seen in an open section is stored: `main.collect` does not run
into a store outside the slots. -/
theorem collect_sized (v : MainVars) (tok : CStr) (hv : v.sized) :
    ∃ v1, main.collect v tok = some v1 ∧ v1.sized := by
  obtain ⟨f, lp, cp, capp, pn, fr, lc, cc, capc, onm, mode, verb, mp, mc⟩ := v
  obtain ⟨h1, h2, h3, h4, h5, h6⟩ := hv
  simp only at h1 h2 h3 h4 h5 h6
  subst h1 h2 h3 h4 h5 h6
  obtain ⟨p1, -, -⟩ := append_sized lp lp.length tok
  obtain ⟨q1, -, -⟩ := append_sized lc lc.length tok
  have p2 := store_sized lp tok
  have q2 := store_sized lc tok
  obtain ⟨a, ha⟩ : ∃ a, main.memOf (lp ++ [tok]) (main.capOf (lp.length + 1)) = some a := by
    simp [main.memOf]
  obtain ⟨b, hb⟩ : ∃ b, main.memOf (lc ++ [tok]) (main.capOf (lc.length + 1)) = some b := by
    simp [main.memOf]
  rw [ha] at p2
  rw [hb] at q2
  cases mode <;> simp [main.collect, p1, q1, p2, q2, ha, hb, MainVars.sized]

theorem collect_mode (v v1 : MainVars) (tok : CStr) (h : main.collect v tok = some v1)
    (hv : v.sized) : v1.enmMode = v.enmMode :=
  (collect_lists v v1 tok h (sized_counted v hv)).2.2.1

/-- One round of the parsing loop on the token `tok`: the token is taken
alone and the loop goes on; or it takes the token after it as its operand
(and is a syntax error at the end of the vector); or it ends the parsing
with a message.  No round is a store outside the slots. -/
theorem parse_step (tok : CStr) (v : MainVars) (hv : v.sized) :
    (∃ v1, v1.sized ∧ (v.enmMode ≠ Mode.kOC_Options → v1.enmMode ≠ Mode.kOC_Options)
        ∧ ∀ rest, main.parse (tok :: rest) v = main.parse rest v1)
    ∨ (∃ g : CStr → MainVars,
        (∀ n, (g n).sized ∧ (v.enmMode ≠ Mode.kOC_Options → (g n).enmMode ≠ Mode.kOC_Options))
        ∧ main.parse [tok] v = Parsed.syntaxError tok
        ∧ ∀ n rest, main.parse (tok :: n :: rest) v = main.parse rest (g n))
    ∨ (∃ r, r ≠ Parsed.undef ∧ (∀ v1, r ≠ Parsed.done v1)
        ∧ ∀ rest, main.parse (tok :: rest) v = r) := by
  by_cases c1 : tok = "--kObjCache-cpp".toList
  · cases hn : v.pszPreCompName with
    | none =>
      right
      left
      refine ⟨fun n => { v with enmMode := Mode.kOC_CppArgv, pszPreCompName := some n },
        fun n => ⟨hv, fun _ h => (nomatch h)⟩, ?_, ?_⟩
      · rw [main.parse.eq_def]
        simp only [strcmp_eq_zero_iff]
        rw [if_pos c1]
        simp only [hn, if_true]
      · intro n rest
        rw [main.parse.eq_def]
        simp only [strcmp_eq_zero_iff]
        rw [if_pos c1]
        simp only [hn, if_true]
    | some nm =>
      left
      refine ⟨{ v with enmMode := Mode.kOC_CppArgv }, hv, fun _ h => (nomatch h), ?_⟩
      intro rest
      rw [main.parse.eq_def]
      simp only [strcmp_eq_zero_iff]
      rw [if_pos c1]
      simp only [hn]
      rfl
  by_cases c2 : tok = "--kObjCache-cc".toList
  · cases hn : v.pszObjName with
    | none =>
      right
      left
      refine ⟨fun n => { v with enmMode := Mode.kOC_CcArgv, pszObjName := some n },
        fun n => ⟨hv, fun _ h => (nomatch h)⟩, ?_, ?_⟩
      · rw [main.parse.eq_def]
        simp only [strcmp_eq_zero_iff]
        rw [if_neg c1, if_pos c2]
        simp only [hn, if_true]
      · intro n rest
        rw [main.parse.eq_def]
        simp only [strcmp_eq_zero_iff]
        rw [if_neg c1, if_pos c2]
        simp only [hn, if_true]
    | some nm =>
      left
      refine ⟨{ v with enmMode := Mode.kOC_CcArgv }, hv, fun _ h => (nomatch h), ?_⟩
      intro rest
      rw [main.parse.eq_def]
      simp only [strcmp_eq_zero_iff]
      rw [if_neg c1, if_pos c2]
      simp only [hn]
      rfl
  by_cases c3 : tok = "--kObjCache-both".toList
  · left
    refine ⟨{ v with enmMode := Mode.kOC_BothArgv }, hv, fun _ h => (nomatch h), ?_⟩
    intro rest
    rw [main.parse.eq_def]
    simp only [strcmp_eq_zero_iff]
    rw [if_neg c1, if_neg c2, if_pos c3]
  by_cases c4 : tok = "--help".toList
  · right
    right
    refine ⟨Parsed.printed Diag.usage, fun h => (nomatch h), fun _ h => (nomatch h), ?_⟩
    intro rest
    rw [main.parse.eq_def]
    simp only [strcmp_eq_zero_iff]
    rw [if_neg c1, if_neg c2, if_neg c3, if_pos c4]
  by_cases c5 : v.enmMode = Mode.kOC_Options
  · have hm : ¬ v.enmMode ≠ Mode.kOC_Options := fun h => h c5
    by_cases c6 : tok = "-f".toList ∨ tok = "--file".toList
    · right
      left
      refine ⟨fun n => { v with pszCacheFile := some n },
        fun n => ⟨hv, fun h => absurd h hm⟩, ?_, ?_⟩
      · rw [main.parse.eq_def]
        simp only [strcmp_eq_zero_iff]
        rw [if_neg c1, if_neg c2, if_neg c3, if_neg c4, if_neg hm, if_pos c6]
      · intro n rest
        rw [main.parse.eq_def]
        simp only [strcmp_eq_zero_iff]
        rw [if_neg c1, if_neg c2, if_neg c3, if_neg c4, if_neg hm, if_pos c6]
    by_cases c7 : tok = "-r".toList ∨ tok = "--redir-stdout".toList
    · left
      refine ⟨{ v with fRedirStdOut := 1 }, hv, fun h => absurd h hm, ?_⟩
      intro rest
      rw [main.parse.eq_def]
      simp only [strcmp_eq_zero_iff]
      rw [if_neg c1, if_neg c2, if_neg c3, if_neg c4, if_neg hm, if_neg c6, if_pos c7]
    by_cases c8 : tok = "-v".toList ∨ tok = "--verbose".toList
    · left
      refine ⟨{ v with g_fVerbose := 1 }, hv, fun h => absurd h hm, ?_⟩
      intro rest
      rw [main.parse.eq_def]
      simp only [strcmp_eq_zero_iff]
      rw [if_neg c1, if_neg c2, if_neg c3, if_neg c4, if_neg hm, if_neg c6, if_neg c7, if_pos c8]
    by_cases c9 : tok = "-q".toList ∨ tok = "--quiet".toList
    · left
      refine ⟨{ v with g_fVerbose := 0 }, hv, fun h => absurd h hm, ?_⟩
      intro rest
      rw [main.parse.eq_def]
      simp only [strcmp_eq_zero_iff]
      rw [if_neg c1, if_neg c2, if_neg c3, if_neg c4, if_neg hm, if_neg c6, if_neg c7, if_neg c8,
        if_pos c9]
    right
    right
    by_cases c10 : tok = "-h".toList ∨ tok = "-?".toList
    · refine ⟨Parsed.printed Diag.usage, fun h => (nomatch h), fun _ h => (nomatch h), ?_⟩
      intro rest
      rw [main.parse.eq_def]
      simp only [strcmp_eq_zero_iff]
      rw [if_neg c1, if_neg c2, if_neg c3, if_neg c4, if_neg hm, if_neg c6, if_neg c7, if_neg c8,
        if_neg c9, if_pos c10]
    by_cases c11 : tok = "-V".toList ∨ tok = "--version".toList
    · refine ⟨Parsed.printed Diag.version, fun h => (nomatch h), fun _ h => (nomatch h), ?_⟩
      intro rest
      rw [main.parse.eq_def]
      simp only [strcmp_eq_zero_iff]
      rw [if_neg c1, if_neg c2, if_neg c3, if_neg c4, if_neg hm, if_neg c6, if_neg c7, if_neg c8,
        if_neg c9, if_neg c10, if_pos c11]
    · refine ⟨Parsed.syntaxError tok, fun h => (nomatch h), fun _ h => (nomatch h), ?_⟩
      intro rest
      rw [main.parse.eq_def]
      simp only [strcmp_eq_zero_iff]
      rw [if_neg c1, if_neg c2, if_neg c3, if_neg c4, if_neg hm, if_neg c6, if_neg c7, if_neg c8,
        if_neg c9, if_neg c10, if_neg c11]
  · left
    obtain ⟨v1, hc, hs⟩ := collect_sized v tok hv
    refine ⟨v1, hs, fun _ => by rw [collect_mode v v1 tok hc hv]; exact c5, ?_⟩
    intro rest
    rw [main.parse.eq_def]
    simp only [strcmp_eq_zero_iff]
    rw [if_neg c1, if_neg c2, if_neg c3, if_neg c4, if_pos c5]
    simp only [hc]

/-- Parsing never stores outside the slots of an argument vector.  When it
runs to the end of the tokens, the vectors are held as before, an open
section is still open, and tokens that follow are parsed from the state
reached. -/
theorem parse_reach (n : Nat) : ∀ (l : List CStr), l.length ≤ n → ∀ (v : MainVars), v.sized →
    main.parse l v ≠ Parsed.undef
    ∧ ∀ v1, main.parse l v = Parsed.done v1 →
        v1.sized ∧ (v.enmMode ≠ Mode.kOC_Options → v1.enmMode ≠ Mode.kOC_Options)
        ∧ ∀ rest, main.parse (l ++ rest) v = main.parse rest v1 := by
  induction n with
  | zero =>
    intro l hl v hv
    cases l with
    | cons a r => simp at hl
    | nil =>
      refine ⟨by simp [main.parse], ?_⟩
      intro v1 h
      simp only [main.parse, Parsed.done.injEq] at h
      subst h
      exact ⟨hv, fun h => h, fun rest => rfl⟩
  | succ n ih =>
    intro l hl v hv
    cases l with
    | nil =>
      refine ⟨by simp [main.parse], ?_⟩
      intro v1 h
      simp only [main.parse, Parsed.done.injEq] at h
      subst h
      exact ⟨hv, fun h => h, fun rest => rfl⟩
    | cons tok l1 =>
      have hl1 : l1.length ≤ n := by simpa using hl
      rcases parse_step tok v hv with ⟨v2, hs, hm, heq⟩ | ⟨g, hg, hend, heq⟩ | ⟨r, hr1, hr2, heq⟩
      · obtain ⟨i1, i2⟩ := ih l1 hl1 v2 hs
        rw [heq l1]
        refine ⟨i1, ?_⟩
        intro v1 h
        obtain ⟨j1, j2, j3⟩ := i2 v1 h
        refine ⟨j1, fun h => j2 (hm h), ?_⟩
        intro rest
        rw [List.cons_append, heq, j3]
      · cases l1 with
        | nil =>
          rw [hend]
          exact ⟨fun h => (nomatch h), fun _ h => (nomatch h)⟩
        | cons nm l2 =>
          have hl2 : l2.length ≤ n := by
            simp at hl1
            omega
          obtain ⟨i1, i2⟩ := ih l2 hl2 (g nm) (hg nm).1
          rw [heq nm l2]
          refine ⟨i1, ?_⟩
          intro v1 h
          obtain ⟨j1, j2, j3⟩ := i2 v1 h
          refine ⟨j1, fun h => j2 ((hg nm).2 h), ?_⟩
          intro rest
          rw [List.cons_append, List.cons_append, heq, j3]
      · rw [heq l1]
        exact ⟨hr1, fun v1 h => absurd h (hr2 v1)⟩

theorem main_parse_helpNameCmd :
    main.parse (helpNameCmd.drop 1) MainVars.init = Parsed.done helpNameVars := by
  simp [helpNameCmd, helpNameVars, buildVars, main.parse, main.collect, main.append, main.store, strcmp,
    MainVars.init]

theorem main_helpNameCmd :
    main simOS 0 helpNameCmd = main.run simOS 0 "/c/x.cache".toList helpNameVars := by
  unfold main
  rw [main_parse_helpNameCmd]
  rfl

/-- The round of the parsing loop on `--help`, in any state. -/
theorem parse_help (rest : List CStr) (v : MainVars) :
    main.parse ("--help".toList :: rest) v = Parsed.printed Diag.usage := by
  rw [main.parse.eq_def]
  simp only [strcmp_eq_zero_iff]
  rw [if_neg (by decide), if_neg (by decide), if_neg (by decide)]
  simp only [if_true]

/-- The round of the parsing loop on a token in an open section. -/
theorem parse_section_token (tok : CStr) (v v1 : MainVars) (rest : List CStr)
    (hm : v.enmMode ≠ Mode.kOC_Options) (hc : main.collect v tok = some v1)
    (c1 : tok ≠ "--kObjCache-cpp".toList) (c2 : tok ≠ "--kObjCache-cc".toList)
    (c3 : tok ≠ "--kObjCache-both".toList) (c4 : tok ≠ "--help".toList) :
    main.parse (tok :: rest) v = main.parse rest v1 := by
  rw [main.parse.eq_def]
  simp only [strcmp_eq_zero_iff]
  rw [if_neg c1, if_neg c2, if_neg c3, if_neg c4, if_pos hm]
  simp only [hc]

/-! ## The claims -/

/-- C1 (code defect): two records at different addresses that hold the same
crc32 and the same 16 md5 bytes compare as different: `kObjCacheSumIsEqual`
returns 0 where the claim expects 1, because its second test returns 0 for
every first pointer that is not NULL. -/
theorem kObjCacheSumIsEqual_equal_records_differ :
    (∃ a b, twoEqualSums (PKOCSUM.node 1) = some a ∧ twoEqualSums (PKOCSUM.node 2) = some b
      ∧ a.crc32 = b.crc32 ∧ a.md5 = b.md5 ∧ a.md5.length = 16)
    ∧ kObjCacheSumIsEqual twoEqualSums (PKOCSUM.node 1) (PKOCSUM.node 2) = some 0 := by
  refine ⟨⟨_, _, rfl, rfl, rfl, rfl, rfl⟩, ?_⟩
  decide

/-- C2 (code defect): an entry with `fNeedCompiling = 0` whose stored object
name and argument vector equal the requested ones, whose object file exists,
and whose checksum list holds (in `SumHead`) the crc32 and md5 of `NewSum`:
`kObjCacheCompileIfNeeded` sets `fNeedCompiling` and spawns the compiler,
because the comparison in `kObjCacheSumIsEqual` never reports two different
records as equal. -/
theorem kObjCacheCompileIfNeeded_hit_recompiles :
    hitEntry.fNeedCompiling = 0
    ∧ CalcRelativeName.val simOS hitWorld "/c/x.o".toList "/c".toList = Res.ok "x.o".toList
    ∧ hitEntry.pszDir = some "/c".toList
    ∧ hitEntry.pszObjName = some "x.o".toList
    ∧ hitEntry.papszArgvCompile = some ["cc".toList] ∧ hitEntry.cArgvCompile = 1
    ∧ simOS.statIsReg hitWorld (MakePathFromDirAndFile "x.o".toList "/c".toList) = true
    ∧ hitEntry.SumHead.crc32 = hitEntry.NewSum.crc32
    ∧ hitEntry.SumHead.md5 = hitEntry.NewSum.md5
    ∧ (∃ e, (kObjCacheCompileIfNeeded simOS 4 (fun _ => none) hitEntry ["cc".toList] 1
          (some "/c/x.o".toList) hitWorld).1 = Res.ok e ∧ e.fNeedCompiling = 1)
    ∧ Event.spawn "compile".toList ["cc".toList] none 100 ∈
        (kObjCacheCompileIfNeeded simOS 4 (fun _ => none) hitEntry ["cc".toList] 1
          (some "/c/x.o".toList) hitWorld).2.2 := by
  refine ⟨rfl, by decide, rfl, rfl, rfl, rfl, by decide, rfl, rfl, ⟨_, rfl, rfl⟩, by decide⟩

/-- C3 (counterexample): the command line `buildCmd` runs to successful
completion (`main` returns 0); run a second time in the world the first run
left, with the same precompiler output and no file changed, it spawns the
compiler again. -/
theorem main_second_run_spawns_compiler :
    (main simOS 0 buildCmd World.empty).1 = Res.ok 0
    ∧ Event.spawn "compile".toList ["cc".toList] none 100
        ∈ (main simOS 0 buildCmd (main simOS 0 buildCmd World.empty).2.1).2.2 := by
  rw [main_buildCmd]
  constructor <;> decide

/-- C3 (amended): for every command line that parses to the end and every
world, if `main` returns 0 and a second run with the same command line,
started in the world the first run left, returns 0 as well, then the second
run has spawned the compiler: `kObjCacheRead` sets `fNeedCompiling` on every
run and nothing of the first run is read back. -/
theorem main_second_run_compiles {W : Type} (os : OS W) (fuel : Nat) (argv : List CStr)
    (v : MainVars) (w : W)
    (hparse : main.parse (argv.drop 1) MainVars.init = Parsed.done v)
    (_h1 : (main os fuel argv w).1 = Res.ok 0)
    (h2 : (main os fuel argv (main os fuel argv w).2.1).1 = Res.ok 0) :
    ∃ pid, Event.spawn "compile".toList v.papszArgvCompile none pid
      ∈ (main os fuel argv (main os fuel argv w).2.1).2.2 :=
  main_ok_spawn os fuel argv v _ hparse h2

/-- Witness for C3 (amended): the two runs of the counterexample. -/
theorem main_second_run_compiles_witness :
    ∃ pid, Event.spawn "compile".toList buildVars.papszArgvCompile none pid
      ∈ (main simOS 0 buildCmd (main simOS 0 buildCmd World.empty).2.1).2.2 :=
  main_second_run_compiles simOS 0 buildCmd buildVars World.empty main_parse_buildCmd
    (by rw [main_buildCmd]; decide) (by rw [main_buildCmd]; decide)

/-- C4 (counterexample): writing the populated entry `hitEntry` of the cache
file `/c/x.cache` and then reading a freshly created entry for that file
gives an entry without the object name, the argument vector and the
checksum of `hitEntry`. -/
theorem kObjCacheWrite_Read_loses_entry :
    ∃ e1,
      (M.bind (kObjCacheWrite hitEntry) (fun _ =>
        M.bind (kObjCacheCreate simOS "/c/x.cache".toList) kObjCacheRead) hitWorld).1
        = Res.ok e1
      ∧ MakePathFromDirAndFile "x.cache".toList "/c".toList = "/c/x.cache".toList
      ∧ hitEntry.pszDir = some "/c".toList ∧ hitEntry.pszName = some "x.cache".toList
      ∧ hitEntry.pszObjName = some "x.o".toList ∧ e1.pszObjName = none
      ∧ hitEntry.papszArgvCompile = some ["cc".toList] ∧ e1.papszArgvCompile = none
      ∧ hitEntry.cArgvCompile = 1 ∧ e1.cArgvCompile = 0
      ∧ hitEntry.SumHead.crc32 = 7 ∧ e1.SumHead.crc32 = 0 := by
  refine ⟨_, rfl, by decide, rfl, rfl, rfl, rfl, rfl, rfl, rfl, rfl, rfl, rfl⟩

/-- C4 (amended): for every entry `E`, `kObjCacheWrite E` changes nothing, and
`kObjCacheRead` on an entry freshly created for a cache file (one whose path
has a directory part) yields an entry whose persistent fields are all zero
(no object name, no argument vector, count 0, zero `SumHead`, no precompiler
output name) and whose `fNeedCompiling` is set, whatever `E` holds. -/
theorem kObjCacheWrite_Read_zero {W : Type} (os : OS W) (E : KOBJCACHE)
    (pszFilename d leaf : CStr) (w : W)
    (hsep : AbsPath os w pszFilename = d ++ '/' :: leaf) (hleaf : leaf ≠ []) :
    ∃ pszDir pszName,
      M.bind (kObjCacheWrite E) (fun _ =>
        M.bind (kObjCacheCreate os pszFilename) kObjCacheRead) w
        = (Res.ok { KOBJCACHE.zero with
              pszDir := some pszDir, pszName := some pszName, fNeedCompiling := 1 },
           w, [Event.cacheWrite, Event.cacheRead]) := by
  refine ⟨(AbsPath os w pszFilename).take ((FindFilenameInPath (AbsPath os w pszFilename)).toNat - 1),
    (AbsPath os w pszFilename).drop (FindFilenameInPath (AbsPath os w pszFilename)).toNat, ?_⟩
  have hw : kObjCacheWrite E w = (Res.ok (), w, [Event.cacheWrite]) := rfl
  rw [bind_of_ok hw, create_read_apply os pszFilename d leaf w hsep hleaf]
  rfl

/-- Witness for C4 (amended): the entry and cache file of the counterexample. -/
theorem kObjCacheWrite_Read_zero_witness :
    ∃ pszDir pszName,
      M.bind (kObjCacheWrite hitEntry) (fun _ =>
        M.bind (kObjCacheCreate simOS "/c/x.cache".toList) kObjCacheRead) hitWorld
        = (Res.ok { KOBJCACHE.zero with
              pszDir := some pszDir, pszName := some pszName, fNeedCompiling := 1 },
           hitWorld, [Event.cacheWrite, Event.cacheRead]) :=
  kObjCacheWrite_Read_zero simOS hitEntry "/c/x.cache".toList "/c".toList "x.cache".toList
    hitWorld rfl (by decide)

/-- C5 (counterexample): the entry `missEntry` has the accepted checksum
(crc32 7) in `SumHead` and a different new checksum (crc32 9) in `NewSum`.
`kObjCacheCompileIfNeeded` compiles, the compiler exits with status 0, and
the list afterwards still holds crc32 7, not the crc32 of `NewSum`. -/
theorem kObjCacheCompileIfNeeded_newSum_not_installed :
    ∃ e1, (kObjCacheCompileIfNeeded simOS 4 (fun _ => none) missEntry ["cc".toList] 1
          (some "/c/x.o".toList) hitWorld).1 = Res.ok e1
      ∧ Event.spawn "compile".toList ["cc".toList] none 100 ∈
          (kObjCacheCompileIfNeeded simOS 4 (fun _ => none) missEntry ["cc".toList] 1
            (some "/c/x.o".toList) hitWorld).2.2
      ∧ Event.waitpid "compile".toList 100 { ret := 100, eintr := false, status := some 0 } ∈
          (kObjCacheCompileIfNeeded simOS 4 (fun _ => none) missEntry ["cc".toList] 1
            (some "/c/x.o".toList) hitWorld).2.2
      ∧ e1.fNeedCompiling = 1
      ∧ e1.SumHead.crc32 = 7 ∧ e1.NewSum.crc32 = 9
      ∧ ¬ (e1.SumHead.crc32 = e1.NewSum.crc32 ∧ e1.SumHead.md5 = e1.NewSum.md5) := by
  refine ⟨_, rfl, by decide, by decide, rfl, rfl, rfl, by decide⟩

/-- C5 (amended): whenever `kObjCacheCompileIfNeeded` has spawned the compiler
and returns (the compiler exited with status 0), the checksum list of the
entry is the one it was called with: `SumHead` is unchanged, and so is
`NewSum`, which is not installed in the list. -/
theorem kObjCacheCompileIfNeeded_keeps_sums {W : Type} (os : OS W) (fuel : Nat)
    (heap : Nat → Option KOCSUM) (e e1 : KOBJCACHE) (argv : List CStr) (cArgv : Nat)
    (pszObjName : Option CStr) (w : W) (pid : Int)
    (hret : (kObjCacheCompileIfNeeded os fuel heap e argv cArgv pszObjName w).1 = Res.ok e1)
    (_hspawn : Event.spawn "compile".toList argv none pid
      ∈ (kObjCacheCompileIfNeeded os fuel heap e argv cArgv pszObjName w).2.2) :
    e1.SumHead = e.SumHead ∧ e1.NewSum = e.NewSum :=
  kObjCacheCompileIfNeeded_sums os fuel heap e e1 argv cArgv pszObjName w
    (kObjCacheCompileIfNeeded os fuel heap e argv cArgv pszObjName w).2.1
    (kObjCacheCompileIfNeeded os fuel heap e argv cArgv pszObjName w).2.2
    (by rw [← hret])

/-- Witness for C5 (amended): the run of the counterexample. -/
theorem kObjCacheCompileIfNeeded_keeps_sums_witness :
    ∃ e1, (kObjCacheCompileIfNeeded simOS 4 (fun _ => none) missEntry ["cc".toList] 1
          (some "/c/x.o".toList) hitWorld).1 = Res.ok e1
      ∧ e1.SumHead = missEntry.SumHead ∧ e1.NewSum = missEntry.NewSum :=
  ⟨_, rfl, kObjCacheCompileIfNeeded_keeps_sums simOS 4 (fun _ => none) missEntry _
    ["cc".toList] 1 (some "/c/x.o".toList) hitWorld 100 rfl (by decide)⟩

/-- C9 (counterexample): for the bare file name `foo.cache`, which `realpath`
does not resolve, `kObjCacheCreate` finds no directory part and ends the tool
with exit code 1 ("Failed to find abs path"). -/
theorem kObjCacheCreate_bare_name_exits :
    simOS.realpath World.empty "foo.cache".toList = none
    ∧ M.bind (kObjCacheCreate simOS "foo.cache".toList) kObjCacheRead World.empty
        = (Res.exit 1, World.empty, [Event.stderr Diag.fatalAbsPath]) := by
  constructor
  · rfl
  · decide

/-- C9 (amended): when the result of `AbsPath` on the cache-file path (the
canonical path, or the path itself when `realpath` fails) has a slash that is
followed by at least one character, `kObjCacheCreate` followed by
`kObjCacheRead` returns: the entry has a directory and a name, every other
field zero, and `fNeedCompiling` set.  For a name that is not empty, has no
slash and is not resolved by `realpath`, `kObjCacheCreate` ends the tool with
exit code 1. -/
theorem kObjCacheCreate_Read_fresh {W : Type} (os : OS W) (pszFilename : CStr) (w : W) :
    (∀ d leaf : CStr, AbsPath os w pszFilename = d ++ '/' :: leaf → leaf ≠ [] →
      ∃ pszDir pszName,
        M.bind (kObjCacheCreate os pszFilename) kObjCacheRead w
          = (Res.ok { KOBJCACHE.zero with
                pszDir := some pszDir, pszName := some pszName, fNeedCompiling := 1 },
             w, [Event.cacheRead]))
    ∧ (pszFilename ≠ [] → '/' ∉ pszFilename → os.realpath w pszFilename = none →
        M.bind (kObjCacheCreate os pszFilename) kObjCacheRead w
          = (Res.exit 1, w, [Event.stderr Diag.fatalAbsPath])) :=
  ⟨fun d leaf hsep hleaf => ⟨_, _, create_read_apply os pszFilename d leaf w hsep hleaf⟩,
   fun hne hbare hreal => create_bare_apply os pszFilename w hne hbare hreal⟩

/-- Witness for C9 (amended): the cache file `/c/x.cache`, which does not exist. -/
theorem kObjCacheCreate_Read_fresh_witness :
    ∃ pszDir pszName,
      M.bind (kObjCacheCreate simOS "/c/x.cache".toList) kObjCacheRead World.empty
        = (Res.ok { KOBJCACHE.zero with
              pszDir := some pszDir, pszName := some pszName, fNeedCompiling := 1 },
           World.empty, [Event.cacheRead]) :=
  (kObjCacheCreate_Read_fresh simOS "/c/x.cache".toList World.empty).1
    "/c".toList "x.cache".toList rfl (by decide)

/-- C10: in every run of `main` in which the compiler was forked (positive
pid) and a wait for it returned that pid with a status that is a normal exit
with a code other than 0, the tool ends with exit code 1 and
`kObjCacheWrite` is not executed. -/
theorem main_compiler_failure {W : Type} (os : OS W) (fuel : Nat) (argv : List CStr) (w : W)
    (pid : Int) (r : WaitRes) (st : Nat)
    (hev : Event.waitpid "compile".toList pid r ∈ (main os fuel argv w).2.2)
    (hpid : 0 < pid) (hret : r.ret = pid) (hst : r.status = some st)
    (hex : WIFEXITED st = true) (hcode : WEXITSTATUS st ≠ 0) :
    (main os fuel argv w).1 = Res.exit 1
    ∧ exitCode (main os fuel argv w).1 = some 1
    ∧ Event.cacheWrite ∉ (main os fuel argv w).2.2 := by
  obtain ⟨h1, h2⟩ := main_fails os fuel argv w
    ⟨_, hev, pid, r, st, rfl, hpid, hret, hst, hex, hcode⟩
  refine ⟨h1, ?_, h2⟩
  rw [h1]
  rfl

/-- Witness for C10: the command line `failCmd`, whose compiler exits with
status 1. -/
theorem main_compiler_failure_witness :
    (main simOS 0 failCmd World.empty).1 = Res.exit 1
    ∧ exitCode (main simOS 0 failCmd World.empty).1 = some 1
    ∧ Event.cacheWrite ∉ (main simOS 0 failCmd World.empty).2.2 :=
  main_compiler_failure simOS 0 failCmd World.empty 100
    { ret := 100, eintr := false, status := some 256 } 256
    (by rw [main_failCmd]; decide) (by decide) rfl rfl (by decide) (by decide)

/-- C11 (code defect): when `fork` fails (it returns -1) and the `waitpid`
that follows fails with an `errno` other than `EINTR`, storing no status,
`kObjCacheSpawn` does not end the tool through `kObjCacheFatal`: the value
-1 of `pidWait` equals `pid`, the test `pidWait != pid` passes, and the
status word is read though nothing was stored in it. -/
theorem kObjCacheSpawn_fork_failure_unchecked :
    (forkFailOS.fork World.empty ["cc".toList] none).2 = -1
    ∧ kObjCacheSpawn forkFailOS 0 KOBJCACHE.zero ["cc".toList] 1 "compile".toList none
        World.empty
      = (Res.undef, World.empty,
          [Event.spawn "compile".toList ["cc".toList] none (-1),
           Event.waitpid "compile".toList (-1)
             { ret := -1, eintr := false, status := none }]) := by
  decide

/-- C12 (code defect): for the path `/a/bc/x.o` and the directory `/a/b`,
where neither the path nor its absolute form is the directory or begins with
the directory followed by a slash, `CalcRelativeName` prints no message and
does not exit: it returns `c/x.o`, which put after the directory names
`/a/b/c/x.o`, another file. -/
theorem CalcRelativeName_sibling_directory :
    AbsPath simOS World.empty "/a/bc/x.o".toList = "/a/bc/x.o".toList
    ∧ "/a/bc/x.o".toList ≠ "/a/b".toList
    ∧ "/a/bc/x.o".toList.take 5 ≠ "/a/b".toList ++ ['/']
    ∧ CalcRelativeName simOS "/a/bc/x.o".toList "/a/b".toList World.empty
      = (Res.ok "c/x.o".toList, World.empty, [])
    ∧ MakePathFromDirAndFile "c/x.o".toList "/a/b".toList = "/a/b/c/x.o".toList := by
  decide

/-- C13 (code defect): in the working directory `/ab`, for the directory
`/ab` and the relative path `x.o`, whose absolute form is `/ab/x.o`,
`CalcRelativeName` returns `./` and not `x.o`; for the shorter path `x` it
reads `pszPath[3]`, past the terminator of the path.  After the
absolute form matched, the character tested is that of the path as given. -/
theorem CalcRelativeName_tests_raw_path :
    AbsPath cwdOS World.empty "x.o".toList = "/ab".toList ++ '/' :: "x.o".toList
    ∧ CalcRelativeName cwdOS "x.o".toList "/ab".toList World.empty
      = (Res.ok "./".toList, World.empty, [])
    ∧ AbsPath cwdOS World.empty "x".toList = "/ab".toList ++ '/' :: "x".toList
    ∧ CalcRelativeName cwdOS "x".toList "/ab".toList World.empty
      = (Res.undef, World.empty, []) := by
  decide

/-- C14 (code defect): for the path `a/`, which ends in a slash,
`FindFilenameInPath` returns the start of the path, so the whole path and
not the empty string; for `a/b/` it returns `b/`; for the empty path it
returns the position one before the start of the string.  The search starts
at the last character and not at the terminator. -/
theorem FindFilenameInPath_trailing_slash :
    FindFilenameInPath "a/".toList = 0
    ∧ "a/".toList.drop (FindFilenameInPath "a/".toList).toNat = "a/".toList
    ∧ FindFilenameInPath "a/b/".toList = 2
    ∧ "a/b/".toList.drop (FindFilenameInPath "a/b/".toList).toNat = "b/".toList
    ∧ FindFilenameInPath [] = -1 := by
  decide

/-- C15 (code defect): the DOS variant of `ArePathsIdentical` returns 1 for
`a/` and `ab` over 2 characters, though the characters at index 1, a slash
and `b`, are neither equal ignoring case nor both separators: a separator
on one side excuses any character on the other.  The Unix variant returns 1
exactly when the first `cch` characters agree. -/
theorem ArePathsIdentical_dos_separator_matches_any :
    ArePathsIdentical.dos "a/".toList "ab".toList 2 = Res.ok true
    ∧ "a/".toList.get? 1 = some '/' ∧ "ab".toList.get? 1 = some 'b'
    ∧ ¬ samePathChar '/' 'b'
    ∧ ∀ (pszPath1 pszPath2 : CStr) (cch : Nat),
        ArePathsIdentical pszPath1 pszPath2 cch = true
          ↔ pszPath1.take cch = pszPath2.take cch := by
  refine ⟨by decide, by decide, by decide, by decide, ?_⟩
  intro p1 p2 cch
  simp [ArePathsIdentical, strncmp_eq_zero_iff]

/-- C16 (code defect): for the names `x.i` and `x.i-old` in the directory
`/c`, `RenameFileInDir` calls `rename` on the two names as given, not on
`/c/x.i` and `/c/x.i-old`: where `/c/x.i` exists and the working directory
holds no `x.i`, the call fails with -1 and nothing is renamed, though the
rename of the combined paths succeeds. -/
theorem RenameFileInDir_renames_raw_names :
    MakePathFromDirAndFile "x.i".toList "/c".toList = "/c/x.i".toList
    ∧ MakePathFromDirAndFile "x.i-old".toList "/c".toList = "/c/x.i-old".toList
    ∧ (simOS.rename cppWorld "/c/x.i".toList "/c/x.i-old".toList).2 = 0
    ∧ RenameFileInDir simOS "x.i".toList "x.i-old".toList "/c".toList cppWorld
      = (Res.ok (-1), cppWorld, [Event.rename "x.i".toList "x.i-old".toList]) := by
  decide

/-- C17 (code defect): for the name `x.i` in the directory `/c`, where
`/c/x.i` exists and holds one byte, `ReadFileInDir` opens `x.i` as given,
not `/c/x.i`: with no `x.i` in the working directory it returns NULL. -/
theorem ReadFileInDir_opens_raw_name :
    MakePathFromDirAndFile "x.i".toList "/c".toList = "/c/x.i".toList
    ∧ readOS.readFile cppWorld "/c/x.i".toList = some [65]
    ∧ ReadFileInDir readOS "x.i".toList "/c".toList cppWorld
      = (Res.ok none, cppWorld, [Event.readFile "x.i".toList]) := by
  decide

/-- C18 (code defect): on the command line `noFileCmd`, which has both
argument lists and no `-f`, `main` does not return 1 with a message: the
test `!pszCacheFile` reads a variable that was never assigned. -/
theorem main_no_cache_file_option :
    main.parse (noFileCmd.drop 1) MainVars.init = Parsed.done noFileVars
    ∧ noFileVars.pszCacheFile = none
    ∧ main simOS 0 noFileCmd World.empty = (Res.undef, World.empty, []) := by
  refine ⟨main_parse_noFileCmd, rfl, ?_⟩
  unfold main
  rw [main_parse_noFileCmd]
  rfl

/-- C19 (counterexample): the command line `cppOnlyCmd` has a section for
the preprocessor and none for the compiler, and its parsing runs to the end
of the vector.  The compiler list received no token: its count is 0 and
`papszArgvCompile` is still the NULL pointer it was initialised with, so
there is no slot at index count that could hold a NULL. -/
theorem main_parse_empty_list_is_null :
    main.parse (cppOnlyCmd.drop 1) MainVars.init = Parsed.done cppOnlyVars
    ∧ cppOnlyVars.papszArgvCompile = (sectionTokens (cppOnlyCmd.drop 1) false false false false).2
    ∧ cppOnlyVars.papszArgvCompile = []
    ∧ cppOnlyVars.cArgvCompile = 0
    ∧ cppOnlyVars.capArgvCompile = 0
    ∧ cppOnlyVars.memArgvCompile = none
    ∧ ¬ ∃ a, cppOnlyVars.memArgvCompile = some a
        ∧ a.get? cppOnlyVars.cArgvCompile = some Slot.null := by
  refine ⟨main_parse_cppOnlyCmd, by decide, rfl, rfl, rfl, rfl, ?_⟩
  rintro ⟨a, ha, -⟩
  cases ha

/-- C19 (amended): when the parsing of `main` runs to the end of the argument
vector, the preprocessor list holds, in order, exactly the tokens seen while
the section of `--kObjCache-cpp` or of `--kObjCache-both` was open, and the
compiler list those seen while the section of `--kObjCache-cc` or of
`--kObjCache-both` was open, the section switches and the file name taken
by the first `--kObjCache-cpp` and by the first `--kObjCache-cc` left out;
each count is the number of tokens of its list.  In memory, a list that
received at least one token holds its tokens in the slots below the count
and NULL in the slot at index count; a list that received no token is the
NULL pointer. -/
theorem main_parse_argv_lists (argv : List CStr) (v : MainVars)
    (hparse : main.parse (argv.drop 1) MainVars.init = Parsed.done v) :
    v.papszArgvPreComp = (sectionTokens (argv.drop 1) false false false false).1
    ∧ v.papszArgvCompile = (sectionTokens (argv.drop 1) false false false false).2
    ∧ v.cArgvPreComp = v.papszArgvPreComp.length
    ∧ v.cArgvCompile = v.papszArgvCompile.length
    ∧ (v.cArgvPreComp ≠ 0 →
        ∃ a, v.memArgvPreComp = some a
          ∧ a.take v.cArgvPreComp = v.papszArgvPreComp.map Slot.token
          ∧ a.get? v.cArgvPreComp = some Slot.null)
    ∧ (v.cArgvCompile ≠ 0 →
        ∃ a, v.memArgvCompile = some a
          ∧ a.take v.cArgvCompile = v.papszArgvCompile.map Slot.token
          ∧ a.get? v.cArgvCompile = some Slot.null)
    ∧ (v.cArgvPreComp = 0 → v.memArgvPreComp = none)
    ∧ (v.cArgvCompile = 0 → v.memArgvCompile = none) := by
  obtain ⟨h1, h2, -⟩ :=
    parse_lists (argv.drop 1).length (argv.drop 1) (Nat.le_refl _) MainVars.init v hparse
      counted_init
  obtain ⟨-, hreach⟩ :=
    parse_reach (argv.drop 1).length (argv.drop 1) (Nat.le_refl _) MainVars.init sized_init
  obtain ⟨⟨s1, s2, -, -, s5, s6⟩, -, -⟩ := hreach v hparse
  refine ⟨?_, ?_, s1, s2, ?_, ?_, ?_, ?_⟩
  · simpa [MainVars.init, Mode.cppOpen, Mode.ccOpen] using h1
  · simpa [MainVars.init, Mode.cppOpen, Mode.ccOpen] using h2
  · intro h0
    rw [s5, s1]
    exact memOf_null _ _ (by rw [← s1]; exact h0)
  · intro h0
    rw [s6, s2]
    exact memOf_null _ _ (by rw [← s2]; exact h0)
  · intro h0
    rw [s5]
    exact if_pos (by rw [← s1]; exact h0)
  · intro h0
    rw [s6]
    exact if_pos (by rw [← s2]; exact h0)

/-- Witness for C19 (amended): the command line `mixedCmd`, whose
preprocessor list is `cpp -O2 -E`, with NULL in the slot at index 3, and
whose compiler list is `-O2 cc`, with NULL in the slot at index 2. -/
theorem main_parse_argv_lists_witness :
    mixedVars.papszArgvPreComp = (sectionTokens (mixedCmd.drop 1) false false false false).1
    ∧ mixedVars.papszArgvCompile = (sectionTokens (mixedCmd.drop 1) false false false false).2
    ∧ mixedVars.cArgvPreComp = mixedVars.papszArgvPreComp.length
    ∧ mixedVars.cArgvCompile = mixedVars.papszArgvCompile.length
    ∧ (∃ a, mixedVars.memArgvPreComp = some a
        ∧ a.take 3 = mixedVars.papszArgvPreComp.map Slot.token
        ∧ a.get? 3 = some Slot.null)
    ∧ (∃ a, mixedVars.memArgvCompile = some a
        ∧ a.take 2 = mixedVars.papszArgvCompile.map Slot.token
        ∧ a.get? 2 = some Slot.null) :=
  have h := main_parse_argv_lists mixedCmd mixedVars main_parse_mixedCmd
  ⟨h.1, h.2.1, h.2.2.1, h.2.2.2.1, h.2.2.2.2.1 (by decide), h.2.2.2.2.2.1 (by decide)⟩

/-- C21 (code defect): when `malloc`, `realloc` or `strdup` returns NULL,
`xmalloc`, `xrealloc` and `xstrdup` call `kObjCacheFatal` with a NULL entry,
and `kObjCacheFatal` starts by reading `pEntry->pszName`: the failure path
reads through the NULL pointer, so no message is printed and the tool does
not end with `exit(1)`. -/
theorem xmalloc_failure_reads_null_entry :
    xmalloc (fun _ => none) 8 World.empty = (Res.undef, World.empty, [])
    ∧ xrealloc (fun _ _ => none) none 136 World.empty = (Res.undef, World.empty, [])
    ∧ xstrdup (fun _ => none) "x.o".toList World.empty = (Res.undef, World.empty, [])
    ∧ (kObjCacheFatal.ptr none (Diag.fatalOutOfMemory 8) : M World Unit) World.empty
      = (Res.undef, World.empty, []) := by
  decide

/-- C22 (code defect): `kObjCacheSumIsEqual` returns 1 for every pointer
compared with itself, but it is not symmetric at the NULL pointer: with a
record as first and NULL as second argument it returns 0, with NULL as first
and the record as second argument it reads through the NULL pointer. -/
theorem kObjCacheSumIsEqual_null_first :
    (∀ (mem : PKOCSUM → Option KOCSUM) (p : PKOCSUM), kObjCacheSumIsEqual mem p p = some 1)
    ∧ kObjCacheSumIsEqual twoEqualSums (PKOCSUM.node 1) PKOCSUM.null = some 0
    ∧ kObjCacheSumIsEqual twoEqualSums PKOCSUM.null (PKOCSUM.node 1) = none := by
  refine ⟨?_, by decide, by decide⟩
  intro mem p
  simp [kObjCacheSumIsEqual]

/-- C23 (code defect): for the entry `rotateEntry`, whose old precompiled
output `x.i` exists in the cache directory `/c`, `kObjCachePreCompile`
unlinks `/c/x.i-old` and then calls `rename` on `x.i` and `x.i-old` as they
are, not in the cache directory.  Where only `/c/x.i` exists the rename fails
and the tool exits with code 1; where the working directory holds a file
`x.i` too, that file is renamed, `pszOldCppName` becomes `x.i-old`, and
`/c/x.i` is still there under its old name. -/
theorem kObjCachePreCompile_rotates_raw_names :
    kObjCachePreCompile simOS 0 rotateEntry ["cpp".toList] 1 (some "/c/x.i".toList) 0 cppWorld
      = (Res.exit 1, cppWorld,
          [Event.stat "/c/x.i".toList, Event.unlink "/c/x.i-old".toList,
           Event.rename "x.i".toList "x.i-old".toList, Event.stderr Diag.fatalRename])
    ∧ kObjCachePreCompile.rotate simOS rotateEntry twoWorld
      = (Res.ok { rotateEntry with pszOldCppName := some "x.i-old".toList },
          { files := ["x.i-old".toList, "/c/x.i".toList], child := [] },
          [Event.stat "/c/x.i".toList, Event.unlink "/c/x.i-old".toList,
           Event.rename "x.i".toList "x.i-old".toList]) := by
  decide

/-- C24 (counterexample): the entry `oldHitEntry` records the old
precompiled output `x.i-old`, which exists in the cache directory `/c`, and
is asked for with the object path `/d/x.o`, outside the cache directory.
The first check of `kObjCacheCompileIfNeeded` cannot make that path
relative: `CalcRelativeName` prints that this is not implemented and the
tool ends with exit code 1.  No unlink was issued, and `/c/x.i-old` is
still there. -/
theorem kObjCacheCompileIfNeeded_old_kept_on_exit :
    oldHitEntry.pszOldCppName = some "x.i-old".toList
    ∧ oldHitEntry.pszDir = some "/c".toList
    ∧ kObjCacheCompileIfNeeded fsOS 4 (fun _ => none) oldHitEntry ["cc".toList] 1
        (some "/d/x.o".toList) oldWorld
      = (Res.exit 1, oldWorld, [Event.stderr Diag.notImplemented])
    ∧ "/c/x.i-old".toList ∈ oldWorld.files
    ∧ ¬ unlinkBeforeSpawn (MakePathFromDirAndFile "x.i-old".toList "/c".toList)
        (kObjCacheCompileIfNeeded fsOS 4 (fun _ => none) oldHitEntry ["cc".toList] 1
          (some "/d/x.o".toList) oldWorld).2.2 := by
  have hrun : kObjCacheCompileIfNeeded fsOS 4 (fun _ => none) oldHitEntry ["cc".toList] 1
        (some "/d/x.o".toList) oldWorld
      = (Res.exit 1, oldWorld, [Event.stderr Diag.notImplemented]) := by
    decide
  refine ⟨rfl, rfl, hrun, by decide, ?_⟩
  rw [hrun]
  rintro ⟨tc, tr, ht, -⟩
  have hmem : Event.unlink (MakePathFromDirAndFile "x.i-old".toList "/c".toList)
      ∈ [Event.stderr Diag.notImplemented] := by
    rw [show [Event.stderr Diag.notImplemented]
        = tc ++ Event.unlink (MakePathFromDirAndFile "x.i-old".toList "/c".toList) :: tr
      from ht]
    simp
  simp at hmem

/-- C24 (amended): on an entry that records an old precompiled output `old`
(and its cache directory `dir`), every run of `kObjCacheCompileIfNeeded` in
which the four checks of the recompile decision return (the object name,
the argument vector, the existence of the object, the checksums) issues the
unlink of `old` in the cache directory right after the events of the
checks, which hold no spawn, so before any spawn; and an entry that is
returned has `pszOldCppName` NULL.  This holds whether the checks set the
flag, so that the compiler is invoked, or not. -/
theorem kObjCacheCompileIfNeeded_discards_old {W : Type} (os : OS W) (fuel : Nat)
    (heap : Nat → Option KOCSUM) (e e1 e2 e3 e4 : KOBJCACHE) (argv : List CStr) (cArgv : Nat)
    (pszObjName : Option CStr) (w w1 w3 : W) (t1 t3 : List Event) (old dir : CStr)
    (hold : e.pszOldCppName = some old) (hdir : e.pszDir = some dir)
    (h1 : kObjCacheCompileIfNeeded.objName os e pszObjName w = (Res.ok e1, w1, t1))
    (h2 : kObjCacheCompileIfNeeded.argv e1 argv cArgv = Res.ok e2)
    (h3 : kObjCacheCompileIfNeeded.objExists os e2 w1 = (Res.ok e3, w3, t3))
    (h4 : kObjCacheCompileIfNeeded.sums fuel heap e3 = Res.ok e4) :
    (∃ tr, (kObjCacheCompileIfNeeded os fuel heap e argv cArgv pszObjName w).2.2
        = (t1 ++ t3) ++ Event.unlink (MakePathFromDirAndFile old dir) :: tr)
    ∧ (∀ ev ∈ t1 ++ t3, ev.isSpawn = false)
    ∧ unlinkBeforeSpawn (MakePathFromDirAndFile old dir)
        (kObjCacheCompileIfNeeded os fuel heap e argv cArgv pszObjName w).2.2
    ∧ ∀ e5, (kObjCacheCompileIfNeeded os fuel heap e argv cArgv pszObjName w).1 = Res.ok e5 →
        e5.pszOldCppName = none := by
  obtain ⟨⟨tr, ht⟩, hs, hret⟩ := compileIfNeeded_checked_discards os fuel heap e e1 e2 e3 e4
    argv cArgv pszObjName w w1 w3 t1 t3 old dir hold hdir h1 h2 h3 h4
  exact ⟨⟨tr, ht⟩, hs, ⟨t1 ++ t3, tr, ht, hs⟩, hret⟩

/-- Witness for C24 (amended): the entry `oldHitEntry` asked for with the
object path `/c/x.o`, for which the compiler is not invoked: the object is
checked, the old output `/c/x.i-old` is unlinked, and `pszOldCppName` is
NULL in the entry returned. -/
theorem kObjCacheCompileIfNeeded_discards_old_witness :
    (∃ tr, (kObjCacheCompileIfNeeded fsOS 4 (fun _ => none) oldHitEntry ["cc".toList] 1
          (some "/c/x.o".toList) oldWorld).2.2
        = ([] ++ [Event.stat "/c/x.o".toList])
          ++ Event.unlink (MakePathFromDirAndFile "x.i-old".toList "/c".toList) :: tr)
    ∧ (∀ ev ∈ [] ++ [Event.stat "/c/x.o".toList], ev.isSpawn = false)
    ∧ unlinkBeforeSpawn (MakePathFromDirAndFile "x.i-old".toList "/c".toList)
        (kObjCacheCompileIfNeeded fsOS 4 (fun _ => none) oldHitEntry ["cc".toList] 1
          (some "/c/x.o".toList) oldWorld).2.2
    ∧ ∀ e5, (kObjCacheCompileIfNeeded fsOS 4 (fun _ => none) oldHitEntry ["cc".toList] 1
          (some "/c/x.o".toList) oldWorld).1 = Res.ok e5 → e5.pszOldCppName = none :=
  kObjCacheCompileIfNeeded_discards_old fsOS 4 (fun _ => none) oldHitEntry oldHitEntry
    oldHitEntry oldHitEntry oldHitEntry ["cc".toList] 1 (some "/c/x.o".toList)
    oldWorld oldWorld oldWorld [] [Event.stat "/c/x.o".toList] "x.i-old".toList "/c".toList
    rfl rfl (by decide) (by decide) (by decide) (by decide)

/-- C26 (counterexample): the command line `outsideCmd` gets past the
parsing of the arguments and its preprocessor step succeeds, but the object
file `/d/x.o` is not in the cache directory `/c`: `CalcRelativeName` prints
that this is not implemented and exits, and the compiler is not spawned. -/
theorem main_object_outside_cache_dir :
    main.parse (outsideCmd.drop 1) MainVars.init = Parsed.done outsideVars
    ∧ kObjCachePreCompile simOS 0 freshEntry outsideVars.papszArgvPreComp
        outsideVars.cArgvPreComp outsideVars.pszPreCompName outsideVars.fRedirStdOut World.empty
      = (Res.ok preEntry, { files := [], child := ["cpp".toList] },
          [Event.spawn "precompile".toList ["cpp".toList] none 100,
           Event.waitpid "precompile".toList 100
             { ret := 100, eintr := false, status := some 0 },
           Event.readFile "x.i".toList])
    ∧ (main simOS 0 outsideCmd World.empty).1 = Res.exit 1
    ∧ (main simOS 0 outsideCmd World.empty).2.2
      = [Event.cacheRead,
         Event.spawn "precompile".toList ["cpp".toList] none 100,
         Event.waitpid "precompile".toList 100 { ret := 100, eintr := false, status := some 0 },
         Event.readFile "x.i".toList,
         Event.stderr Diag.notImplemented]
    ∧ ((main simOS 0 outsideCmd World.empty).2.2.filter Event.isCompilerSpawn).length = 0 := by
  refine ⟨main_parse_outsideCmd, by decide, ?_, ?_, ?_⟩ <;> rw [main_outsideCmd] <;> decide

/-- C26 (amended): in every run of `main` that gets past the parsing of its
arguments, creates the entry and in which the preprocessor step returns, if
the object name given to `--kObjCache-cc` can be made relative to the cache
directory (`CalcRelativeName` returns a name), the compiler is spawned
exactly once: `kObjCacheRead` has set `fNeedCompiling`, the preprocessor
step leaves it set, and `kObjCacheCompileIfNeeded` then compiles whatever
the cache file, the checksum list and the file system hold. -/
theorem main_compiles_once {W : Type} (os : OS W) (fuel : Nat) (argv : List CStr)
    (v : MainVars) (w w0 w2 : W) (f : CStr) (e0 e2 : KOBJCACHE) (t0 t2 : List Event)
    (obj dir tmp : CStr)
    (hparse : main.parse (argv.drop 1) MainVars.init = Parsed.done v)
    (hf : v.pszCacheFile = some f) (hc : v.cArgvCompile ≠ 0) (hp : v.cArgvPreComp ≠ 0)
    (hcreate : kObjCacheCreate os f w = (Res.ok e0, w0, t0))
    (hpre : kObjCachePreCompile os fuel { e0 with fNeedCompiling := 1 } v.papszArgvPreComp
      v.cArgvPreComp v.pszPreCompName v.fRedirStdOut w0 = (Res.ok e2, w2, t2))
    (hobj : v.pszObjName = some obj) (hdir : e2.pszDir = some dir)
    (hrel : CalcRelativeName.val os w2 obj dir = Res.ok tmp) :
    e2.fNeedCompiling = 1
    ∧ ((main os fuel argv w).2.2.filter Event.isCompilerSpawn).length = 1 := by
  have hmain : main os fuel argv w = main.run os fuel f v w := by
    unfold main
    rw [hparse]
    simp only [hf]
    rw [if_neg hc, if_neg hp]
  rw [hmain]
  exact main_run_compile_count os fuel f v w w0 w2 e0 e2 t0 t2 obj dir tmp hcreate hpre hobj hdir
    hrel

/-- Witness for C26 (amended): the command line `buildCmd` in the empty
world. -/
theorem main_compiles_once_witness :
    preEntry.fNeedCompiling = 1
    ∧ ((main simOS 0 buildCmd World.empty).2.2.filter Event.isCompilerSpawn).length = 1 :=
  main_compiles_once simOS 0 buildCmd buildVars World.empty World.empty
    { files := [], child := ["cpp".toList] } "/c/x.cache".toList
    { KOBJCACHE.zero with pszDir := some "/c".toList, pszName := some "x.cache".toList }
    preEntry []
    [Event.spawn "precompile".toList ["cpp".toList] none 100,
     Event.waitpid "precompile".toList 100 { ret := 100, eintr := false, status := some 0 },
     Event.readFile "x.i".toList]
    "/c/x.o".toList "/c".toList "x.o".toList
    main_parse_buildCmd rfl (by decide) (by decide) (by decide) (by decide) rfl rfl (by decide)

/-- C27 (code defect): for the cache file `/x.cache` in the root directory,
`kObjCacheCreate` yields the empty string as `pszDir` and `x.cache` as
`pszName`, and `MakePathFromDirAndFile` puts no slash after an empty
directory: the two combine to `x.cache`, a name relative to the working
directory, not to `/x.cache`. -/
theorem kObjCacheCreate_root_directory :
    AbsPath cwdOS World.empty "/x.cache".toList = "/x.cache".toList
    ∧ kObjCacheCreate cwdOS "/x.cache".toList World.empty
      = (Res.ok { KOBJCACHE.zero with pszDir := some [], pszName := some "x.cache".toList },
          World.empty, [])
    ∧ MakePathFromDirAndFile "x.cache".toList [] = "x.cache".toList
    ∧ MakePathFromDirAndFile "x.cache".toList [] ≠ "/x.cache".toList := by
  decide

/-- C28 (code defect): for the directory `/ab` and the path `y`, which is
shorter than the directory and whose absolute form `/ab/y` lies under it,
`CalcRelativeName` reads `pszPath[3]`: the index 3 is greater than the
length 1 of the path, two characters past its terminator. -/
theorem CalcRelativeName_reads_past_terminator :
    "y".toList.length = 1 ∧ "/ab".toList.length = 3
    ∧ AbsPath cwdOS World.empty "y".toList = "/ab".toList ++ '/' :: "y".toList
    ∧ ArePathsIdentical "y".toList "/ab".toList 3 = false
    ∧ ArePathsIdentical (AbsPath cwdOS World.empty "y".toList) "/ab".toList 3 = true
    ∧ charAt "y".toList 3 = none
    ∧ CalcRelativeName.val cwdOS World.empty "y".toList "/ab".toList = Res.undef := by
  decide

/-- C29 (counterexample): in `buildCmd` the token `/c/x.o` comes after the
section opened by `--kObjCache-cpp`, is none of the three switches and not
`--help`, and is in neither list: it is the file name taken by
`--kObjCache-cc`.  In `helpNameCmd` the token `--help` stands inside an
argument section, in the place of that file name: `main` prints no usage,
spawns the preprocessor and ends with exit code 1. -/
theorem main_help_as_object_name :
    main.parse (buildCmd.drop 1) MainVars.init = Parsed.done buildVars
    ∧ buildCmd.get? 3 = some "--kObjCache-cpp".toList
    ∧ buildCmd.get? 7 = some "/c/x.o".toList
    ∧ "/c/x.o".toList ∉ buildVars.papszArgvPreComp
    ∧ "/c/x.o".toList ∉ buildVars.papszArgvCompile
    ∧ helpNameCmd.get? 7 = some "--help".toList
    ∧ (main simOS 0 helpNameCmd World.empty).1 = Res.exit 1
    ∧ Event.stdout Diag.usage ∉ (main simOS 0 helpNameCmd World.empty).2.2
    ∧ Event.spawn "precompile".toList ["cpp".toList] none 100
        ∈ (main simOS 0 helpNameCmd World.empty).2.2 := by
  refine ⟨main_parse_buildCmd, by decide, by decide, by decide, by decide, by decide,
    ?_, ?_, ?_⟩ <;> rw [main_helpNameCmd] <;> decide

/-- C29 (amended): let the tokens `pre` parse to the end, in the state `v`.
A token `--help` that comes next makes `main` print the usage and return 0
with no other event, in every mode.  When `v` has an argument section open,
the section stays open whatever tokens follow, and a token that comes next
and is none of the three switches and not `--help` is appended to the lists
whose section is open, also when it spells an option such as `-f`, `-v` or
`-V`; nothing else of the two lists changes. -/
theorem main_parse_section_tokens (pre : List CStr) (v : MainVars)
    (hparse : main.parse pre MainVars.init = Parsed.done v) :
    (∀ (W : Type) (os : OS W) (fuel : Nat) (argv0 : CStr) (rest : List CStr) (w : W),
        main os fuel (argv0 :: (pre ++ "--help".toList :: rest)) w
          = (Res.ok 0, w, [Event.stdout Diag.usage]))
    ∧ (v.enmMode ≠ Mode.kOC_Options →
        (∀ more v2, main.parse (pre ++ more) MainVars.init = Parsed.done v2 →
          v2.enmMode ≠ Mode.kOC_Options)
        ∧ ∀ tok, tok ≠ "--kObjCache-cpp".toList → tok ≠ "--kObjCache-cc".toList →
            tok ≠ "--kObjCache-both".toList → tok ≠ "--help".toList →
            ∃ v1, (∀ rest, main.parse (pre ++ tok :: rest) MainVars.init = main.parse rest v1)
              ∧ v1.papszArgvPreComp
                  = v.papszArgvPreComp ++ (if v.enmMode.cppOpen then [tok] else [])
              ∧ v1.papszArgvCompile
                  = v.papszArgvCompile ++ (if v.enmMode.ccOpen then [tok] else [])
              ∧ v1.enmMode = v.enmMode) := by
  obtain ⟨-, hreach⟩ := parse_reach pre.length pre (Nat.le_refl _) MainVars.init sized_init
  obtain ⟨hs, -, happ⟩ := hreach v hparse
  refine ⟨?_, ?_⟩
  · intro W os fuel argv0 rest w
    unfold main
    rw [List.drop_one, List.tail_cons, happ, parse_help]
  · intro hm
    refine ⟨?_, ?_⟩
    · intro more v2 h2
      rw [happ] at h2
      obtain ⟨-, hr2⟩ := parse_reach more.length more (Nat.le_refl _) v hs
      exact (hr2 v2 h2).2.1 hm
    · intro tok c1 c2 c3 c4
      obtain ⟨v1, hc, -⟩ := collect_sized v tok hs
      obtain ⟨e1, e2, e3, -⟩ := collect_lists v v1 tok hc (sized_counted v hs)
      refine ⟨v1, ?_, e1, e2, e3⟩
      intro rest
      rw [happ, parse_section_token tok v v1 rest hm hc c1 c2 c3 c4]

/-- Witness for C29 (amended): after the tokens of `buildCmd`, with the
section of the compiler open, `--help` prints the usage and `-f` is
appended to the compiler list. -/
theorem main_parse_section_tokens_witness :
    main simOS 0 ("kObjCache".toList :: (buildCmd.drop 1 ++ "--help".toList :: [])) World.empty
      = (Res.ok 0, World.empty, [Event.stdout Diag.usage])
    ∧ ∃ v1, (∀ rest, main.parse (buildCmd.drop 1 ++ "-f".toList :: rest) MainVars.init
          = main.parse rest v1)
        ∧ v1.papszArgvPreComp = ["cpp".toList]
        ∧ v1.papszArgvCompile = ["cc".toList, "-f".toList] :=
  ⟨(main_parse_section_tokens (buildCmd.drop 1) buildVars main_parse_buildCmd).1
      World simOS 0 "kObjCache".toList [] World.empty,
    (((main_parse_section_tokens (buildCmd.drop 1) buildVars main_parse_buildCmd).2
        (by decide)).2 "-f".toList (by decide) (by decide) (by decide) (by decide)).imp
      (fun _ h => ⟨h.1, h.2.1, h.2.2.1⟩)⟩

end kObjCache
